import Mathlib

/-! # Arc window decoration (arcdecoration.h, arcdecoration.cpp, arcbutton.cpp)

A shallow embedding of the geometry, shadow-cache and button-colour code of the
Arc decoration, followed by the properties established about it.

Conventions of the embedding

* C++ `int` is `Int`; `a / b` on `int` is `Int.tdiv` (truncation toward zero).
  No value of the decoration comes near the 32-bit range, so no wrap-around is
  modelled.
* `qreal` is `ℚ`; a conversion `qreal -> int` truncates toward zero.
* The Qt value classes (`QPoint`, `QSize`, `QRect`, `QMargins`, `QColor`) are
  small records with the accessors the decoration calls.
* Constants of `arc.h` and the enumerators of the generated `arcsettings.h` are
  not fixed here: they are the fields of `Metrics` and `Enum`, which every
  function that reads them takes as arguments.
* A shared pointer that may be null is an `Option`.
-/

namespace Arc

/-! ## Qt value classes -/

/-- Model of `QPoint`: integer point. -/
structure QPoint where
  x : Int
  y : Int
  deriving DecidableEq, Repr

/-- Model of `QSize`: integer size. -/
structure QSize where
  width : Int
  height : Int
  deriving DecidableEq, Repr

/-- Model of `QSize::expandedTo`: component-wise maximum. -/
def QSize.expandedTo (a b : QSize) : QSize :=
  { width := max a.width b.width, height := max a.height b.height }

/-- Model of `QMargins(left, top, right, bottom)`. -/
structure QMargins where
  left : Int
  top : Int
  right : Int
  bottom : Int
  deriving DecidableEq, Repr

/-- Model of `QRect`, stored as Qt stores it: the two corner pixels, both inclusive.
`x2 = x1 - 1` is a rectangle of width 0. -/
structure QRect where
  x1 : Int
  y1 : Int
  x2 : Int
  y2 : Int
  deriving DecidableEq, Repr

/-- Model of `QRect()`: the null rectangle. -/
def QRect.null : QRect := { x1 := 0, y1 := 0, x2 := -1, y2 := -1 }

/-- Model of `QRect(x, y, width, height)`. -/
def QRect.ofXYWH (x y w h : Int) : QRect :=
  { x1 := x, y1 := y, x2 := x + w - 1, y2 := y + h - 1 }

/-- Model of `QRect(QPoint topLeft, QSize size)`. -/
def QRect.ofPointSize (p : QPoint) (s : QSize) : QRect :=
  QRect.ofXYWH p.x p.y s.width s.height

def QRect.left (r : QRect) : Int := r.x1

def QRect.top (r : QRect) : Int := r.y1

def QRect.right (r : QRect) : Int := r.x2

def QRect.bottom (r : QRect) : Int := r.y2

def QRect.width (r : QRect) : Int := r.x2 - r.x1 + 1

def QRect.height (r : QRect) : Int := r.y2 - r.y1 + 1

/-- Model of `QRect::setTop`: moves the top edge, the bottom edge stays. -/
def QRect.setTop (r : QRect) (t : Int) : QRect := { r with y1 := t }

/-- Model of `QRect::setHeight`: keeps the top edge. -/
def QRect.setHeight (r : QRect) (h : Int) : QRect := { r with y2 := r.y1 + h - 1 }

/-- Model of `QRect::moveLeft`: moves the rectangle horizontally, the width stays. -/
def QRect.moveLeft (r : QRect) (pos : Int) : QRect :=
  { r with x1 := pos, x2 := r.x2 + (pos - r.x1) }

/-- Model of `QRect::center`. -/
def QRect.center (r : QRect) : QPoint :=
  { x := Int.tdiv (r.x1 + r.x2) 2, y := Int.tdiv (r.y1 + r.y2) 2 }

/-- Model of `QRect::moveCenter`. -/
def QRect.moveCenter (r : QRect) (p : QPoint) : QRect :=
  let w := r.x2 - r.x1
  let h := r.y2 - r.y1
  let nx := p.x - Int.tdiv w 2
  let ny := p.y - Int.tdiv h 2
  { x1 := nx, y1 := ny, x2 := nx + w, y2 := ny + h }

/-- Model of `QRect - QMargins` (`marginsRemoved`). -/
def QRect.marginsRemoved (r : QRect) (m : QMargins) : QRect :=
  { x1 := r.x1 + m.left, y1 := r.y1 + m.top, x2 := r.x2 - m.right, y2 := r.y2 - m.bottom }

/-- Model of `QRectF` as the decoration uses it for buttons and button groups. Every
coordinate written there by the decoration is an `int` (positions, button
sizes and spacing), so the fields are whole numbers. -/
structure QRectF where
  x : Int
  y : Int
  width : Int
  height : Int
  deriving DecidableEq, Repr

/-- Model of `QRectF()`. -/
def QRectF.null : QRectF := { x := 0, y := 0, width := 0, height := 0 }

/-- The pixel rectangle `r` and the area `g` have a pixel in common: some pixel
column `r.x1 .. r.x2` meets the span `[g.x, g.x + g.width)` and some pixel row
meets `[g.y, g.y + g.height)`. An empty rectangle overlaps nothing. -/
def QRect.overlaps (r : QRect) (g : QRectF) : Prop :=
  max r.x1 g.x ≤ min r.x2 (g.x + g.width - 1) ∧ max r.y1 g.y ≤ min r.y2 (g.y + g.height - 1)

instance (r : QRect) (g : QRectF) : Decidable (r.overlaps g) := by
  unfold QRect.overlaps
  exact inferInstance

/-- The pixel `(px, py)` lies in the rectangle. -/
def QRect.containsPixel (r : QRect) (px py : Int) : Prop :=
  r.x1 ≤ px ∧ px ≤ r.x2 ∧ r.y1 ≤ py ∧ py ≤ r.y2

/-- The pixel `(px, py)` lies in the area. -/
def QRectF.containsPixel (g : QRectF) (px py : Int) : Prop :=
  g.x ≤ px ∧ px < g.x + g.width ∧ g.y ≤ py ∧ py < g.y + g.height

/-- Model of `QColor`, with the 16-bit channels Qt keeps. `valid = false` is `QColor()`. -/
structure QColor where
  valid : Bool
  alpha : Nat
  red : Nat
  green : Nat
  blue : Nat
  deriving DecidableEq, Repr

/-- Model of `QColor()`: the invalid colour. -/
def QColor.invalid : QColor := { valid := false, alpha := 65535, red := 0, green := 0, blue := 0 }

/-- Model of `QColor("#AARRGGBB")`: each 8-bit channel `c` is stored as `c * 0x101`. -/
def QColor.fromArgb (a r g b : Nat) : QColor :=
  { valid := true, alpha := a * 257, red := r * 257, green := g * 257, blue := b * 257 }

/-- Model of `QColor("#RRGGBB")`: fully opaque. -/
def QColor.fromRgb (r g b : Nat) : QColor := QColor.fromArgb 255 r g b

/-- Model of `Qt::black`. -/
def Qt.black : QColor := QColor.fromRgb 0 0 0

/-- Model of `QColor::isValid`. -/
def QColor.isValid (c : QColor) : Bool := c.valid

/-- Model of `QColor::alpha()`: the 8-bit alpha. -/
def QColor.alpha8 (c : QColor) : Nat := c.alpha / 256

/-- Conversion `qreal -> int`: truncation toward zero. -/
def qrealToInt (q : ℚ) : Int := if 0 ≤ q then Int.floor q else Int.ceil q

/-- Model of `qRound`. -/
def qRound (q : ℚ) : Int := if 0 ≤ q then Int.floor (q + 1 / 2) else Int.ceil (q - 1 / 2)

/-- Model of `QColor::setAlpha(int)`: the value is brought into `0..255` first. -/
def QColor.setAlpha (c : QColor) (a : Int) : QColor :=
  { c with alpha := (max 0 (min a 255)).toNat * 257 }

/-- Model of `QColor::setAlphaF(qreal)`: the value is brought into `[0, 1]` first. -/
def QColor.setAlphaF (c : QColor) (a : ℚ) : QColor :=
  { c with alpha := (qRound (max 0 (min a 1) * 65535)).toNat }

/-- Model of `Qt::AlignmentFlag` values. -/
def Qt.AlignLeft : Nat := 0x0001

def Qt.AlignRight : Nat := 0x0002

def Qt.AlignHCenter : Nat := 0x0004

def Qt.AlignVCenter : Nat := 0x0080

def Qt.AlignCenter : Nat := Qt.AlignVCenter ||| Qt.AlignHCenter

/-- Model of `Qt::Edges` as returned by `adjacentScreenEdges()`: one flag per edge. -/
structure Qt.Edges where
  LeftEdge : Bool
  TopEdge : Bool
  RightEdge : Bool
  BottomEdge : Bool
  deriving DecidableEq, Repr

/-- Model of `Qt::Edge`. -/
inductive Qt.Edge where
  | TopEdge
  | LeftEdge
  | RightEdge
  | BottomEdge
  deriving DecidableEq, Repr

/-- Model of `QFlags::testFlag`. -/
def Qt.Edges.testFlag (es : Qt.Edges) : Qt.Edge → Bool
  | Qt.Edge.TopEdge => es.TopEdge
  | Qt.Edge.LeftEdge => es.LeftEdge
  | Qt.Edge.RightEdge => es.RightEdge
  | Qt.Edge.BottomEdge => es.BottomEdge

/-! ## Constants and enumerators declared outside the three source files -/

/-- The constants of `arc.h` the decoration reads: the `Metrics` enumerators and
the `BorderSize` bit of the exception mask. Their values are not fixed here. -/
structure Metrics where
  TitleBar_TopMargin : Int
  TitleBar_BottomMargin : Int
  TitleBar_SideMargin : Int
  TitleBar_ButtonSpacing : Int
  Frame_FrameRadius : Int
  Shadow_Overlap : Int
  BorderSize : Nat

/-- The enumerators of the generated settings class (`arcsettings.h`) that the
decoration compares settings against. The settings themselves hold plain
`int`s, so a stored value need not be one of them. -/
structure InternalSettings.Enum where
  ShadowNone : Int
  ShadowSmall : Int
  ShadowMedium : Int
  ShadowLarge : Int
  ShadowVeryLarge : Int
  ThemeDark : Int
  BorderNone : Int
  BorderNoSides : Int
  BorderTiny : Int
  BorderNormal : Int
  BorderLarge : Int
  BorderVeryLarge : Int
  BorderHuge : Int
  BorderVeryHuge : Int
  BorderOversized : Int
  ButtonTiny : Int
  ButtonSmall : Int
  ButtonDefault : Int
  ButtonLarge : Int
  ButtonVeryLarge : Int
  AlignLeft : Int
  AlignRight : Int
  AlignCenter : Int
  AlignCenterFullWidth : Int

/-- Model of `KDecoration2::BorderSize`. -/
inductive KDecoration2.BorderSize where
  | None
  | NoSides
  | Tiny
  | Normal
  | Large
  | VeryLarge
  | Huge
  | VeryHuge
  | Oversized
  deriving DecidableEq, Repr

/-- Model of `KDecoration2::DecorationButtonType`. -/
inductive DecorationButtonType where
  | Menu
  | ApplicationMenu
  | OnAllDesktops
  | Minimize
  | Maximize
  | Close
  | ContextHelp
  | Shade
  | KeepBelow
  | KeepAbove
  | Custom
  deriving DecidableEq, Repr

/-! ## Settings, client, animation -/

/-- Model of `QFontMetrics` of the title font: the line height and the bounding rectangle
of a string, already rounded to pixels (`boundingRect(...).toRect()`). -/
structure QFontMetrics where
  height : Int
  boundingRect : String → QRect

/-- Model of `KDecoration2::DecorationSettings`: what the decoration reads from it. -/
structure DecorationSettings where
  smallSpacing : Int
  largeSpacing : Int
  gridUnit : Int
  borderSize : KDecoration2.BorderSize
  fontMetrics : QFontMetrics
  isAlphaChannelSupported : Bool

/-- Model of `Arc::InternalSettings`: the configuration snapshot of one decoration. -/
structure InternalSettings where
  arcTheme : Int
  mask : Nat
  borderSize : Int
  buttonSize : Int
  titleAlignment : Int
  hideTitleBar : Bool
  drawBorderOnMaximizedWindows : Bool
  shadowSize : Int
  shadowStrength : Int
  shadowColor : QColor
  animationsEnabled : Bool
  animationsDuration : Int
  auroraeIcons : Bool

/-- Model of `KDecoration2::DecoratedClient`: the window-state snapshot. -/
structure DecoratedClient where
  isActive : Bool
  isMaximizedHorizontally : Bool
  isMaximizedVertically : Bool
  isShaded : Bool
  adjacentScreenEdges : Qt.Edges
  width : Int
  height : Int
  caption : String

/-- Model of `DecoratedClient::isMaximized`: maximized in both directions. -/
def DecoratedClient.isMaximized (c : DecoratedClient) : Bool :=
  c.isMaximizedHorizontally && c.isMaximizedVertically

/-- Model of `QAbstractAnimation::State`. -/
inductive QAbstractAnimation.State where
  | Stopped
  | Paused
  | Running
  deriving DecidableEq, Repr

/-- Model of `QAbstractAnimation::Direction`. -/
inductive QAbstractAnimation.Direction where
  | Forward
  | Backward
  deriving DecidableEq, Repr

/-- Model of `QVariantAnimation` from 0.0 to 1.0: what the decoration and the buttons
read and set. The loop count keeps its default, 1. `currentValue` is `none`
until the first value is computed (an invalid `QVariant`). -/
structure QVariantAnimation where
  state : QAbstractAnimation.State
  direction : QAbstractAnimation.Direction
  duration : Int
  currentTime : Int
  totalCurrentTime : Int
  currentValue : Option ℚ
  deriving DecidableEq, Repr

/-- The function behind `QEasingCurve::InOutQuad`, the curve both the decoration
and the buttons set: `t*=2; if (t < 1) return t*t/2; --t; return -0.5*(t*(t-2) - 1)`. -/
def QEasingCurve.easeInOutQuad (t : ℚ) : ℚ :=
  let t := t * 2
  if t < 1 then t * t / 2
  else
    let t := t - 1;
    -(1 / 2) * (t * (t - 2) - 1)

/-- Model of `QEasingCurve::valueForProgress` for `InOutQuad`: the progress is
bounded to [0, 1] first. -/
def QEasingCurve.valueForProgress (progress : ℚ) : ℚ :=
  QEasingCurve.easeInOutQuad (max 0 (min progress 1))

/-- Model of `QVariantAnimationPrivate::recalculateCurrentInterval` with the two key
values 0.0 and 1.0: the current value becomes the eased progress of
`currentTime / duration` (the end of the direction for a duration of 0). -/
def QVariantAnimation.recalculateCurrentInterval (a : QVariantAnimation) : QVariantAnimation :=
  let endProgress : ℚ := if a.direction = QAbstractAnimation.Direction.Forward then 1 else 0
  let progress := QEasingCurve.valueForProgress
    (if a.duration = 0 then endProgress else (a.currentTime : ℚ) / (a.duration : ℚ))
  { a with currentValue := some (0 + (1 - 0) * progress) }

/-- Model of `QAbstractAnimation::stop`. -/
def QVariantAnimation.stop (a : QVariantAnimation) : QVariantAnimation :=
  if a.state = QAbstractAnimation.State.Stopped then a
  else { a with state := QAbstractAnimation.State.Stopped }

/-- Model of `QAbstractAnimation::setCurrentTime` with loop count 1: the time is
bounded to [0, duration], the current value is recomputed, and the animation
stops at the end of its direction. -/
def QVariantAnimation.setCurrentTime (a : QVariantAnimation) (msecs : Int) : QVariantAnimation :=
  let msecs := max msecs 0
  let dura := a.duration
  let totalDura := if dura ≤ 0 then dura else dura * 1
  let msecs := if totalDura ≠ -1 then min totalDura msecs else msecs
  let currentLoop := if dura ≤ 0 then 0 else Int.tdiv msecs dura
  let currentTime :=
    if currentLoop = 1 then max 0 dura
    else if a.direction = QAbstractAnimation.Direction.Forward then
      (if dura ≤ 0 then msecs else Int.tmod msecs dura)
    else
      (if dura ≤ 0 then msecs else Int.tmod (msecs - 1) dura + 1)
  let a := { a with totalCurrentTime := msecs, currentTime := currentTime }
  let a := a.recalculateCurrentInterval
  if (a.direction == QAbstractAnimation.Direction.Forward && a.totalCurrentTime == totalDura)
      || (a.direction == QAbstractAnimation.Direction.Backward && a.totalCurrentTime == 0) then
    a.stop
  else a

/-- Model of `QAbstractAnimation::setDirection`: a stopped animation is moved to the
start of the new direction; a running one keeps its time. -/
def QVariantAnimation.setDirection (a : QVariantAnimation)
    (direction : QAbstractAnimation.Direction) : QVariantAnimation :=
  if a.direction = direction then a
  else
    let a :=
      if a.state = QAbstractAnimation.State.Stopped then
        if direction = QAbstractAnimation.Direction.Backward then
          { a with currentTime := a.duration }
        else { a with currentTime := 0 }
      else a
    { a with direction := direction }

/-- Model of `QAbstractAnimation::start`: nothing when running; from the stopped
state the time is rewound to the start of the direction and the value for that
time is computed. -/
def QVariantAnimation.start (a : QVariantAnimation) : QVariantAnimation :=
  if a.state = QAbstractAnimation.State.Running then a
  else
    let oldState := a.state
    let a :=
      if oldState = QAbstractAnimation.State.Stopped then
        let t := if a.direction = QAbstractAnimation.Direction.Forward then 0 else a.duration * 1
        { a with totalCurrentTime := t, currentTime := t }
      else a
    let a := { a with state := QAbstractAnimation.State.Running }
    if oldState = QAbstractAnimation.State.Stopped then a.setCurrentTime a.totalCurrentTime
    else a

/-- Model of `QVariantAnimation::setDuration`: a negative value is refused. -/
def QVariantAnimation.setDuration (a : QVariantAnimation) (msecs : Int) : QVariantAnimation :=
  if msecs < 0 then a
  else if a.duration = msecs then a
  else ({ a with duration := msecs }).recalculateCurrentInterval

/-- Model of `QAnimationTimer::updateAnimationsTime`: one timer tick after `delta`
milliseconds. Only a running animation is registered with the timer. -/
def QVariantAnimation.updateAnimationTime (a : QVariantAnimation) (delta : Nat) :
    QVariantAnimation :=
  if a.state = QAbstractAnimation.State.Running ∧ delta ≠ 0 then
    a.setCurrentTime (a.totalCurrentTime
      + (if a.direction = QAbstractAnimation.Direction.Forward then (delta : Int)
         else -(delta : Int)))
  else a

/-- A sequence of timer ticks on an animation. -/
def QVariantAnimation.updateAnimationTimes (a : QVariantAnimation) : List Nat → QVariantAnimation
  | [] => a
  | delta :: deltas => (a.updateAnimationTime delta).updateAnimationTimes deltas

/-- The signal `valueChanged` between two states of an animation: emitted, with
the new value, only when the current value has changed. -/
def QVariantAnimation.valueChanged (old new : QVariantAnimation) : Option ℚ :=
  if new.currentValue ≠ old.currentValue then new.currentValue else none

/-! ## Buttons -/

/-- Model of `Button::Flag`. -/
inductive Button.Flag where
  | FlagNone
  | FlagStandalone
  | FlagFirstInList
  | FlagLastInList
  deriving DecidableEq, Repr

/-- Model of `Arc::Button` with the state of its `DecorationButton` base. -/
structure Button where
  type : DecorationButtonType
  isPressed : Bool
  isChecked : Bool
  isHovered : Bool
  isVisible : Bool
  geometry : QRectF
  m_flag : Button.Flag
  m_animation : QVariantAnimation
  m_offset : QPoint
  m_iconSize : QSize
  m_opacity : ℚ
  m_iconBg : QColor
  m_iconUnfocusedBg : QColor
  m_iconHoverBg : QColor
  m_iconActiveBg : QColor
  m_buttonHoverBg : QColor
  m_buttonActiveBg : QColor
  m_buttonHoverBorder : QColor
  m_buttonSelectedBg : QColor
  m_buttonCloseBg : QColor
  m_buttonCloseHoverBg : QColor
  m_buttonCloseActiveBg : QColor

/-- Model of `KDecoration2::DecorationButtonGroup`: its buttons, its layout rectangle and
its spacing. -/
structure DecorationButtonGroup where
  buttons : List Button
  geometry : QRectF
  spacing : Int

/-! ## The decoration -/

/-- Model of `QPainter::CompositionMode`: the two modes `createShadow` sets. -/
inductive CompositionMode where
  | SourceOver
  | DestinationOut
  deriving DecidableEq, Repr

/-- One `QPainter::drawRoundedRect(rect, radius, radius)` call with the pen,
brush and composition mode set for it (`none` is `Qt::NoPen` / `Qt::NoBrush`). -/
structure DrawRoundedRect where
  mode : CompositionMode
  pen : Option QColor
  brush : Option QColor
  rect : QRect
  radius : ℚ
  deriving DecidableEq, Repr

/-- Model of `QImage` as the shadow texture: its size, the pixels the box-shadow
renderer produced, and the rounded rectangles painted onto them afterwards. -/
structure QImage where
  size : QSize
  pixels : List Nat
  painted : List DrawRoundedRect
  deriving DecidableEq, Repr

/-- Model of `QImage::rect`. -/
def QImage.rect (i : QImage) : QRect := QRect.ofPointSize { x := 0, y := 0 } i.size

/-- Model of `KDecoration2::DecorationShadow`: padding, inner rectangle and texture. -/
structure DecorationShadow where
  padding : QMargins
  innerShadowRect : QRect
  shadow : QImage
  deriving DecidableEq, Repr

/-- Model of `Arc::Decoration` with the state of its `KDecoration2::Decoration` base:
the client (a weak pointer, `none` when gone), the settings, the borders, the
title-bar rectangle, the size and the installed shadow. -/
structure Decoration where
  client : Option DecoratedClient
  settings : DecorationSettings
  m_internalSettings : InternalSettings
  borders : QMargins
  resizeOnlyBorders : QMargins
  titleBar : QRect
  size : QSize
  shadow : Option DecorationShadow
  m_leftButtons : DecorationButtonGroup
  m_rightButtons : DecorationButtonGroup
  m_animation : QVariantAnimation
  m_opacity : ℚ

def Decoration.borderLeft (d : Decoration) : Int := d.borders.left

def Decoration.borderTop (d : Decoration) : Int := d.borders.top

def Decoration.borderRight (d : Decoration) : Int := d.borders.right

def Decoration.borderBottom (d : Decoration) : Int := d.borders.bottom

/-- Model of `Decoration::isMaximized` (arcdecoration.h). -/
def Decoration.isMaximized (d : Decoration) : Bool :=
  match d.client with
  | none => false
  | some c => c.isMaximized && !d.m_internalSettings.drawBorderOnMaximizedWindows

/-- Model of `Decoration::isMaximizedHorizontally`. -/
def Decoration.isMaximizedHorizontally (d : Decoration) : Bool :=
  match d.client with
  | none => false
  | some c => c.isMaximizedHorizontally && !d.m_internalSettings.drawBorderOnMaximizedWindows

/-- Model of `Decoration::isMaximizedVertically`. -/
def Decoration.isMaximizedVertically (d : Decoration) : Bool :=
  match d.client with
  | none => false
  | some c => c.isMaximizedVertically && !d.m_internalSettings.drawBorderOnMaximizedWindows

/-- Model of `Decoration::isLeftEdge`. -/
def Decoration.isLeftEdge (d : Decoration) : Bool :=
  match d.client with
  | none => false
  | some c =>
    (c.isMaximizedHorizontally || c.adjacentScreenEdges.testFlag Qt.Edge.LeftEdge)
      && !d.m_internalSettings.drawBorderOnMaximizedWindows

/-- Model of `Decoration::isRightEdge`. -/
def Decoration.isRightEdge (d : Decoration) : Bool :=
  match d.client with
  | none => false
  | some c =>
    (c.isMaximizedHorizontally || c.adjacentScreenEdges.testFlag Qt.Edge.RightEdge)
      && !d.m_internalSettings.drawBorderOnMaximizedWindows

/-- Model of `Decoration::isTopEdge`. -/
def Decoration.isTopEdge (d : Decoration) : Bool :=
  match d.client with
  | none => false
  | some c =>
    (c.isMaximizedVertically || c.adjacentScreenEdges.testFlag Qt.Edge.TopEdge)
      && !d.m_internalSettings.drawBorderOnMaximizedWindows

/-- Model of `Decoration::isBottomEdge`. -/
def Decoration.isBottomEdge (d : Decoration) : Bool :=
  match d.client with
  | none => false
  | some c =>
    (c.isMaximizedVertically || c.adjacentScreenEdges.testFlag Qt.Edge.BottomEdge)
      && !d.m_internalSettings.drawBorderOnMaximizedWindows

/-- Model of `Decoration::hideTitleBar`. -/
def Decoration.hideTitleBar (d : Decoration) : Bool :=
  match d.client with
  | none => false
  | some c => d.m_internalSettings.hideTitleBar && !c.isShaded

/-- Model of `Decoration::borderSize`. `m_internalSettings` is set by `reconfigure`
before anything reads it, so its null test is always passed. A `switch` picks
the first matching label; `default` stands with the `Tiny` label. -/
def Decoration.borderSize (E : InternalSettings.Enum) (M : Metrics) (d : Decoration) : Int :=
  let baseSize := d.settings.smallSpacing
  if d.m_internalSettings.mask &&& M.BorderSize ≠ 0 then
    let b := d.m_internalSettings.borderSize
    if b = E.BorderNone then 0
    else if b = E.BorderNoSides then 0
    else if b = E.BorderTiny then 1
    else if b = E.BorderNormal then baseSize * 2
    else if b = E.BorderLarge then baseSize * 3
    else if b = E.BorderVeryLarge then baseSize * 4
    else if b = E.BorderHuge then baseSize * 5
    else if b = E.BorderVeryHuge then baseSize * 6
    else if b = E.BorderOversized then baseSize * 10
    else 1
  else
    match d.settings.borderSize with
    | KDecoration2.BorderSize.None => 0
    | KDecoration2.BorderSize.NoSides => 0
    | KDecoration2.BorderSize.Tiny => 1
    | KDecoration2.BorderSize.Normal => baseSize * 2
    | KDecoration2.BorderSize.Large => baseSize * 3
    | KDecoration2.BorderSize.VeryLarge => baseSize * 4
    | KDecoration2.BorderSize.Huge => baseSize * 5
    | KDecoration2.BorderSize.VeryHuge => baseSize * 6
    | KDecoration2.BorderSize.Oversized => baseSize * 10

/-- Model of `Decoration::buttonHeight`. `baseSize*1.5` is computed in `double` and
converted back to `int`, i.e. `3*baseSize/2` truncated; likewise 2.5 and 3.5. -/
def Decoration.buttonHeight (E : InternalSettings.Enum) (d : Decoration) : Int :=
  let baseSize := d.settings.gridUnit
  let b := d.m_internalSettings.buttonSize
  if b = E.ButtonTiny then baseSize
  else if b = E.ButtonSmall then Int.tdiv (baseSize * 3) 2
  else if b = E.ButtonDefault then baseSize * 2
  else if b = E.ButtonLarge then Int.tdiv (baseSize * 5) 2
  else if b = E.ButtonVeryLarge then Int.tdiv (baseSize * 7) 2
  else baseSize * 2

/-- Model of `Decoration::recalculateBorders`: sets the borders and the resize-only
borders; does nothing when the client is gone. -/
def Decoration.recalculateBorders (E : InternalSettings.Enum) (M : Metrics) (d : Decoration) :
    Decoration :=
  match d.client with
  | none => d
  | some c =>
    let s := d.settings
    let left := if d.isLeftEdge then 0 else d.borderSize E M
    let right := if d.isRightEdge then 0 else d.borderSize E M
    let bottom := if c.isShaded || d.isBottomEdge then 0 else d.borderSize E M
    let top :=
      if d.hideTitleBar then bottom
      else
        let baseSize := s.smallSpacing
        0 + max s.fontMetrics.height (d.buttonHeight E)
          + (baseSize * M.TitleBar_BottomMargin + 1)
          + baseSize * M.TitleBar_TopMargin
    let extSize := s.largeSpacing
    let extTop := if d.isTopEdge then 0 else extSize
    let extLeft := if d.isLeftEdge then 0 else extSize
    let extRight := if d.isRightEdge then 0 else extSize
    let extBottom := if d.isBottomEdge then 0 else extSize
    { d with
      borders := { left := left, top := top, right := right, bottom := bottom }
      resizeOnlyBorders := { left := extLeft, top := extTop, right := extRight, bottom := extBottom } }

/-- Model of `Decoration::captionHeight`. -/
def Decoration.captionHeight (M : Metrics) (d : Decoration) : Int :=
  if d.hideTitleBar then d.borderTop
  else d.borderTop - d.settings.smallSpacing * (M.TitleBar_BottomMargin + M.TitleBar_TopMargin) - 1

/-- The `leftOffset` of `Decoration::captionRect`. -/
def Decoration.captionLeftOffset (M : Metrics) (d : Decoration) : Int :=
  if d.m_leftButtons.buttons.isEmpty then
    M.TitleBar_SideMargin * d.settings.smallSpacing
  else
    d.m_leftButtons.geometry.x + d.m_leftButtons.geometry.width
      + M.TitleBar_SideMargin * d.settings.smallSpacing

/-- The `rightOffset` of `Decoration::captionRect`. -/
def Decoration.captionRightOffset (M : Metrics) (d : Decoration) : Int :=
  if d.m_rightButtons.buttons.isEmpty then
    M.TitleBar_SideMargin * d.settings.smallSpacing
  else
    d.size.width - d.m_rightButtons.geometry.x + M.TitleBar_SideMargin * d.settings.smallSpacing

/-- The `maxRect` of `Decoration::captionRect`: the space between the groups. -/
def Decoration.captionMaxRect (M : Metrics) (d : Decoration) : QRect :=
  let leftOffset := d.captionLeftOffset M
  let rightOffset := d.captionRightOffset M
  let yOffset := d.settings.smallSpacing * M.TitleBar_TopMargin
  QRect.ofXYWH leftOffset yOffset (d.size.width - leftOffset - rightOffset) (d.captionHeight M)

/-- The `fullRect` of `Decoration::captionRect`: the whole width. -/
def Decoration.captionFullRect (M : Metrics) (d : Decoration) : QRect :=
  let yOffset := d.settings.smallSpacing * M.TitleBar_TopMargin
  QRect.ofXYWH 0 yOffset d.size.width (d.captionHeight M)

/-- The `boundingRect` of `Decoration::captionRect` after it is centred on the
whole width. -/
def Decoration.captionBoundingRect (M : Metrics) (d : Decoration) (caption : String) : QRect :=
  let yOffset := d.settings.smallSpacing * M.TitleBar_TopMargin
  let boundingRect := d.settings.fontMetrics.boundingRect caption
  let boundingRect := boundingRect.setTop yOffset
  let boundingRect := boundingRect.setHeight (d.captionHeight M)
  boundingRect.moveLeft (Int.tdiv (d.size.width - boundingRect.width) 2)

/-- Model of `Decoration::captionRect`. The full-width branch reads the caption through
the client pointer without a null test: with no client there that is a null
dereference, `none` here. -/
def Decoration.captionRect (E : InternalSettings.Enum) (M : Metrics) (d : Decoration) :
    Option (QRect × Nat) :=
  if d.hideTitleBar then some (QRect.null, Qt.AlignCenter)
  else
    let leftOffset := d.captionLeftOffset M
    let rightOffset := d.captionRightOffset M
    let maxRect := d.captionMaxRect M
    let a := d.m_internalSettings.titleAlignment
    if a = E.AlignLeft then some (maxRect, Qt.AlignVCenter ||| Qt.AlignLeft)
    else if a = E.AlignRight then some (maxRect, Qt.AlignVCenter ||| Qt.AlignRight)
    else if a = E.AlignCenter then some (maxRect, Qt.AlignCenter)
    else
      match d.client with
      | none => none
      | some c =>
        let fullRect := d.captionFullRect M
        let boundingRect := d.captionBoundingRect M c.caption
        if boundingRect.left < leftOffset then some (maxRect, Qt.AlignVCenter ||| Qt.AlignLeft)
        else if boundingRect.right > d.size.width - rightOffset then
          some (maxRect, Qt.AlignVCenter ||| Qt.AlignRight)
        else some (fullRect, Qt.AlignCenter)

/-! ## Colours of the decoration -/

def LIGHT_TITLE_FONT_COLOR : QColor := QColor.fromArgb 0xf1 0x52 0x5d 0x76

def LIGHT_TITLE_FONT_COLOR_INACTIVE : QColor := QColor.fromArgb 0x7f 0x52 0x5d 0x76

def LIGHT_WINDOW_MAIN_BG : QColor := QColor.fromRgb 0xe7 0xe8 0xeb

def LIGHT_WINDOW_MAIN_BORDER : QColor := QColor.fromArgb 0x4a 0x00 0x00 0x00

def LIGHT_WINDOW_HIGHLIGHT : QColor := QColor.fromRgb 0xef 0xf0 0xf2

def DARK_TITLE_FONT_COLOR : QColor := QColor.fromArgb 0xf1 0xcf 0xda 0xe7

def DARK_TITLE_FONT_COLOR_INACTIVE : QColor := QColor.fromArgb 0x7f 0xcf 0xda 0xe7

def DARK_WINDOW_MAIN_BG : QColor := QColor.fromRgb 0x2f 0x34 0x3f

def DARK_WINDOW_MAIN_BORDER : QColor := QColor.fromArgb 0xB9 0x00 0x00 0x00

def DARK_WINDOW_HIGHLIGHT : QColor := QColor.fromRgb 0x36 0x3b 0x48

/-- Model of `Decoration::titleBarColor`. -/
def Decoration.titleBarColor (E : InternalSettings.Enum) (d : Decoration) : QColor :=
  if d.m_internalSettings.arcTheme = E.ThemeDark then DARK_WINDOW_MAIN_BG else LIGHT_WINDOW_MAIN_BG

/-- Model of `Decoration::outlineColor`. -/
def Decoration.outlineColor (E : InternalSettings.Enum) (d : Decoration) : QColor :=
  if d.m_internalSettings.arcTheme = E.ThemeDark then DARK_WINDOW_MAIN_BORDER
  else LIGHT_WINDOW_MAIN_BORDER

/-- Model of `Decoration::highlightColor`. -/
def Decoration.highlightColor (E : InternalSettings.Enum) (d : Decoration) : QColor :=
  if d.m_internalSettings.arcTheme = E.ThemeDark then DARK_WINDOW_HIGHLIGHT
  else LIGHT_WINDOW_HIGHLIGHT

/-! ## Shadow parameters and the shared shadow -/

/-- Model of `ShadowParams`. -/
structure ShadowParams where
  offset : QPoint
  radius : Int
  opacity : ℚ
  deriving DecidableEq, Repr

/-- Model of `ShadowParams()`. -/
def ShadowParams.default : ShadowParams := { offset := { x := 0, y := 0 }, radius := 0, opacity := 0 }

/-- Model of `CompositeShadowParams`. -/
structure CompositeShadowParams where
  offset : QPoint
  shadow1 : ShadowParams
  shadow2 : ShadowParams
  deriving DecidableEq, Repr

/-- Model of `CompositeShadowParams()`. -/
def CompositeShadowParams.default : CompositeShadowParams :=
  { offset := { x := 0, y := 0 }, shadow1 := ShadowParams.default, shadow2 := ShadowParams.default }

/-- Model of `CompositeShadowParams::isNone`. -/
def CompositeShadowParams.isNone (p : CompositeShadowParams) : Bool :=
  max p.shadow1.radius p.shadow2.radius == 0

/-- The table `s_shadowParams[]`: None, Small, Medium, Large, Very large. -/
def s_shadowParams : Fin 5 → CompositeShadowParams
  | 0 => CompositeShadowParams.default
  | 1 =>
    { offset := { x := 0, y := 4 }
      shadow1 := { offset := { x := 0, y := 0 }, radius := 16, opacity := 1 }
      shadow2 := { offset := { x := 0, y := -2 }, radius := 8, opacity := 4 / 10 } }
  | 2 =>
    { offset := { x := 0, y := 8 }
      shadow1 := { offset := { x := 0, y := 0 }, radius := 32, opacity := 9 / 10 }
      shadow2 := { offset := { x := 0, y := -4 }, radius := 16, opacity := 3 / 10 } }
  | 3 =>
    { offset := { x := 0, y := 12 }
      shadow1 := { offset := { x := 0, y := 0 }, radius := 48, opacity := 8 / 10 }
      shadow2 := { offset := { x := 0, y := -6 }, radius := 24, opacity := 2 / 10 } }
  | 4 =>
    { offset := { x := 0, y := 16 }
      shadow1 := { offset := { x := 0, y := 0 }, radius := 64, opacity := 7 / 10 }
      shadow2 := { offset := { x := 0, y := -8 }, radius := 32, opacity := 1 / 10 } }

/-- Model of `lookupShadowParams`. -/
def lookupShadowParams (E : InternalSettings.Enum) (size : Int) : CompositeShadowParams :=
  if size = E.ShadowNone then s_shadowParams 0
  else if size = E.ShadowSmall then s_shadowParams 1
  else if size = E.ShadowMedium then s_shadowParams 2
  else if size = E.ShadowLarge then s_shadowParams 3
  else if size = E.ShadowVeryLarge then s_shadowParams 4
  else s_shadowParams 3

/-- One `BoxShadowRenderer::addShadow(offset, radius, color)` call. -/
structure BoxShadow where
  offset : QPoint
  radius : Int
  color : QColor
  deriving DecidableEq, Repr

/-- Model of `Breeze::BoxShadowRenderer` (breezeboxshadowrenderer.h, outside the three
source files): the two operations `createShadow` calls, left unspecified.
`render` receives what was set on the renderer: border radius, box size, device
pixel ratio and the shadows added, in order. -/
structure BoxShadowRenderer where
  calculateMinimumBoxSize : Int → QSize
  render : ℚ → QSize → ℚ → List BoxShadow → QImage

/-- The file-scope variables of arcdecoration.cpp. -/
structure Globals where
  g_sDecoCount : Int
  g_shadowSizeEnum : Int
  g_shadowStrength : Int
  g_shadowColor : QColor
  g_sShadow : Option DecorationShadow
  deriving DecidableEq, Repr

/-- The initial values of the file-scope variables. -/
def Globals.initial (E : InternalSettings.Enum) : Globals :=
  { g_sDecoCount := 0
    g_shadowSizeEnum := E.ShadowLarge
    g_shadowStrength := 255
    g_shadowColor := Qt.black
    g_sShadow := none }

/-- Model of `Decoration::Decoration`: the effect on the file-scope variables. -/
def Decoration.construct (g : Globals) : Globals :=
  { g with g_sDecoCount := g.g_sDecoCount + 1 }

/-- Model of `Decoration::~Decoration`: the effect on the file-scope variables. -/
def Decoration.destruct (g : Globals) : Globals :=
  let g := { g with g_sDecoCount := g.g_sDecoCount - 1 }
  if g.g_sDecoCount = 0 then { g with g_sShadow := none } else g

/-- The lambda `withOpacity` of `createShadow`. -/
def withOpacity (color : QColor) (opacity : ℚ) : QColor := color.setAlphaF opacity

/-- The part of `Decoration::createShadow` that builds a new shadow, from the
line computing `boxSize` to the three setters on the new `DecorationShadow`:
it reads the looked-up `params`, `g_shadowStrength` and `g_shadowColor`. -/
def synthesizeShadow (M : Metrics) (R : BoxShadowRenderer) (params : CompositeShadowParams)
    (g_shadowStrength : Int) (g_shadowColor : QColor) : DecorationShadow :=
  let boxSize := (R.calculateMinimumBoxSize params.shadow1.radius).expandedTo
    (R.calculateMinimumBoxSize params.shadow2.radius)
  let strength : ℚ := (g_shadowStrength : ℚ) / 255
  let shadowTexture := R.render ((M.Frame_FrameRadius : ℚ) + 1 / 2) boxSize 1
    [ { offset := params.shadow1.offset, radius := params.shadow1.radius
        color := withOpacity g_shadowColor (params.shadow1.opacity * strength) },
      { offset := params.shadow2.offset, radius := params.shadow2.radius
        color := withOpacity g_shadowColor (params.shadow2.opacity * strength) } ]
  let outerRect := shadowTexture.rect
  let boxRect := (QRect.ofPointSize { x := 0, y := 0 } boxSize).moveCenter outerRect.center
  let padding : QMargins :=
    { left := boxRect.left - outerRect.left - M.Shadow_Overlap - params.offset.x
      top := boxRect.top - outerRect.top - M.Shadow_Overlap - params.offset.y
      right := outerRect.right - boxRect.right - M.Shadow_Overlap + params.offset.x
      bottom := outerRect.bottom - boxRect.bottom - M.Shadow_Overlap + params.offset.y }
  let innerRect := outerRect.marginsRemoved padding
  let shadowTexture :=
    { shadowTexture with
      painted := shadowTexture.painted ++
        [ { mode := CompositionMode.DestinationOut, pen := none, brush := some Qt.black
            rect := innerRect, radius := (M.Frame_FrameRadius : ℚ) + 1 / 2 },
          { mode := CompositionMode.SourceOver
            pen := some (withOpacity g_shadowColor (2 / 10 * strength)), brush := none
            rect := innerRect, radius := (M.Frame_FrameRadius : ℚ) - 1 / 2 } ] }
  { padding := padding
    innerShadowRect := QRect.ofPointSize outerRect.center { width := 1, height := 1 }
    shadow := shadowTexture }

/-- Model of `Decoration::createShadow`: the file-scope variables and the decoration
(its installed shadow) afterwards. -/
def Decoration.createShadow (E : InternalSettings.Enum) (M : Metrics) (R : BoxShadowRenderer)
    (g : Globals) (d : Decoration) : Globals × Decoration :=
  if g.g_sShadow.isNone
      || g.g_shadowSizeEnum != d.m_internalSettings.shadowSize
      || g.g_shadowStrength != d.m_internalSettings.shadowStrength
      || g.g_shadowColor != d.m_internalSettings.shadowColor then
    let g := { g with
      g_shadowSizeEnum := d.m_internalSettings.shadowSize
      g_shadowStrength := d.m_internalSettings.shadowStrength
      g_shadowColor := d.m_internalSettings.shadowColor }
    let params := lookupShadowParams E g.g_shadowSizeEnum
    if params.isNone then
      let g := { g with g_sShadow := none }
      (g, { d with shadow := g.g_sShadow })
    else
      let g := { g with
        g_sShadow := some (synthesizeShadow M R params g.g_shadowStrength g.g_shadowColor) }
      (g, { d with shadow := g.g_sShadow })
  else
    (g, { d with shadow := g.g_sShadow })

/-- The states of the file-scope variables a process can reach: from the
initial values by constructing and destroying decorations and by
`createShadow` calls of decorations with any settings. -/
inductive Globals.Reachable (E : InternalSettings.Enum) (M : Metrics) (R : BoxShadowRenderer) :
    Globals → Prop where
  | initial : Globals.Reachable E M R (Globals.initial E)
  | construct (g : Globals) : Globals.Reachable E M R g →
      Globals.Reachable E M R (Decoration.construct g)
  | destruct (g : Globals) : Globals.Reachable E M R g →
      Globals.Reachable E M R (Decoration.destruct g)
  | createShadow (g : Globals) (d : Decoration) : Globals.Reachable E M R g →
      Globals.Reachable E M R (Decoration.createShadow E M R g d).1

/-! ## Button colours (arcbutton.cpp) -/

def LIGHT_ICON_BG : QColor := QColor.fromRgb 0x90 0x94 0x9E

def LIGHT_ICON_UNFOCUSED_BG : QColor := QColor.fromRgb 0xB6 0xB8 0xC0

def LIGHT_ICON_HOVER_BG : QColor := QColor.fromRgb 0x7A 0x7F 0x8B

def LIGHT_ICON_ACTIVE_BG : QColor := QColor.fromRgb 0xFF 0xFF 0xFF

def LIGHT_BUTTON_HOVER_BG : QColor := QColor.fromRgb 0xfd 0xfd 0xfd

def LIGHT_BUTTON_ACTIVE_BG : QColor := QColor.fromRgb 0x52 0x94 0xe2

def LIGHT_BUTTON_HOVER_BORDER : QColor := QColor.fromRgb 0xD1 0xD3 0xDA

def LIGHT_BUTTON_SELECTED_BG : QColor := QColor.fromRgb 0x52 0x94 0xe2

def LIGHT_BUTTON_CLOSE_BG : QColor := QColor.fromRgb 0xf4 0x60 0x67

def LIGHT_BUTTON_CLOSE_HOVER_BG : QColor := QColor.fromRgb 0xf6 0x80 0x86

def LIGHT_BUTTON_CLOSE_ACTIVE_BG : QColor := QColor.fromRgb 0xf1 0x30 0x39

def DARK_ICON_BG : QColor := QColor.fromRgb 0x90 0x93 0x9B

def DARK_ICON_UNFOCUSED_BG : QColor := QColor.fromRgb 0x66 0x6A 0x74

def DARK_ICON_HOVER_BG : QColor := QColor.fromRgb 0xC4 0xC7 0xCC

def DARK_ICON_ACTIVE_BG : QColor := QColor.fromRgb 0xFF 0xFF 0xFF

def DARK_BUTTON_HOVER_BG : QColor := QColor.fromRgb 0x45 0x4C 0x5C

def DARK_BUTTON_ACTIVE_BG : QColor := QColor.fromRgb 0x52 0x94 0xe2

def DARK_BUTTON_HOVER_BORDER : QColor := QColor.fromRgb 0x26 0x29 0x32

def DARK_BUTTON_SELECTED_BG : QColor := QColor.fromRgb 0x52 0x94 0xe2

def DARK_BUTTON_CLOSE_BG : QColor := QColor.fromRgb 0xcc 0x57 0x5d

def DARK_BUTTON_CLOSE_HOVER_BG : QColor := QColor.fromRgb 0xd7 0x78 0x7d

def DARK_BUTTON_CLOSE_ACTIVE_BG : QColor := QColor.fromRgb 0xbe 0x38 0x41

/-- Model of `Button::isCheckedCustom`. -/
def Button.isCheckedCustom (b : Button) : Bool :=
  if b.type = DecorationButtonType.Maximize then false else b.isChecked

/-- Model of `Button::foregroundColor`. `d` is `qobject_cast<Decoration*>(decoration())`,
`none` when the cast fails; `mix` is `KColorUtils::mix`. -/
def Button.foregroundColor (E : InternalSettings.Enum) (mix : QColor → QColor → ℚ → QColor)
    (d : Option Decoration) (b : Button) : QColor :=
  match d with
  | none => QColor.invalid
  | some d =>
    match d.client with
    | none => QColor.invalid
    | some c =>
      if (b.isPressed || b.isCheckedCustom) && b.type != DecorationButtonType.Close then
        b.m_iconActiveBg
      else if b.type = DecorationButtonType.Close then
        d.titleBarColor E
      else if b.m_animation.state = QAbstractAnimation.State.Running then
        let baseColor := if c.isActive then b.m_iconBg else b.m_iconUnfocusedBg
        mix baseColor b.m_iconHoverBg b.m_opacity
      else if b.isHovered then
        b.m_iconHoverBg
      else
        if c.isActive then b.m_iconBg else b.m_iconUnfocusedBg

/-- Model of `Button::backgroundColor`. -/
def Button.backgroundColor (mix : QColor → QColor → ℚ → QColor)
    (d : Option Decoration) (b : Button) : QColor :=
  match d with
  | none => QColor.invalid
  | some d =>
    match d.client with
    | none => QColor.invalid
    | some c =>
      if b.isPressed then
        if b.type = DecorationButtonType.Close then b.m_buttonCloseActiveBg
        else b.m_buttonActiveBg
      else if b.isCheckedCustom then
        b.m_buttonSelectedBg
      else if b.m_animation.state = QAbstractAnimation.State.Running then
        if b.type = DecorationButtonType.Close then
          let baseColor := if c.isActive then b.m_buttonCloseBg else b.m_iconUnfocusedBg
          mix baseColor b.m_buttonCloseHoverBg b.m_opacity
        else
          let color := b.m_buttonHoverBg
          color.setAlpha (qrealToInt ((color.alpha8 : ℚ) * b.m_opacity))
      else if b.isHovered then
        if b.type = DecorationButtonType.Close then b.m_buttonCloseHoverBg
        else b.m_buttonHoverBg
      else if b.type = DecorationButtonType.Close then
        if c.isActive then b.m_buttonCloseBg else b.m_iconUnfocusedBg
      else
        QColor.invalid

/-! ## The priority order of the button colours, as the specification words it -/

/-- The interaction states of a button, named as in the specification. -/
inductive InteractionState where
  | pressed
  | checked
  | animating
  | hovered
  | default
  deriving DecidableEq, Repr

/-- The specification's order: pressed > checked > animating > hovered > default. -/
def priorityOrder : List InteractionState :=
  [InteractionState.pressed, InteractionState.checked, InteractionState.animating,
   InteractionState.hovered, InteractionState.default]

/-- Whether a button is in an interaction state; `default` always holds. -/
def Button.inState (b : Button) : InteractionState → Bool
  | InteractionState.pressed => b.isPressed
  | InteractionState.checked => b.isCheckedCustom
  | InteractionState.animating => b.m_animation.state = QAbstractAnimation.State.Running
  | InteractionState.hovered => b.isHovered
  | InteractionState.default => true

/-- Resolution by priority: the colour of the first state of the order that
holds. -/
def resolveByPriority (holds : InteractionState → Bool) (colour : InteractionState → QColor) :
    QColor :=
  match priorityOrder.find? holds with
  | some s => colour s
  | none => colour InteractionState.default

/-- The icon colour of each state, for a button that is not the Close button,
on a window whose active flag is `active`. -/
def Button.foregroundOf (mix : QColor → QColor → ℚ → QColor) (b : Button) (active : Bool) :
    InteractionState → QColor
  | InteractionState.pressed => b.m_iconActiveBg
  | InteractionState.checked => b.m_iconActiveBg
  | InteractionState.animating =>
    mix (if active then b.m_iconBg else b.m_iconUnfocusedBg) b.m_iconHoverBg b.m_opacity
  | InteractionState.hovered => b.m_iconHoverBg
  | InteractionState.default => if active then b.m_iconBg else b.m_iconUnfocusedBg

/-- The background colour of each state, for a button that is not the Close
button: the hover colour faded by the hover progress while animating, no colour
by default. -/
def Button.backgroundOf (b : Button) : InteractionState → QColor
  | InteractionState.pressed => b.m_buttonActiveBg
  | InteractionState.checked => b.m_buttonSelectedBg
  | InteractionState.animating =>
    b.m_buttonHoverBg.setAlpha (qrealToInt ((b.m_buttonHoverBg.alpha8 : ℚ) * b.m_opacity))
  | InteractionState.hovered => b.m_buttonHoverBg
  | InteractionState.default => QColor.invalid

/-! ## The title font colour and the focus animation of the decoration -/

/-- Model of `QColor::alphaF` and the other `...F` accessors: the channel as a fraction. -/
def QColor.alphaF (c : QColor) : ℚ := (c.alpha : ℚ) / 65535

def QColor.redF (c : QColor) : ℚ := (c.red : ℚ) / 65535

def QColor.greenF (c : QColor) : ℚ := (c.green : ℚ) / 65535

def QColor.blueF (c : QColor) : ℚ := (c.blue : ℚ) / 65535

/-- Model of `QColor::fromRgbF`: an argument outside [0, 1] gives the invalid colour. -/
def QColor.fromRgbF (r g b a : ℚ) : QColor :=
  if r < 0 ∨ 1 < r ∨ g < 0 ∨ 1 < g ∨ b < 0 ∨ 1 < b ∨ a < 0 ∨ 1 < a then QColor.invalid
  else
    { valid := true
      alpha := (qRound (a * 65535)).toNat
      red := (qRound (r * 65535)).toNat
      green := (qRound (g * 65535)).toNat
      blue := (qRound (b * 65535)).toNat }

/-- The helper `mixQreal` of `KColorUtils`. -/
def KColorUtils.mixQreal (a b bias : ℚ) : ℚ := a + (b - a) * bias

/-- Model of `KColorUtils::mix` (KDE Frameworks): the first colour for a bias of 0
or less, the second for a bias of 1 or more, between them each channel mixed
linearly. The functions of the decoration and of the buttons take the mixing
function as an argument; this one is used where a value is computed. -/
def KColorUtils.mix (c1 c2 : QColor) (bias : ℚ) : QColor :=
  if bias ≤ 0 then c1
  else if bias ≥ 1 then c2
  else
    QColor.fromRgbF (KColorUtils.mixQreal c1.redF c2.redF bias)
      (KColorUtils.mixQreal c1.greenF c2.greenF bias)
      (KColorUtils.mixQreal c1.blueF c2.blueF bias)
      (KColorUtils.mixQreal c1.alphaF c2.alphaF bias)

/-- The local `activeColor` of `Decoration::fontColor`. -/
def Decoration.activeColor (E : InternalSettings.Enum) (d : Decoration) : QColor :=
  if d.m_internalSettings.arcTheme = E.ThemeDark then DARK_TITLE_FONT_COLOR
  else LIGHT_TITLE_FONT_COLOR

/-- The local `inactiveColor` of `Decoration::fontColor`. -/
def Decoration.inactiveColor (E : InternalSettings.Enum) (d : Decoration) : QColor :=
  if d.m_internalSettings.arcTheme = E.ThemeDark then DARK_TITLE_FONT_COLOR_INACTIVE
  else LIGHT_TITLE_FONT_COLOR_INACTIVE

/-- Model of `Decoration::fontColor`; `mix` is `KColorUtils::mix`. -/
def Decoration.fontColor (E : InternalSettings.Enum) (mix : QColor → QColor → ℚ → QColor)
    (d : Decoration) : QColor :=
  let activeColor := d.activeColor E
  let inactiveColor := d.inactiveColor E
  if d.m_animation.state = QAbstractAnimation.State.Running then
    mix inactiveColor activeColor d.m_opacity
  else
    match d.client with
    | some c => if c.isActive then activeColor else inactiveColor
    | none => inactiveColor

/-- Model of `Decoration::setOpacity` (the repaint request is not part of the state). -/
def Decoration.setOpacity (d : Decoration) (value : ℚ) : Decoration :=
  if d.m_opacity = value then d else { d with m_opacity := value }

/-- The animation of the decoration moves to the state `a`, and the connection
made in `Decoration::init` passes the value of `valueChanged`, when it is emitted,
to `setOpacity`. -/
def Decoration.setAnimation (d : Decoration) (a : QVariantAnimation) : Decoration :=
  match QVariantAnimation.valueChanged d.m_animation a with
  | some value => ({ d with m_animation := a }).setOpacity value
  | none => { d with m_animation := a }

/-- Model of `Decoration::updateAnimationState`. -/
def Decoration.updateAnimationState (d : Decoration) : Decoration :=
  if d.m_internalSettings.animationsEnabled then
    let active := match d.client with
      | some c => c.isActive
      | none => false
    let a := d.m_animation.setDirection
      (if active then QAbstractAnimation.Direction.Forward
       else QAbstractAnimation.Direction.Backward)
    let a := if a.state ≠ QAbstractAnimation.State.Running then a.start else a
    d.setAnimation a
  else d

/-- One timer tick, `delta` milliseconds after the previous one, on the animation
of the decoration. -/
def Decoration.animationTick (d : Decoration) (delta : Nat) : Decoration :=
  d.setAnimation (d.m_animation.updateAnimationTime delta)

/-- A sequence of timer ticks. -/
def Decoration.animationTicks (d : Decoration) : List Nat → Decoration
  | [] => d
  | delta :: deltas => (d.animationTick delta).animationTicks deltas

/-- A running animation is in step: its duration is positive, its time lies in
[0, duration] and its current value is the eased progress of that time. -/
def QVariantAnimation.InStep (a : QVariantAnimation) : Prop :=
  0 < a.duration ∧ 0 ≤ a.currentTime ∧ a.currentTime ≤ a.duration ∧
    a.totalCurrentTime = a.currentTime ∧
    a.currentValue = some (QEasingCurve.valueForProgress
      ((a.currentTime : ℚ) / (a.duration : ℚ)))

/-- The opacity of the decoration is the last value its animation emitted: it
equals the current value of the animation once there is one. -/
def Decoration.OpacityInSync (d : Decoration) : Prop :=
  ∀ v, d.m_animation.currentValue = some v → d.m_opacity = v

/-! ## Buttons: configuration, hover animation, painting -/

/-- Model of `Button::setOpacity` (declared inline in arcbutton.h): stores the value in
`m_opacity`, as `Decoration::setOpacity` does. -/
def Button.setOpacity (b : Button) (value : ℚ) : Button :=
  if b.m_opacity = value then b else { b with m_opacity := value }

/-- The animation of the button moves to the state `a`, and the connection made in
the constructor passes the value of `valueChanged`, when it is emitted, to
`setOpacity`. -/
def Button.setAnimation (b : Button) (a : QVariantAnimation) : Button :=
  match QVariantAnimation.valueChanged b.m_animation a with
  | some value => ({ b with m_animation := a }).setOpacity value
  | none => { b with m_animation := a }

/-- Model of `Button::reconfigure`; `d` is `qobject_cast<Decoration*>(decoration())`. -/
def Button.reconfigure (E : InternalSettings.Enum) (d : Option Decoration) (b : Button) : Button :=
  match d with
  | none => b
  | some d =>
    let b := b.setAnimation (b.m_animation.setDuration d.m_internalSettings.animationsDuration)
    if d.m_internalSettings.arcTheme = E.ThemeDark then
      { b with
        m_iconBg := DARK_ICON_BG
        m_iconUnfocusedBg := DARK_ICON_UNFOCUSED_BG
        m_iconHoverBg := DARK_ICON_HOVER_BG
        m_iconActiveBg := DARK_ICON_ACTIVE_BG
        m_buttonHoverBg := DARK_BUTTON_HOVER_BG
        m_buttonActiveBg := DARK_BUTTON_ACTIVE_BG
        m_buttonHoverBorder := DARK_BUTTON_HOVER_BORDER
        m_buttonSelectedBg := DARK_BUTTON_SELECTED_BG
        m_buttonCloseBg := DARK_BUTTON_CLOSE_BG
        m_buttonCloseHoverBg := DARK_BUTTON_CLOSE_HOVER_BG
        m_buttonCloseActiveBg := DARK_BUTTON_CLOSE_ACTIVE_BG }
    else
      { b with
        m_iconBg := LIGHT_ICON_BG
        m_iconUnfocusedBg := LIGHT_ICON_UNFOCUSED_BG
        m_iconHoverBg := LIGHT_ICON_HOVER_BG
        m_iconActiveBg := LIGHT_ICON_ACTIVE_BG
        m_buttonHoverBg := LIGHT_BUTTON_HOVER_BG
        m_buttonActiveBg := LIGHT_BUTTON_ACTIVE_BG
        m_buttonHoverBorder := LIGHT_BUTTON_HOVER_BORDER
        m_buttonSelectedBg := LIGHT_BUTTON_SELECTED_BG
        m_buttonCloseBg := LIGHT_BUTTON_CLOSE_BG
        m_buttonCloseHoverBg := LIGHT_BUTTON_CLOSE_HOVER_BG
        m_buttonCloseActiveBg := LIGHT_BUTTON_CLOSE_ACTIVE_BG }

/-- Model of `Button::updateAnimationState`. -/
def Button.updateAnimationState (d : Option Decoration) (b : Button) (hovered : Bool) : Button :=
  match d with
  | none => b
  | some d =>
    if !d.m_internalSettings.animationsEnabled then b
    else
      let a := b.m_animation.setDirection
        (if hovered then QAbstractAnimation.Direction.Forward
         else QAbstractAnimation.Direction.Backward)
      let a := if a.state ≠ QAbstractAnimation.State.Running then a.start else a
      b.setAnimation a

/-- One timer tick on the hover animation of the button. -/
def Button.animationTick (b : Button) (delta : Nat) : Button :=
  b.setAnimation (b.m_animation.updateAnimationTime delta)

/-- A sequence of timer ticks on the hover animation. -/
def Button.animationTicks (b : Button) : List Nat → Button
  | [] => b
  | delta :: deltas => (b.animationTick delta).animationTicks deltas

/-- The opacity of the button is the last value its animation emitted. -/
def Button.OpacityInSync (b : Button) : Prop :=
  ∀ v, b.m_animation.currentValue = some v → b.m_opacity = v

/-- One `QPainter::drawEllipse(QRectF(x, y, width, height))` call with the brush
and the pen set for it (`none` is `Qt::NoPen`; a pen is its colour and width). -/
structure DrawEllipse where
  brush : QColor
  pen : Option (QColor × ℚ)
  x : ℚ
  y : ℚ
  width : ℚ
  height : ℚ
  deriving DecidableEq, Repr

/-- The block `render background` of `Button::drawIcon`: the ellipse drawn behind
the glyph, if any. -/
def Button.drawIconBackground (mix : QColor → QColor → ℚ → QColor) (d : Option Decoration)
    (b : Button) : Option DrawEllipse :=
  let backgroundColor := b.backgroundColor mix d
  if backgroundColor.isValid then
    if b.type != DecorationButtonType.Close && !b.isPressed && !b.isCheckedCustom &&
        (b.isHovered || b.m_animation.state == QAbstractAnimation.State.Running) then
      some { brush := backgroundColor, pen := some (b.m_buttonHoverBorder, 5 / 4)
             x := 5 / 2, y := 5 / 2, width := 13, height := 13 }
    else
      some { brush := backgroundColor, pen := none, x := 2, y := 2, width := 14, height := 14 }
  else none

/-- The translation `Button::paint` applies before drawing (`translate from
offset`). -/
def Button.paintTranslation (b : Button) : QPoint :=
  if b.m_flag = Button.Flag.FlagFirstInList then b.m_offset
  else { x := 0, y := b.m_offset.y }

/-- Where the icon of the button is drawn: `paint` translates by
`paintTranslation`, then `drawIcon` (or the menu icon rectangle) starts at
`geometry().topLeft()`. -/
def Button.iconOrigin (b : Button) : QPoint :=
  { x := b.geometry.x + b.paintTranslation.x, y := b.geometry.y + b.paintTranslation.y }

/-! ## Layout of the button groups and the title bar -/

/-- The button `b` is the button `b0` with a new layout: only the cell, the flag,
the offset and the icon size may differ. -/
def Button.LayoutOf (b0 b : Button) : Prop :=
  b = { b0 with
        geometry := b.geometry, m_flag := b.m_flag, m_offset := b.m_offset
        m_iconSize := b.m_iconSize }

/-- Model of `DecorationButtonGroup::Private::updateLayout`, width: the widths of
the visible buttons, plus the spacing after each of them that is not the last of
the list. -/
def DecorationButtonGroup.layoutWidth (spacing : Int) : List Button → Int
  | [] => 0
  | b :: bs =>
    (if b.isVisible then b.geometry.width + (if bs.isEmpty then 0 else spacing) else 0)
      + DecorationButtonGroup.layoutWidth spacing bs

/-- Model of `DecorationButtonGroup::Private::updateLayout`, height: the largest
height of a visible button. -/
def DecorationButtonGroup.layoutHeight (buttons : List Button) : Int :=
  buttons.foldl (fun height b => if b.isVisible then max height b.geometry.height else height) 0

/-- Model of `DecorationButtonGroup::Private::updateLayout`, positions: the visible
buttons are placed from `position` to the right, `spacing` apart, at height `y`;
their sizes are kept. -/
def DecorationButtonGroup.positionButtons (y spacing : Int) : Int → List Button → List Button
  | _, [] => []
  | position, b :: bs =>
    if b.isVisible then
      { b with geometry :=
          { x := position, y := y, width := b.geometry.width, height := b.geometry.height } }
        :: DecorationButtonGroup.positionButtons y spacing
            (position + b.geometry.width + spacing) bs
    else b :: DecorationButtonGroup.positionButtons y spacing position bs

/-- Model of `DecorationButtonGroup::Private::updateLayout`: nothing for a group
without buttons; else the size of the group is recomputed and the buttons are
placed from the top-left corner of the group. -/
def DecorationButtonGroup.updateLayout (g : DecorationButtonGroup) : DecorationButtonGroup :=
  if g.buttons.isEmpty then g
  else
    { g with
      geometry :=
        { x := g.geometry.x, y := g.geometry.y
          width := DecorationButtonGroup.layoutWidth g.spacing g.buttons
          height := DecorationButtonGroup.layoutHeight g.buttons }
      buttons := DecorationButtonGroup.positionButtons g.geometry.y g.spacing g.geometry.x
        g.buttons }

/-- Model of `DecorationButtonGroup::setPos`. -/
def DecorationButtonGroup.setPos (g : DecorationButtonGroup) (x y : Int) : DecorationButtonGroup :=
  ({ g with geometry := { g.geometry with x := x, y := y } }).updateLayout

/-- Model of `DecorationButtonGroup::setSpacing`. -/
def DecorationButtonGroup.setSpacing (g : DecorationButtonGroup) (spacing : Int) :
    DecorationButtonGroup :=
  ({ g with spacing := spacing }).updateLayout

/-- Changes applied to every button of the group; the group lays itself out again
when the geometry of a button changes (`geometryChanged`). -/
def DecorationButtonGroup.mapButtons (g : DecorationButtonGroup) (f : Button → Button) :
    DecorationButtonGroup :=
  ({ g with buttons := g.buttons.map f }).updateLayout

/-- The list with its last element changed. -/
def DecorationButtonGroup.modifyBackList (f : Button → Button) : List Button → List Button
  | [] => []
  | [b] => [f b]
  | b :: b2 :: bs => b :: DecorationButtonGroup.modifyBackList f (b2 :: bs)

/-- Changes applied to `buttons().front()`, followed by the new layout. -/
def DecorationButtonGroup.modifyFront (g : DecorationButtonGroup) (f : Button → Button) :
    DecorationButtonGroup :=
  ({ g with buttons := g.buttons.modifyHead f }).updateLayout

/-- Changes applied to `buttons().back()`, followed by the new layout. -/
def DecorationButtonGroup.modifyBack (g : DecorationButtonGroup) (f : Button → Button) :
    DecorationButtonGroup :=
  ({ g with buttons := DecorationButtonGroup.modifyBackList f g.buttons }).updateLayout

/-- Model of `Decoration::updateButtonsGeometry`. The setters of `Button` it calls
(`setOffset`, `setHorizontalOffset`, `setIconSize`, `setFlag`, declared inline in
arcbutton.h) store their argument in the member of that name. -/
def Decoration.updateButtonsGeometry (E : InternalSettings.Enum) (M : Metrics) (d : Decoration) :
    Decoration :=
  let s := d.settings
  let bHeight := d.captionHeight M
    + (if d.isTopEdge then s.smallSpacing * M.TitleBar_TopMargin else 0)
  let bWidth := d.buttonHeight E
  let verticalOffset := (if d.isTopEdge then s.smallSpacing * M.TitleBar_TopMargin else 0)
    + Int.tdiv (d.captionHeight M - d.buttonHeight E) 2
  let each (button : Button) : Button :=
    { button with
      geometry := { x := 0, y := 0, width := bWidth, height := bHeight }
      m_offset := { x := 0, y := verticalOffset }
      m_iconSize := { width := bWidth, height := bWidth } }
  let leftButtons := d.m_leftButtons.mapButtons each
  let rightButtons := d.m_rightButtons.mapButtons each
  let leftButtons :=
    if !leftButtons.buttons.isEmpty then
      let leftButtons := leftButtons.setSpacing (s.smallSpacing * M.TitleBar_ButtonSpacing)
      let vPadding := if d.isTopEdge then 0 else s.smallSpacing * M.TitleBar_TopMargin
      let hPadding := s.smallSpacing * M.TitleBar_SideMargin
      if d.isLeftEdge then
        let leftButtons := leftButtons.modifyFront (fun button =>
          { button with
            geometry := { x := 0, y := 0, width := bWidth + hPadding, height := bHeight }
            m_flag := Button.Flag.FlagFirstInList
            m_offset := { button.m_offset with x := hPadding } })
        leftButtons.setPos 0 vPadding
      else leftButtons.setPos (hPadding + d.borderLeft) vPadding
    else leftButtons
  let rightButtons :=
    if !rightButtons.buttons.isEmpty then
      let rightButtons := rightButtons.setSpacing (s.smallSpacing * M.TitleBar_ButtonSpacing)
      let vPadding := if d.isTopEdge then 0 else s.smallSpacing * M.TitleBar_TopMargin
      let hPadding := s.smallSpacing * M.TitleBar_SideMargin
      if d.isRightEdge then
        let rightButtons := rightButtons.modifyBack (fun button =>
          { button with
            geometry := { x := 0, y := 0, width := bWidth + hPadding, height := bHeight }
            m_flag := Button.Flag.FlagLastInList })
        rightButtons.setPos (d.size.width - rightButtons.geometry.width) vPadding
      else
        rightButtons.setPos
          (d.size.width - rightButtons.geometry.width - hPadding - d.borderRight) vPadding
    else rightButtons
  { d with m_leftButtons := leftButtons, m_rightButtons := rightButtons }

/-- Model of `Decoration::updateTitleBar`. The client pointer is read without a null
test: with no client that is a null dereference, `none` here. -/
def Decoration.updateTitleBar (M : Metrics) (d : Decoration) : Option Decoration :=
  match d.client with
  | none => none
  | some c =>
    let s := d.settings
    let maximized := d.isMaximized
    let width :=
      if maximized then c.width else c.width - 2 * s.largeSpacing * M.TitleBar_SideMargin
    let height :=
      if maximized then d.borderTop else d.borderTop - s.smallSpacing * M.TitleBar_TopMargin
    let x := if maximized then 0 else s.largeSpacing * M.TitleBar_SideMargin
    let y := if maximized then 0 else s.smallSpacing * M.TitleBar_TopMargin
    some { d with titleBar := QRect.ofXYWH x y width height }

/-! ## Pixel columns, enumerator correspondence and traces of the file-scope variables -/

/-- The pixel columns `r.x1 .. r.x2` of the rectangle and the span
`[g.x, g.x + g.width)` of the area have a column in common. -/
def QRect.sharesColumn (r : QRect) (g : QRectF) : Prop :=
  max r.x1 g.x ≤ min r.x2 (g.x + g.width - 1)

instance (r : QRect) (g : QRectF) : Decidable (r.sharesColumn g) := by
  unfold QRect.sharesColumn
  exact inferInstance

/-- The enumerator of `InternalSettings` that bears the name of a value of
`KDecoration2::BorderSize`. -/
def InternalSettings.Enum.border (E : InternalSettings.Enum) : KDecoration2.BorderSize → Int
  | KDecoration2.BorderSize.None => E.BorderNone
  | KDecoration2.BorderSize.NoSides => E.BorderNoSides
  | KDecoration2.BorderSize.Tiny => E.BorderTiny
  | KDecoration2.BorderSize.Normal => E.BorderNormal
  | KDecoration2.BorderSize.Large => E.BorderLarge
  | KDecoration2.BorderSize.VeryLarge => E.BorderVeryLarge
  | KDecoration2.BorderSize.Huge => E.BorderHuge
  | KDecoration2.BorderSize.VeryHuge => E.BorderVeryHuge
  | KDecoration2.BorderSize.Oversized => E.BorderOversized

/-- The labels of the `switch` over the border-size enumerators are pairwise
distinct, as a `switch` that compiles requires. -/
def InternalSettings.Enum.BorderLabelsDistinct (E : InternalSettings.Enum) : Prop :=
  [E.BorderNone, E.BorderNoSides, E.BorderTiny, E.BorderNormal, E.BorderLarge,
    E.BorderVeryLarge, E.BorderHuge, E.BorderVeryHuge, E.BorderOversized].Nodup

/-- What happens to the file-scope variables: a decoration is constructed, a
decoration calls `createShadow`, a decoration is destroyed. -/
inductive GlobalEvent where
  | construct
  | createShadow (d : Decoration)
  | destruct

/-- The file-scope variables after one event. -/
def Globals.step (E : InternalSettings.Enum) (M : Metrics) (R : BoxShadowRenderer) (g : Globals) :
    GlobalEvent → Globals
  | GlobalEvent.construct => Decoration.construct g
  | GlobalEvent.createShadow d => (Decoration.createShadow E M R g d).1
  | GlobalEvent.destruct => Decoration.destruct g

/-- The file-scope variables after a sequence of events. -/
def Globals.run (E : InternalSettings.Enum) (M : Metrics) (R : BoxShadowRenderer) (g : Globals) :
    List GlobalEvent → Globals
  | [] => g
  | e :: es => Globals.run E M R (Globals.step E M R g e) es

/-- The number of live decorations after a sequence of events that starts with
`n` live decorations. -/
def GlobalEvent.liveAfter (n : Nat) : List GlobalEvent → Nat
  | [] => n
  | GlobalEvent.construct :: es => GlobalEvent.liveAfter (n + 1) es
  | GlobalEvent.createShadow _ :: es => GlobalEvent.liveAfter n es
  | GlobalEvent.destruct :: es => GlobalEvent.liveAfter (n - 1) es

/-- A sequence of events that can happen with `n` live decorations at the start:
only a live decoration calls `createShadow` or is destroyed. -/
def GlobalEvent.possible (n : Nat) : List GlobalEvent → Bool
  | [] => true
  | GlobalEvent.construct :: es => GlobalEvent.possible (n + 1) es
  | GlobalEvent.createShadow _ :: es => decide (0 < n) && GlobalEvent.possible n es
  | GlobalEvent.destruct :: es => decide (0 < n) && GlobalEvent.possible (n - 1) es

/-! ## Sample values, used to evaluate the definitions on concrete inputs -/

/-- Enumerators numbered from 0 in the order of their declaration. -/
def sampleEnum : InternalSettings.Enum :=
  { ShadowNone := 0, ShadowSmall := 1, ShadowMedium := 2, ShadowLarge := 3, ShadowVeryLarge := 4
    ThemeDark := 1
    BorderNone := 0, BorderNoSides := 1, BorderTiny := 2, BorderNormal := 3, BorderLarge := 4
    BorderVeryLarge := 5, BorderHuge := 6, BorderVeryHuge := 7, BorderOversized := 8
    ButtonTiny := 0, ButtonSmall := 1, ButtonDefault := 2, ButtonLarge := 3, ButtonVeryLarge := 4
    AlignLeft := 0, AlignCenter := 1, AlignRight := 2, AlignCenterFullWidth := 3 }

/-- Margins of two spacing units, a frame radius and a shadow overlap of 3. -/
def sampleMetrics : Metrics :=
  { TitleBar_TopMargin := 2, TitleBar_BottomMargin := 2, TitleBar_SideMargin := 2
    TitleBar_ButtonSpacing := 2, Frame_FrameRadius := 3, Shadow_Overlap := 3, BorderSize := 16 }

/-- A font 17 pixels high whose glyphs are all 10 pixels wide. -/
def sampleFontMetrics : QFontMetrics :=
  { height := 17, boundingRect := fun s => QRect.ofXYWH 0 (-13) (10 * s.length) 17 }

def sampleSettings : DecorationSettings :=
  { smallSpacing := 2, largeSpacing := 8, gridUnit := 10
    borderSize := KDecoration2.BorderSize.Normal
    fontMetrics := sampleFontMetrics, isAlphaChannelSupported := true }

/-- Dark theme, default button size, title centred on the full width, large
black shadow at full strength, animations of 200 ms. -/
def sampleInternalSettings : InternalSettings :=
  { arcTheme := 1, mask := 0, borderSize := 3, buttonSize := 2, titleAlignment := 3
    hideTitleBar := false, drawBorderOnMaximizedWindows := false
    shadowSize := 3, shadowStrength := 255, shadowColor := Qt.black
    animationsEnabled := true, animationsDuration := 200, auroraeIcons := false }

/-- An active window 392 pixels wide, not maximized, away from the screen edges. -/
def sampleClient : DecoratedClient :=
  { isActive := true, isMaximizedHorizontally := false, isMaximizedVertically := false
    isShaded := false
    adjacentScreenEdges :=
      { LeftEdge := false, TopEdge := false, RightEdge := false, BottomEdge := false }
    width := 392, height := 300, caption := "Arc" }

def sampleAnimation : QVariantAnimation :=
  { state := QAbstractAnimation.State.Stopped, direction := QAbstractAnimation.Direction.Forward
    duration := 200, currentTime := 0, totalCurrentTime := 0, currentValue := none }

/-- A button of the dark theme, 20 pixels wide, idle. -/
def sampleButton (type : DecorationButtonType) : Button :=
  { type := type, isPressed := false, isChecked := false, isHovered := false, isVisible := true
    geometry := { x := 0, y := 0, width := 20, height := 20 }
    m_flag := Button.Flag.FlagNone, m_animation := sampleAnimation
    m_offset := { x := 0, y := 0 }, m_iconSize := { width := 20, height := 20 }, m_opacity := 0
    m_iconBg := DARK_ICON_BG, m_iconUnfocusedBg := DARK_ICON_UNFOCUSED_BG
    m_iconHoverBg := DARK_ICON_HOVER_BG, m_iconActiveBg := DARK_ICON_ACTIVE_BG
    m_buttonHoverBg := DARK_BUTTON_HOVER_BG, m_buttonActiveBg := DARK_BUTTON_ACTIVE_BG
    m_buttonHoverBorder := DARK_BUTTON_HOVER_BORDER
    m_buttonSelectedBg := DARK_BUTTON_SELECTED_BG
    m_buttonCloseBg := DARK_BUTTON_CLOSE_BG, m_buttonCloseHoverBg := DARK_BUTTON_CLOSE_HOVER_BG
    m_buttonCloseActiveBg := DARK_BUTTON_CLOSE_ACTIVE_BG }

/-- The sample window decorated: borders 4, 29, 4, 4 as `recalculateBorders`
computes them, total width 400, the menu button on the left at x = 8, and
minimize, maximize, close on the right from x = 324 to 391, four pixels apart. -/
def sampleDecoration : Decoration :=
  { client := some sampleClient
    settings := sampleSettings
    m_internalSettings := sampleInternalSettings
    borders := { left := 4, top := 29, right := 4, bottom := 4 }
    resizeOnlyBorders := { left := 8, top := 8, right := 8, bottom := 8 }
    titleBar := QRect.ofXYWH 16 4 360 25
    size := { width := 400, height := 333 }
    shadow := none
    m_leftButtons :=
      { buttons := [sampleButton DecorationButtonType.Menu]
        geometry := { x := 8, y := 4, width := 20, height := 20 }, spacing := 4 }
    m_rightButtons :=
      { buttons := [sampleButton DecorationButtonType.Minimize,
          sampleButton DecorationButtonType.Maximize, sampleButton DecorationButtonType.Close]
        geometry := { x := 324, y := 4, width := 68, height := 20 }, spacing := 4 }
    m_animation := sampleAnimation
    m_opacity := 1 }

/-- The sample window after it lost the focus half-way through the fade-in: not
active, the animation still running forward at 100 of 200 ms, progress 1/2. -/
def sampleFading : Decoration :=
  { sampleDecoration with
    client := some { sampleClient with isActive := false }
    m_animation :=
      { state := QAbstractAnimation.State.Running
        direction := QAbstractAnimation.Direction.Forward
        duration := 200, currentTime := 100, totalCurrentTime := 100
        currentValue := some (1 / 2) }
    m_opacity := 1 / 2 }

/-- The sample decoration after its client is gone. -/
def sampleOrphan : Decoration := { sampleDecoration with client := none }

/-- The sample window maximized in both directions. -/
def sampleMaximized : Decoration :=
  { sampleDecoration with
    client := some { sampleClient with isMaximizedHorizontally := true, isMaximizedVertically := true } }

/-- A box-shadow renderer that leaves a margin of `radius` around the box. -/
def sampleRenderer : BoxShadowRenderer :=
  { calculateMinimumBoxSize := fun radius => { width := 2 * radius + 1, height := 2 * radius + 1 }
    render := fun _ boxSize _ shadows =>
      { size :=
          { width := boxSize.width + 2 * (shadows.map (fun s => s.radius)).foldl max 0
            height := boxSize.height + 2 * (shadows.map (fun s => s.radius)).foldl max 0 }
        pixels := [], painted := [] } }

/-! # Properties -/

/-! ## Auxiliary facts -/

/-- Overlap means exactly that a pixel lies in both. -/
theorem QRect.overlaps_iff_common_pixel (r : QRect) (g : QRectF) :
    r.overlaps g ↔ ∃ px py, r.containsPixel px py ∧ g.containsPixel px py := by
  unfold QRect.overlaps QRect.containsPixel QRectF.containsPixel
  constructor
  · rintro ⟨hx, hy⟩
    exact ⟨max r.x1 g.x, max r.y1 g.y, by omega, by omega⟩
  · rintro ⟨px, py, h1, h2⟩
    omega

/-- The null rectangle overlaps nothing. -/
theorem QRect.null_not_overlaps (g : QRectF) : ¬ QRect.null.overlaps g := by
  unfold QRect.overlaps QRect.null
  simp only
  omega

/-- An area of no width is overlapped by nothing. -/
theorem QRect.not_overlaps_of_width_le (r : QRect) (g : QRectF) (h : g.width ≤ 0) :
    ¬ r.overlaps g := by
  unfold QRect.overlaps
  omega

/-- The space between the groups starts right of a left group that has buttons. -/
theorem Decoration.captionMaxRect_not_overlaps_left (M : Metrics) (d : Decoration)
    (hm : 0 ≤ M.TitleBar_SideMargin * d.settings.smallSpacing)
    (hb : d.m_leftButtons.buttons.isEmpty = false) :
    ¬ (d.captionMaxRect M).overlaps d.m_leftButtons.geometry := by
  unfold QRect.overlaps Decoration.captionMaxRect Decoration.captionLeftOffset QRect.ofXYWH
  simp only [hb]
  intro h
  simp only [Bool.false_eq_true, if_false] at h
  omega

/-- The space between the groups ends left of a right group that has buttons. -/
theorem Decoration.captionMaxRect_not_overlaps_right (M : Metrics) (d : Decoration)
    (hm : 0 ≤ M.TitleBar_SideMargin * d.settings.smallSpacing)
    (hb : d.m_rightButtons.buttons.isEmpty = false) :
    ¬ (d.captionMaxRect M).overlaps d.m_rightButtons.geometry := by
  unfold QRect.overlaps Decoration.captionMaxRect Decoration.captionRightOffset QRect.ofXYWH
  simp only [hb]
  intro h
  simp only [Bool.false_eq_true, if_false] at h
  omega

/-- The space between the groups overlaps neither group. -/
theorem Decoration.captionMaxRect_clear (M : Metrics) (d : Decoration)
    (hm : 0 ≤ M.TitleBar_SideMargin * d.settings.smallSpacing) :
    ((d.m_leftButtons.buttons.isEmpty = false ∨ d.m_leftButtons.geometry.width ≤ 0) →
        ¬ (d.captionMaxRect M).overlaps d.m_leftButtons.geometry) ∧
    ((d.m_rightButtons.buttons.isEmpty = false ∨ d.m_rightButtons.geometry.width ≤ 0) →
        ¬ (d.captionMaxRect M).overlaps d.m_rightButtons.geometry) := by
  constructor
  · rintro (h | h)
    · exact Decoration.captionMaxRect_not_overlaps_left M d hm h
    · exact QRect.not_overlaps_of_width_le _ _ h
  · rintro (h | h)
    · exact Decoration.captionMaxRect_not_overlaps_right M d hm h
    · exact QRect.not_overlaps_of_width_le _ _ h

/-! ## C1: the caption rectangle and the button groups -/

/-- C1, as stated, fails: with the title centred on the full width and a short
caption, `captionRect` of the sample decoration is the full-width rectangle
(0, 4, 400, 20), which overlaps the left button group (8, 4, 20, 20) and the
right one (324, 4, 68, 20). -/
theorem captionRect_full_width_overlaps_groups :
    sampleDecoration.captionRect sampleEnum sampleMetrics
        = some (QRect.ofXYWH 0 4 400 20, Qt.AlignCenter) ∧
      (QRect.ofXYWH 0 4 400 20).overlaps sampleDecoration.m_leftButtons.geometry ∧
      (QRect.ofXYWH 0 4 400 20).overlaps sampleDecoration.m_rightButtons.geometry := by
  decide

/-- C1, amended: when the side margin is not negative, the rectangle returned by
`captionRect` overlaps neither button group (a group with buttons, or one whose
geometry is empty), unless the alignment is none of Left, Right, Center and the
caption box centred on the whole width lies between `leftOffset` and
`width - rightOffset`; in that case the result is the full-width rectangle with
`AlignCenter`. -/
theorem captionRect_clear_of_groups_or_full_width (E : InternalSettings.Enum) (M : Metrics)
    (d : Decoration) (r : QRect) (a : Nat)
    (hm : 0 ≤ M.TitleBar_SideMargin * d.settings.smallSpacing)
    (h : d.captionRect E M = some (r, a)) :
    (((d.m_leftButtons.buttons.isEmpty = false ∨ d.m_leftButtons.geometry.width ≤ 0) →
        ¬ r.overlaps d.m_leftButtons.geometry) ∧
      ((d.m_rightButtons.buttons.isEmpty = false ∨ d.m_rightButtons.geometry.width ≤ 0) →
        ¬ r.overlaps d.m_rightButtons.geometry)) ∨
    (r = d.captionFullRect M ∧ a = Qt.AlignCenter ∧
      d.m_internalSettings.titleAlignment ≠ E.AlignLeft ∧
      d.m_internalSettings.titleAlignment ≠ E.AlignRight ∧
      d.m_internalSettings.titleAlignment ≠ E.AlignCenter ∧
      ∃ c, d.client = some c ∧
        d.captionLeftOffset M ≤ (d.captionBoundingRect M c.caption).left ∧
        (d.captionBoundingRect M c.caption).right ≤ d.size.width - d.captionRightOffset M) := by
  have hclear := Decoration.captionMaxRect_clear M d hm
  unfold Decoration.captionRect at h
  by_cases hh : d.hideTitleBar = true
  · simp only [hh, if_true, Option.some.injEq, Prod.mk.injEq] at h
    left
    rw [← h.1]
    exact ⟨fun _ => QRect.null_not_overlaps _, fun _ => QRect.null_not_overlaps _⟩
  · simp only [hh, Bool.false_eq_true, if_false] at h
    by_cases hL : d.m_internalSettings.titleAlignment = E.AlignLeft
    · simp only [hL, if_true, Option.some.injEq, Prod.mk.injEq] at h
      left; rw [← h.1]; exact hclear
    · simp only [hL, if_false] at h
      by_cases hR : d.m_internalSettings.titleAlignment = E.AlignRight
      · simp only [hR, if_true, Option.some.injEq, Prod.mk.injEq] at h
        left; rw [← h.1]; exact hclear
      · simp only [hR, if_false] at h
        by_cases hC : d.m_internalSettings.titleAlignment = E.AlignCenter
        · simp only [hC, if_true, Option.some.injEq, Prod.mk.injEq] at h
          left; rw [← h.1]; exact hclear
        · simp only [hC, if_false] at h
          cases hc : d.client with
          | none => simp [hc] at h
          | some c =>
            simp only [hc] at h
            by_cases h1 : (d.captionBoundingRect M c.caption).left < d.captionLeftOffset M
            · simp only [h1, if_true, Option.some.injEq, Prod.mk.injEq] at h
              left; rw [← h.1]; exact hclear
            · simp only [h1, if_false] at h
              by_cases h2 : (d.captionBoundingRect M c.caption).right
                  > d.size.width - d.captionRightOffset M
              · simp only [h2, if_true, Option.some.injEq, Prod.mk.injEq] at h
                left; rw [← h.1]; exact hclear
              · simp only [h2, if_false, Option.some.injEq, Prod.mk.injEq] at h
                right
                exact ⟨h.1.symm, h.2.symm, hL, hR, hC, c, rfl, by omega, by omega⟩

/-- C1, amended, on the sample decoration with the title aligned left: the
result is the space between the groups, (32, 4, 288, 20), clear of both. -/
theorem captionRect_clear_of_groups_or_full_width_witness :
    (0 : Int) ≤ sampleMetrics.TitleBar_SideMargin * sampleSettings.smallSpacing ∧
    Decoration.captionRect sampleEnum sampleMetrics
      { sampleDecoration with
        m_internalSettings := { sampleInternalSettings with titleAlignment := 0 } }
      = some (QRect.ofXYWH 32 4 288 20, Qt.AlignVCenter ||| Qt.AlignLeft) ∧
    ¬ (QRect.ofXYWH 32 4 288 20).overlaps sampleDecoration.m_leftButtons.geometry ∧
    ¬ (QRect.ofXYWH 32 4 288 20).overlaps sampleDecoration.m_rightButtons.geometry := by
  have hm : (0 : Int) ≤ sampleMetrics.TitleBar_SideMargin * sampleSettings.smallSpacing := by
    decide
  have hr : Decoration.captionRect sampleEnum sampleMetrics
      { sampleDecoration with
        m_internalSettings := { sampleInternalSettings with titleAlignment := 0 } }
      = some (QRect.ofXYWH 32 4 288 20, Qt.AlignVCenter ||| Qt.AlignLeft) := by decide
  refine ⟨hm, hr, ?_⟩
  rcases captionRect_clear_of_groups_or_full_width sampleEnum sampleMetrics _ _ _ hm hr with h | h
  · exact ⟨h.1 (Or.inl (by decide)), h.2 (Or.inl (by decide))⟩
  · exact absurd h.2.2.1 (by decide)

/-! ## C2, C3, C4: the borders set by `recalculateBorders` -/

/-- C2, as stated, fails: for the sample window maximized in both directions,
with `drawBorderOnMaximizedWindows = false`, `recalculateBorders` sets left,
right and bottom to 0 but the top border to 29, the height of the title bar. -/
theorem recalculateBorders_maximized_top_not_zero :
    sampleMaximized.m_internalSettings.drawBorderOnMaximizedWindows = false ∧
    sampleMaximized.isMaximizedVertically = true ∧
    (sampleMaximized.recalculateBorders sampleEnum sampleMetrics).borders
      = { left := 0, top := 29, right := 0, bottom := 0 } := by
  decide

/-- C2, amended: with `drawBorderOnMaximizedWindows = false`, a horizontally
maximized window gets left and right borders 0, a vertically maximized one gets
bottom border 0, and the resize-only borders of the maximized axes are 0; the top
border is 0 only when the title bar is hidden, otherwise it is the title-bar
height. -/
theorem recalculateBorders_maximized (E : InternalSettings.Enum) (M : Metrics) (d : Decoration)
    (c : DecoratedClient) (hc : d.client = some c)
    (hdraw : d.m_internalSettings.drawBorderOnMaximizedWindows = false) :
    (c.isMaximizedHorizontally = true →
      (d.recalculateBorders E M).borders.left = 0 ∧
      (d.recalculateBorders E M).borders.right = 0 ∧
      (d.recalculateBorders E M).resizeOnlyBorders.left = 0 ∧
      (d.recalculateBorders E M).resizeOnlyBorders.right = 0) ∧
    (c.isMaximizedVertically = true →
      (d.recalculateBorders E M).borders.bottom = 0 ∧
      (d.recalculateBorders E M).resizeOnlyBorders.top = 0 ∧
      (d.recalculateBorders E M).resizeOnlyBorders.bottom = 0 ∧
      (d.recalculateBorders E M).borders.top =
        if d.m_internalSettings.hideTitleBar = true ∧ c.isShaded = false then 0
        else max d.settings.fontMetrics.height (d.buttonHeight E)
          + d.settings.smallSpacing * M.TitleBar_BottomMargin
          + d.settings.smallSpacing * M.TitleBar_TopMargin + 1) := by
  constructor
  · intro hH
    simp [Decoration.recalculateBorders, hc, Decoration.isLeftEdge, Decoration.isRightEdge,
      hdraw, hH]
  · intro hV
    simp only [Decoration.recalculateBorders, hc, Decoration.isTopEdge, Decoration.isBottomEdge,
      Decoration.hideTitleBar, hdraw, hV]
    simp only [Bool.true_or, Bool.not_false, Bool.and_true, Bool.or_true, if_true, true_and]
    by_cases hh : d.m_internalSettings.hideTitleBar = true <;>
      cases hs : c.isShaded <;> simp [hh] <;> ring

/-- C2, amended, on the sample window maximized in both directions. -/
theorem recalculateBorders_maximized_witness :
    sampleMaximized.m_internalSettings.drawBorderOnMaximizedWindows = false ∧
    (sampleMaximized.recalculateBorders sampleEnum sampleMetrics).borders.left = 0 ∧
    (sampleMaximized.recalculateBorders sampleEnum sampleMetrics).borders.right = 0 ∧
    (sampleMaximized.recalculateBorders sampleEnum sampleMetrics).borders.bottom = 0 :=
  have h := recalculateBorders_maximized sampleEnum sampleMetrics sampleMaximized
    { sampleClient with isMaximizedHorizontally := true, isMaximizedVertically := true }
    rfl rfl
  ⟨rfl, (h.1 rfl).1, (h.1 rfl).2.1, (h.2 rfl).1⟩

/-- C3: for a present client, `recalculateBorders` sets the left (right,
bottom) border to 0 when the window is maximized in that axis or its edge is
adjacent to the screen edge, and `drawBorderOnMaximizedWindows` is off, and to
`borderSize()` otherwise; the bottom border is also 0 whenever the window is
shaded. -/
theorem recalculateBorders_left_right_bottom (E : InternalSettings.Enum) (M : Metrics)
    (d : Decoration) (c : DecoratedClient) (hc : d.client = some c) :
    (d.recalculateBorders E M).borders.left =
      (if (c.isMaximizedHorizontally = true ∨ c.adjacentScreenEdges.LeftEdge = true) ∧
          d.m_internalSettings.drawBorderOnMaximizedWindows = false
        then 0 else d.borderSize E M) ∧
    (d.recalculateBorders E M).borders.right =
      (if (c.isMaximizedHorizontally = true ∨ c.adjacentScreenEdges.RightEdge = true) ∧
          d.m_internalSettings.drawBorderOnMaximizedWindows = false
        then 0 else d.borderSize E M) ∧
    (d.recalculateBorders E M).borders.bottom =
      (if c.isShaded = true then 0
        else if (c.isMaximizedVertically = true ∨ c.adjacentScreenEdges.BottomEdge = true) ∧
          d.m_internalSettings.drawBorderOnMaximizedWindows = false
        then 0 else d.borderSize E M) := by
  simp only [Decoration.recalculateBorders, hc, Decoration.isLeftEdge, Decoration.isRightEdge,
    Decoration.isBottomEdge, Qt.Edges.testFlag]
  cases c.isMaximizedHorizontally <;> cases c.isMaximizedVertically <;>
    cases c.adjacentScreenEdges.LeftEdge <;> cases c.adjacentScreenEdges.RightEdge <;>
    cases c.adjacentScreenEdges.BottomEdge <;> cases c.isShaded <;>
    cases d.m_internalSettings.drawBorderOnMaximizedWindows <;> simp

/-- C3 on the sample decoration: borders 4, 4, 4 away from the screen edges. -/
theorem recalculateBorders_left_right_bottom_witness :
    sampleDecoration.client = some sampleClient ∧
    (sampleDecoration.recalculateBorders sampleEnum sampleMetrics).borders.left = 4 ∧
    (sampleDecoration.recalculateBorders sampleEnum sampleMetrics).borders.right = 4 ∧
    (sampleDecoration.recalculateBorders sampleEnum sampleMetrics).borders.bottom = 4 :=
  have h := recalculateBorders_left_right_bottom sampleEnum sampleMetrics sampleDecoration
    sampleClient rfl
  ⟨rfl, h.1.trans (by decide), h.2.1.trans (by decide), h.2.2.trans (by decide)⟩

/-- C4: for a present client, the top border set by `recalculateBorders` equals
the bottom border when the title bar is hidden (setting on, window not shaded),
and otherwise max(font height, buttonHeight()) + smallSpacing*TitleBar_BottomMargin
+ smallSpacing*TitleBar_TopMargin + 1. -/
theorem recalculateBorders_top (E : InternalSettings.Enum) (M : Metrics) (d : Decoration)
    (c : DecoratedClient) (hc : d.client = some c) :
    (d.recalculateBorders E M).borders.top =
      if d.m_internalSettings.hideTitleBar = true ∧ c.isShaded = false then
        (d.recalculateBorders E M).borders.bottom
      else
        max d.settings.fontMetrics.height (d.buttonHeight E)
          + d.settings.smallSpacing * M.TitleBar_BottomMargin
          + d.settings.smallSpacing * M.TitleBar_TopMargin + 1 := by
  simp only [Decoration.recalculateBorders, hc, Decoration.hideTitleBar]
  by_cases hh : d.m_internalSettings.hideTitleBar = true <;>
    cases hs : c.isShaded <;> simp [hh] <;> ring

/-- C4 on the sample decoration: max(17, 20) + 2*2 + 2*2 + 1 = 29. -/
theorem recalculateBorders_top_witness :
    sampleDecoration.client = some sampleClient ∧
    (sampleDecoration.recalculateBorders sampleEnum sampleMetrics).borders.top = 29 :=
  ⟨rfl, (recalculateBorders_top sampleEnum sampleMetrics sampleDecoration sampleClient rfl).trans
    (by decide)⟩

/-! ## C5, C6, C7: shadow parameters and the shared shadow -/

/-- A call of `createShadow` when the cache holds a shadow under the requested key. -/
theorem Decoration.createShadow_hit (E : InternalSettings.Enum) (M : Metrics)
    (R : BoxShadowRenderer) (g : Globals) (d : Decoration)
    (h : ¬ (g.g_sShadow.isNone
      || g.g_shadowSizeEnum != d.m_internalSettings.shadowSize
      || g.g_shadowStrength != d.m_internalSettings.shadowStrength
      || g.g_shadowColor != d.m_internalSettings.shadowColor) = true) :
    d.createShadow E M R g = (g, { d with shadow := g.g_sShadow }) := by
  unfold Decoration.createShadow
  rw [if_neg h]

/-- A call of `createShadow` on a cache miss, for a size whose parameters are the empty
set. -/
theorem Decoration.createShadow_miss_none (E : InternalSettings.Enum) (M : Metrics)
    (R : BoxShadowRenderer) (g : Globals) (d : Decoration)
    (h : (g.g_sShadow.isNone
      || g.g_shadowSizeEnum != d.m_internalSettings.shadowSize
      || g.g_shadowStrength != d.m_internalSettings.shadowStrength
      || g.g_shadowColor != d.m_internalSettings.shadowColor) = true)
    (hn : (lookupShadowParams E d.m_internalSettings.shadowSize).isNone = true) :
    d.createShadow E M R g =
      ({ g with
          g_shadowSizeEnum := d.m_internalSettings.shadowSize
          g_shadowStrength := d.m_internalSettings.shadowStrength
          g_shadowColor := d.m_internalSettings.shadowColor
          g_sShadow := none },
       { d with shadow := none }) := by
  unfold Decoration.createShadow
  rw [if_pos h]
  dsimp only
  rw [if_pos hn]

/-- A call of `createShadow` on a cache miss, for a size with a shadow. -/
theorem Decoration.createShadow_miss_some (E : InternalSettings.Enum) (M : Metrics)
    (R : BoxShadowRenderer) (g : Globals) (d : Decoration)
    (h : (g.g_sShadow.isNone
      || g.g_shadowSizeEnum != d.m_internalSettings.shadowSize
      || g.g_shadowStrength != d.m_internalSettings.shadowStrength
      || g.g_shadowColor != d.m_internalSettings.shadowColor) = true)
    (hn : ¬ (lookupShadowParams E d.m_internalSettings.shadowSize).isNone = true) :
    d.createShadow E M R g =
      ({ g with
          g_shadowSizeEnum := d.m_internalSettings.shadowSize
          g_shadowStrength := d.m_internalSettings.shadowStrength
          g_shadowColor := d.m_internalSettings.shadowColor
          g_sShadow := some (synthesizeShadow M R
            (lookupShadowParams E d.m_internalSettings.shadowSize)
            d.m_internalSettings.shadowStrength d.m_internalSettings.shadowColor) },
       { d with shadow := some (synthesizeShadow M R
            (lookupShadowParams E d.m_internalSettings.shadowSize)
            d.m_internalSettings.shadowStrength d.m_internalSettings.shadowColor) }) := by
  unfold Decoration.createShadow
  rw [if_pos h]
  dsimp only
  rw [if_neg hn]

/-- A call of `createShadow` installs on the decoration what it leaves in `g_sShadow`. -/
theorem Decoration.createShadow_installs_global (E : InternalSettings.Enum) (M : Metrics)
    (R : BoxShadowRenderer) (g : Globals) (d : Decoration) :
    (d.createShadow E M R g).2.shadow = (d.createShadow E M R g).1.g_sShadow := by
  by_cases h : (g.g_sShadow.isNone
      || g.g_shadowSizeEnum != d.m_internalSettings.shadowSize
      || g.g_shadowStrength != d.m_internalSettings.shadowStrength
      || g.g_shadowColor != d.m_internalSettings.shadowColor) = true
  · by_cases hn : (lookupShadowParams E d.m_internalSettings.shadowSize).isNone = true
    · rw [Decoration.createShadow_miss_none E M R g d h hn]
    · rw [Decoration.createShadow_miss_some E M R g d h hn]
  · rw [Decoration.createShadow_hit E M R g d h]

/-- In a reachable state a cached shadow is the one synthesized from the cached
key, and that key does not look up the empty parameter set. -/
theorem Globals.Reachable.cache_consistent {E : InternalSettings.Enum} {M : Metrics}
    {R : BoxShadowRenderer} {g : Globals} (h : Globals.Reachable E M R g) :
    ∀ sh, g.g_sShadow = some sh →
      (lookupShadowParams E g.g_shadowSizeEnum).isNone = false ∧
      sh = synthesizeShadow M R (lookupShadowParams E g.g_shadowSizeEnum)
        g.g_shadowStrength g.g_shadowColor := by
  induction h with
  | initial => intro sh hsh; simp [Globals.initial] at hsh
  | construct g _ ih => exact ih
  | destruct g _ ih =>
    intro sh hsh
    unfold Decoration.destruct at hsh ⊢
    by_cases h0 : g.g_sDecoCount - 1 = 0
    · simp [h0] at hsh
    · simp only [h0, if_false] at hsh ⊢
      exact ih sh hsh
  | createShadow g d _ ih =>
    intro sh hsh
    by_cases h : (g.g_sShadow.isNone
        || g.g_shadowSizeEnum != d.m_internalSettings.shadowSize
        || g.g_shadowStrength != d.m_internalSettings.shadowStrength
        || g.g_shadowColor != d.m_internalSettings.shadowColor) = true
    · by_cases hn : (lookupShadowParams E d.m_internalSettings.shadowSize).isNone = true
      · rw [Decoration.createShadow_miss_none E M R g d h hn] at hsh
        simp at hsh
      · rw [Decoration.createShadow_miss_some E M R g d h hn] at hsh ⊢
        simp only [Option.some.injEq] at hsh
        exact ⟨by simpa using hn, hsh.symm⟩
    · rw [Decoration.createShadow_hit E M R g d h] at hsh ⊢
      exact ih sh hsh

/-- From a reachable state, the shadow `createShadow` installs depends only on
the decoration's size, strength and colour settings: nothing for a size that
looks up the empty parameter set, else the shadow synthesized from them. -/
theorem Decoration.createShadow_shadow_eq {E : InternalSettings.Enum} {M : Metrics}
    {R : BoxShadowRenderer} {g : Globals} (hg : Globals.Reachable E M R g) (d : Decoration) :
    (d.createShadow E M R g).2.shadow =
      if (lookupShadowParams E d.m_internalSettings.shadowSize).isNone = true then none
      else some (synthesizeShadow M R (lookupShadowParams E d.m_internalSettings.shadowSize)
        d.m_internalSettings.shadowStrength d.m_internalSettings.shadowColor) := by
  by_cases h : (g.g_sShadow.isNone
      || g.g_shadowSizeEnum != d.m_internalSettings.shadowSize
      || g.g_shadowStrength != d.m_internalSettings.shadowStrength
      || g.g_shadowColor != d.m_internalSettings.shadowColor) = true
  · by_cases hn : (lookupShadowParams E d.m_internalSettings.shadowSize).isNone = true
    · rw [Decoration.createShadow_miss_none E M R g d h hn, if_pos hn]
    · rw [Decoration.createShadow_miss_some E M R g d h hn, if_neg hn]
  · rw [Decoration.createShadow_hit E M R g d h]
    simp only [Bool.or_eq_true, Option.isNone_iff_eq_none, bne_iff_ne, ne_eq, not_or,
      not_not] at h
    obtain ⟨⟨⟨hs, hsize⟩, hstr⟩, hcol⟩ := h
    cases hsh : g.g_sShadow with
    | none => exact absurd hsh hs
    | some sh =>
      have hc := hg.cache_consistent sh hsh
      rw [hsize, hstr, hcol] at hc
      simp only [hc.1, Bool.false_eq_true, if_false]
      rw [hc.2]

/-- The same with an emptied cache, reachable or not: the fresh computation. -/
theorem Decoration.createShadow_fresh (E : InternalSettings.Enum) (M : Metrics)
    (R : BoxShadowRenderer) (g : Globals) (d : Decoration) :
    (d.createShadow E M R { g with g_sShadow := none }).2.shadow =
      if (lookupShadowParams E d.m_internalSettings.shadowSize).isNone = true then none
      else some (synthesizeShadow M R (lookupShadowParams E d.m_internalSettings.shadowSize)
        d.m_internalSettings.shadowStrength d.m_internalSettings.shadowColor) := by
  have h : (({ g with g_sShadow := none } : Globals).g_sShadow.isNone
      || ({ g with g_sShadow := none } : Globals).g_shadowSizeEnum
          != d.m_internalSettings.shadowSize
      || ({ g with g_sShadow := none } : Globals).g_shadowStrength
          != d.m_internalSettings.shadowStrength
      || ({ g with g_sShadow := none } : Globals).g_shadowColor
          != d.m_internalSettings.shadowColor) = true := by
    simp
  by_cases hn : (lookupShadowParams E d.m_internalSettings.shadowSize).isNone = true
  · rw [Decoration.createShadow_miss_none E M R _ d h hn, if_pos hn]
  · rw [Decoration.createShadow_miss_some E M R _ d h hn, if_neg hn]

/-- C5: for shadow size None, whatever the strength and the colour, the looked-up
parameters are the empty set (`isNone`), and from every reachable state of the
file-scope variables `createShadow` installs the null shadow and leaves
`g_sShadow` null: no shadow object, hence no texture and no padding. -/
theorem createShadow_none (E : InternalSettings.Enum) (M : Metrics) (R : BoxShadowRenderer)
    (g : Globals) (d : Decoration) (hg : Globals.Reachable E M R g)
    (hsize : d.m_internalSettings.shadowSize = E.ShadowNone) :
    (lookupShadowParams E E.ShadowNone).isNone = true ∧
    (d.createShadow E M R g).2.shadow = none ∧
    (d.createShadow E M R g).1.g_sShadow = none := by
  have hnone : (lookupShadowParams E E.ShadowNone).isNone = true := by
    simp [lookupShadowParams, s_shadowParams, CompositeShadowParams.isNone,
      CompositeShadowParams.default, ShadowParams.default]
  have hsh : (d.createShadow E M R g).2.shadow = none := by
    rw [Decoration.createShadow_shadow_eq hg d, hsize, hnone]
    rfl
  exact ⟨hnone, hsh, by rw [← Decoration.createShadow_installs_global]; exact hsh⟩

/-- C5 on the sample decoration with the shadow size set to None, in the state
left by a first decoration that created the large shadow. -/
theorem createShadow_none_witness :
    (Decoration.createShadow sampleEnum sampleMetrics sampleRenderer
      (sampleDecoration.createShadow sampleEnum sampleMetrics sampleRenderer
        (Decoration.construct (Globals.initial sampleEnum))).1
      { sampleDecoration with
        m_internalSettings := { sampleInternalSettings with shadowSize := 0 } }).2.shadow
      = none :=
  (createShadow_none sampleEnum sampleMetrics sampleRenderer _
    { sampleDecoration with m_internalSettings := { sampleInternalSettings with shadowSize := 0 } }
    (Globals.Reachable.createShadow _ sampleDecoration
      (Globals.Reachable.construct _ Globals.Reachable.initial))
    rfl).2.1

/-- C6: a size that is none of the five enumerators looks up exactly the Large
parameter set, composite offset (0,12), pass 1 radius 48 opacity 0.8 offset
(0,0), pass 2 radius 24 opacity 0.2 offset (0,-6), which is not the empty set. -/
theorem lookupShadowParams_unknown (E : InternalSettings.Enum) (size : Int)
    (h0 : size ≠ E.ShadowNone) (h1 : size ≠ E.ShadowSmall) (h2 : size ≠ E.ShadowMedium)
    (h3 : size ≠ E.ShadowLarge) (h4 : size ≠ E.ShadowVeryLarge) :
    lookupShadowParams E size =
      { offset := { x := 0, y := 12 }
        shadow1 := { offset := { x := 0, y := 0 }, radius := 48, opacity := 8 / 10 }
        shadow2 := { offset := { x := 0, y := -6 }, radius := 24, opacity := 2 / 10 } } ∧
    (lookupShadowParams E size).isNone = false := by
  have h : lookupShadowParams E size = s_shadowParams 3 := by
    simp [lookupShadowParams, h0, h1, h2, h3, h4]
  rw [h]
  exact ⟨rfl, by decide⟩

/-- C6 at the sizes 7 and -1 with the sample enumerators 0..4. -/
theorem lookupShadowParams_unknown_witness :
    (lookupShadowParams sampleEnum 7).isNone = false ∧
    (lookupShadowParams sampleEnum (-1)).isNone = false :=
  ⟨(lookupShadowParams_unknown sampleEnum 7 (by decide) (by decide) (by decide) (by decide)
      (by decide)).2,
   (lookupShadowParams_unknown sampleEnum (-1) (by decide) (by decide) (by decide) (by decide)
      (by decide)).2⟩

/-- C7: from any two reachable states of the file-scope variables, two
`createShadow` calls of decorations with the same shadow size, strength and
colour install the same shadow (padding, inner rectangle and texture), and it is
the shadow a computation with an emptied cache produces. This holds for every
size and strength value, the five sizes and the strengths 0..255 included. -/
theorem createShadow_deterministic (E : InternalSettings.Enum) (M : Metrics)
    (R : BoxShadowRenderer) (g₁ g₂ : Globals) (d₁ d₂ : Decoration)
    (h₁ : Globals.Reachable E M R g₁) (h₂ : Globals.Reachable E M R g₂)
    (hsize : d₁.m_internalSettings.shadowSize = d₂.m_internalSettings.shadowSize)
    (hstrength : d₁.m_internalSettings.shadowStrength = d₂.m_internalSettings.shadowStrength)
    (hcolor : d₁.m_internalSettings.shadowColor = d₂.m_internalSettings.shadowColor) :
    (d₁.createShadow E M R g₁).2.shadow = (d₂.createShadow E M R g₂).2.shadow ∧
    (d₁.createShadow E M R g₁).2.shadow
      = (d₁.createShadow E M R { g₁ with g_sShadow := none }).2.shadow := by
  rw [Decoration.createShadow_shadow_eq h₁ d₁, Decoration.createShadow_shadow_eq h₂ d₂,
    Decoration.createShadow_fresh, hsize, hstrength, hcolor]
  exact ⟨rfl, rfl⟩

/-- C7 on the sample decoration: a cache hit (second call in the state the first
call left) and a cache miss (first call) install the same shadow. -/
theorem createShadow_deterministic_witness :
    (sampleDecoration.createShadow sampleEnum sampleMetrics sampleRenderer
      (sampleDecoration.createShadow sampleEnum sampleMetrics sampleRenderer
        (Globals.initial sampleEnum)).1).2.shadow
    = (sampleMaximized.createShadow sampleEnum sampleMetrics sampleRenderer
        (Globals.initial sampleEnum)).2.shadow :=
  (createShadow_deterministic sampleEnum sampleMetrics sampleRenderer _ _
    sampleDecoration sampleMaximized
    (Globals.Reachable.createShadow _ sampleDecoration Globals.Reachable.initial)
    Globals.Reachable.initial rfl rfl rfl).1

/-! ## C9, C10: the buttons -/

/-- C9: `isCheckedCustom` is false for a Maximize button whatever its checked
state, and is `isChecked()` for a button of any other kind. -/
theorem isCheckedCustom_maximize (b : Button) :
    (b.type = DecorationButtonType.Maximize → b.isCheckedCustom = false) ∧
    (b.type ≠ DecorationButtonType.Maximize → b.isCheckedCustom = b.isChecked) := by
  unfold Button.isCheckedCustom
  constructor
  · intro h
    rw [if_pos h]
  · intro h
    rw [if_neg h]

/-- C9 on a checked Maximize button and a checked Shade button. -/
theorem isCheckedCustom_maximize_witness :
    Button.isCheckedCustom { sampleButton DecorationButtonType.Maximize with isChecked := true }
      = false ∧
    Button.isCheckedCustom { sampleButton DecorationButtonType.Shade with isChecked := true }
      = true :=
  ⟨(isCheckedCustom_maximize
      { sampleButton DecorationButtonType.Maximize with isChecked := true }).1 rfl,
   (isCheckedCustom_maximize
      { sampleButton DecorationButtonType.Shade with isChecked := true }).2 (by decide)⟩

/-- C10: for a button that is not the Close button, on a decoration with a
present client, `foregroundColor` and `backgroundColor` are the colour of the
first state that holds in the order pressed > checked > animating > hovered >
default, whatever the states after it; in particular a pressed button has the
active colours. -/
theorem button_colors_by_priority (E : InternalSettings.Enum)
    (mix : QColor → QColor → ℚ → QColor) (d : Decoration) (c : DecoratedClient) (b : Button)
    (hc : d.client = some c) (hk : b.type ≠ DecorationButtonType.Close) :
    b.foregroundColor E mix (some d)
      = resolveByPriority b.inState (b.foregroundOf mix c.isActive) ∧
    b.backgroundColor mix (some d) = resolveByPriority b.inState b.backgroundOf ∧
    (b.isPressed = true →
      b.foregroundColor E mix (some d) = b.m_iconActiveBg ∧
      b.backgroundColor mix (some d) = b.m_buttonActiveBg) := by
  simp only [Button.foregroundColor, Button.backgroundColor, hc, resolveByPriority,
    priorityOrder, List.find?, Button.inState, Button.foregroundOf, Button.backgroundOf]
  cases hp : b.isPressed <;> cases hch : b.isCheckedCustom <;>
    by_cases hr : b.m_animation.state = QAbstractAnimation.State.Running <;>
    cases hh : b.isHovered <;> simp [hk, hr]

/-- C10 on a Minimize button of the sample decoration that is pressed, hovered
and animating at once: icon #FFFFFF on background #5294e2. -/
theorem button_colors_by_priority_witness :
    Button.foregroundColor sampleEnum (fun x _ _ => x) (some sampleDecoration)
      { sampleButton DecorationButtonType.Minimize with
        isPressed := true, isHovered := true
        m_animation := { sampleAnimation with state := QAbstractAnimation.State.Running } }
      = QColor.fromRgb 0xFF 0xFF 0xFF ∧
    Button.backgroundColor (fun x _ _ => x) (some sampleDecoration)
      { sampleButton DecorationButtonType.Minimize with
        isPressed := true, isHovered := true
        m_animation := { sampleAnimation with state := QAbstractAnimation.State.Running } }
      = QColor.fromRgb 0x52 0x94 0xe2 :=
  (button_colors_by_priority sampleEnum (fun x _ _ => x) sampleDecoration sampleClient
    { sampleButton DecorationButtonType.Minimize with
      isPressed := true, isHovered := true
      m_animation := { sampleAnimation with state := QAbstractAnimation.State.Running } }
    rfl (by decide)).2.2 rfl

/-! ## C11, C12: background colour and background chip of a button -/

/-- What `reconfigure` leaves alone: kind, interaction state and the state of the
animation. -/
theorem Button.reconfigure_keeps (E : InternalSettings.Enum) (d : Decoration) (b : Button) :
    (b.reconfigure E (some d)).type = b.type ∧
    (b.reconfigure E (some d)).isPressed = b.isPressed ∧
    (b.reconfigure E (some d)).isChecked = b.isChecked ∧
    (b.reconfigure E (some d)).isHovered = b.isHovered ∧
    (b.reconfigure E (some d)).m_animation.state = b.m_animation.state := by
  have hs : ∀ m, (b.m_animation.setDuration m).state = b.m_animation.state := by
    intro m
    unfold QVariantAnimation.setDuration QVariantAnimation.recalculateCurrentInterval
    split_ifs <;> rfl
  have hset : ∀ a : QVariantAnimation,
      (b.setAnimation a).type = b.type ∧ (b.setAnimation a).isPressed = b.isPressed ∧
      (b.setAnimation a).isChecked = b.isChecked ∧ (b.setAnimation a).isHovered = b.isHovered ∧
      (b.setAnimation a).m_animation = a := by
    intro a
    unfold Button.setAnimation Button.setOpacity
    cases QVariantAnimation.valueChanged b.m_animation a with
    | none => exact ⟨rfl, rfl, rfl, rfl, rfl⟩
    | some v =>
      dsimp only
      split_ifs <;> exact ⟨rfl, rfl, rfl, rfl, rfl⟩
  obtain ⟨h1, h2, h3, h4, h5⟩ := hset (b.m_animation.setDuration
    d.m_internalSettings.animationsDuration)
  unfold Button.reconfigure
  dsimp only
  split_ifs <;> simp only [h1, h2, h3, h4, h5, hs, and_self]

/-- The colours `reconfigure` sets for the idle Close button. -/
theorem Button.reconfigure_close_colors (E : InternalSettings.Enum) (d : Decoration)
    (b : Button) :
    (b.reconfigure E (some d)).m_buttonCloseBg =
      (if d.m_internalSettings.arcTheme = E.ThemeDark then DARK_BUTTON_CLOSE_BG
       else LIGHT_BUTTON_CLOSE_BG) ∧
    (b.reconfigure E (some d)).m_iconUnfocusedBg =
      (if d.m_internalSettings.arcTheme = E.ThemeDark then DARK_ICON_UNFOCUSED_BG
       else LIGHT_ICON_UNFOCUSED_BG) := by
  unfold Button.reconfigure
  dsimp only
  split_ifs <;> exact ⟨rfl, rfl⟩

/-- C11, as stated, fails: a checked KeepAbove button of the sample decoration that
is neither pressed, hovered nor animating has the valid background colour
#5294e2 (`m_buttonSelectedBg`), not the invalid colour. -/
theorem backgroundColor_checked_idle_not_invalid :
    Button.backgroundColor KColorUtils.mix (some sampleDecoration)
      { sampleButton DecorationButtonType.KeepAbove with isChecked := true }
      = QColor.fromRgb 0x52 0x94 0xe2 ∧
    (Button.backgroundColor KColorUtils.mix (some sampleDecoration)
      { sampleButton DecorationButtonType.KeepAbove with isChecked := true }).isValid = true := by
  decide

/-- The selected colour `reconfigure` sets. -/
theorem Button.reconfigure_selected_color (E : InternalSettings.Enum) (d : Decoration)
    (b : Button) :
    (b.reconfigure E (some d)).m_buttonSelectedBg =
      (if d.m_internalSettings.arcTheme = E.ThemeDark then DARK_BUTTON_SELECTED_BG
       else LIGHT_BUTTON_SELECTED_BG) := by
  unfold Button.reconfigure
  dsimp only
  split_ifs <;> rfl

/-- C11, amended: with a present client, for a button that is not pressed. If it
is neither checked (`isCheckedCustom`: checked and not of kind Maximize), hovered
nor animating: the Close button, once configured by `reconfigure`, has the close
background of the theme when the window is active and the unfocused icon colour
of the theme when it is not, a valid and fully opaque colour either way; a button
of any other kind has the invalid colour. If it is checked (`isCheckedCustom`) it
has the selected background `m_buttonSelectedBg`, whatever its kind (Close
included) and whether it is hovered or animating or not; once configured, that is
the valid colour #5294e2 of either theme. -/
theorem backgroundColor_idle (E : InternalSettings.Enum) (mix : QColor → QColor → ℚ → QColor)
    (d : Decoration) (c : DecoratedClient) (b : Button)
    (hc : d.client = some c) (hp : b.isPressed = false) :
    (b.isCheckedCustom = false → b.isHovered = false →
      b.m_animation.state ≠ QAbstractAnimation.State.Running →
      (b.type = DecorationButtonType.Close →
        (b.reconfigure E (some d)).backgroundColor mix (some d) =
          (if c.isActive = true then
            (if d.m_internalSettings.arcTheme = E.ThemeDark then DARK_BUTTON_CLOSE_BG
             else LIGHT_BUTTON_CLOSE_BG)
           else
            (if d.m_internalSettings.arcTheme = E.ThemeDark then DARK_ICON_UNFOCUSED_BG
             else LIGHT_ICON_UNFOCUSED_BG)) ∧
        ((b.reconfigure E (some d)).backgroundColor mix (some d)).isValid = true ∧
        ((b.reconfigure E (some d)).backgroundColor mix (some d)).alpha8 = 255) ∧
      (b.type ≠ DecorationButtonType.Close →
        b.backgroundColor mix (some d) = QColor.invalid ∧
        (b.reconfigure E (some d)).backgroundColor mix (some d) = QColor.invalid)) ∧
    (b.isCheckedCustom = true →
      b.backgroundColor mix (some d) = b.m_buttonSelectedBg ∧
      (b.reconfigure E (some d)).backgroundColor mix (some d) =
        (if d.m_internalSettings.arcTheme = E.ThemeDark then DARK_BUTTON_SELECTED_BG
         else LIGHT_BUTTON_SELECTED_BG) ∧
      (b.reconfigure E (some d)).backgroundColor mix (some d) = QColor.fromRgb 0x52 0x94 0xe2 ∧
      ((b.reconfigure E (some d)).backgroundColor mix (some d)).isValid = true) ∧
    (b.isCheckedCustom = true ↔
      b.isChecked = true ∧ b.type ≠ DecorationButtonType.Maximize) := by
  obtain ⟨k1, k2, k3, k4, k5⟩ := Button.reconfigure_keeps E d b
  obtain ⟨c1, c2⟩ := Button.reconfigure_close_colors E d b
  have hchk : ∀ v : Bool, b.isCheckedCustom = v → (b.reconfigure E (some d)).isCheckedCustom = v := by
    intro v hch
    unfold Button.isCheckedCustom at hch ⊢
    rw [k1, k3]
    exact hch
  refine ⟨?_, ?_, ?_⟩
  · intro hch hh hr
    have hch2 := hchk false hch
    constructor
    · intro hk
      have hval : (b.reconfigure E (some d)).backgroundColor mix (some d) =
          (if c.isActive = true then
            (if d.m_internalSettings.arcTheme = E.ThemeDark then DARK_BUTTON_CLOSE_BG
             else LIGHT_BUTTON_CLOSE_BG)
           else
            (if d.m_internalSettings.arcTheme = E.ThemeDark then DARK_ICON_UNFOCUSED_BG
             else LIGHT_ICON_UNFOCUSED_BG)) := by
        simp only [Button.backgroundColor, hc, k1, k2, k4, k5, hch2, hp, hh, hk, hr, c1, c2,
          Bool.false_eq_true, if_false, if_true]
      rw [hval]
      refine ⟨rfl, ?_, ?_⟩ <;> split_ifs <;> decide
    · intro hk
      constructor
      · simp only [Button.backgroundColor, hc, hch, hp, hh, hk, hr, Bool.false_eq_true, if_false]
      · simp only [Button.backgroundColor, hc, k1, k2, k4, k5, hch2, hp, hh, hk, hr,
          Bool.false_eq_true, if_false]
  · intro hch
    have hch2 := hchk true hch
    have hsel : (b.reconfigure E (some d)).backgroundColor mix (some d) =
        (if d.m_internalSettings.arcTheme = E.ThemeDark then DARK_BUTTON_SELECTED_BG
         else LIGHT_BUTTON_SELECTED_BG) := by
      simp only [Button.backgroundColor, hc, k2, hch2, hp, Bool.false_eq_true, if_false, if_true,
        Button.reconfigure_selected_color]
    refine ⟨?_, hsel, ?_, ?_⟩
    · simp only [Button.backgroundColor, hc, hch, hp, Bool.false_eq_true, if_false, if_true]
    · rw [hsel]
      split_ifs <;> rfl
    · rw [hsel]
      split_ifs <;> rfl
  · unfold Button.isCheckedCustom
    by_cases hm : b.type = DecorationButtonType.Maximize
    · simp [hm]
    · simp [hm]

/-- C11, amended, on the idle Close button of the sample decoration (dark theme,
active window): background #cc575d; checked and hovered, it has the selected
background #5294e2. -/
theorem backgroundColor_idle_witness :
    Button.backgroundColor KColorUtils.mix (some sampleDecoration)
      ((sampleButton DecorationButtonType.Close).reconfigure sampleEnum (some sampleDecoration))
      = QColor.fromRgb 0xcc 0x57 0x5d ∧
    Button.backgroundColor KColorUtils.mix (some sampleDecoration)
      { sampleButton DecorationButtonType.Close with isChecked := true, isHovered := true }
      = QColor.fromRgb 0x52 0x94 0xe2 :=
  ⟨(((backgroundColor_idle sampleEnum KColorUtils.mix sampleDecoration sampleClient
      (sampleButton DecorationButtonType.Close) rfl rfl).1 rfl rfl (by decide)).1 rfl).1.trans
      (by decide),
   ((backgroundColor_idle sampleEnum KColorUtils.mix sampleDecoration sampleClient
      { sampleButton DecorationButtonType.Close with isChecked := true, isHovered := true }
      rfl rfl).2.1 rfl).1.trans rfl⟩

/-- C12, as stated, fails in both directions. A Minimize button of the sample
decoration that is animating (hover progress 1/2), not hovered and not pressed gets
the outlined ellipse (2.5, 2.5, 13, 13) with the hover-border pen, although it
is animating; a hovered, checked KeepAbove button that is neither animating nor
pressed gets the solid ellipse (2, 2, 14, 14). -/
theorem drawIconBackground_outline_while_animating :
    Button.drawIconBackground KColorUtils.mix (some sampleDecoration)
      { sampleButton DecorationButtonType.Minimize with
        m_opacity := 1 / 2
        m_animation := { sampleAnimation with state := QAbstractAnimation.State.Running } }
      = some { brush := (QColor.fromRgb 0x45 0x4C 0x5C).setAlpha 127
               pen := some (DARK_BUTTON_HOVER_BORDER, 5 / 4)
               x := 5 / 2, y := 5 / 2, width := 13, height := 13 } ∧
    Button.drawIconBackground KColorUtils.mix (some sampleDecoration)
      { sampleButton DecorationButtonType.KeepAbove with isHovered := true, isChecked := true }
      = some { brush := DARK_BUTTON_SELECTED_BG, pen := none
               x := 2, y := 2, width := 14, height := 14 } := by
  have h : qrealToInt ((255 : ℚ) * 2⁻¹) = 127 := by
    unfold qrealToInt
    norm_num
  constructor
  · simp [Button.drawIconBackground, Button.backgroundColor, sampleDecoration, sampleButton,
      sampleAnimation, Button.isCheckedCustom, QColor.isValid, QColor.setAlpha,
      DARK_BUTTON_HOVER_BG, QColor.fromRgb, QColor.fromArgb, QColor.alpha8, h]
  · rfl

/-- C12, amended: when a background colour is resolved, the chip is the outlined
ellipse (2.5, 2.5, 13, 13) with the hover-border pen of width 1.25 exactly when
the button is not the Close button, not pressed, not checked
(`isCheckedCustom`), and hovered or animating; in every other case it is the
solid ellipse (2, 2, 14, 14) without pen. With no background colour nothing is
drawn. -/
theorem drawIconBackground_shape (mix : QColor → QColor → ℚ → QColor) (d : Option Decoration)
    (b : Button) :
    ((b.backgroundColor mix d).isValid = true →
      b.drawIconBackground mix d =
        some (if b.type ≠ DecorationButtonType.Close ∧ b.isPressed = false ∧
              b.isCheckedCustom = false ∧
              (b.isHovered = true ∨ b.m_animation.state = QAbstractAnimation.State.Running)
          then { brush := b.backgroundColor mix d, pen := some (b.m_buttonHoverBorder, 5 / 4)
                 x := 5 / 2, y := 5 / 2, width := 13, height := 13 }
          else { brush := b.backgroundColor mix d, pen := none
                 x := 2, y := 2, width := 14, height := 14 })) ∧
    ((b.backgroundColor mix d).isValid = false → b.drawIconBackground mix d = none) := by
  constructor
  · intro hv
    simp only [Button.drawIconBackground, hv, if_true]
    by_cases hk : b.type = DecorationButtonType.Close <;>
      cases hp : b.isPressed <;> cases hch : b.isCheckedCustom <;>
      cases hh : b.isHovered <;>
      by_cases hr : b.m_animation.state = QAbstractAnimation.State.Running <;>
      simp [hk, hr]
  · intro hv
    simp only [Button.drawIconBackground, hv, Bool.false_eq_true, if_false]

/-- C12, amended, on a hovered Minimize button of the sample decoration: the
outlined ellipse. -/
theorem drawIconBackground_shape_witness :
    Button.drawIconBackground KColorUtils.mix (some sampleDecoration)
      { sampleButton DecorationButtonType.Minimize with isHovered := true }
      = some { brush := DARK_BUTTON_HOVER_BG, pen := some (DARK_BUTTON_HOVER_BORDER, 5 / 4)
               x := 5 / 2, y := 5 / 2, width := 13, height := 13 } :=
  ((drawIconBackground_shape KColorUtils.mix (some sampleDecoration)
    { sampleButton DecorationButtonType.Minimize with isHovered := true }).1 (by decide)).trans
    rfl

/-! ## The animation: auxiliary facts -/

theorem QEasingCurve.easeInOutQuad_zero : QEasingCurve.easeInOutQuad 0 = 0 := by
  unfold QEasingCurve.easeInOutQuad
  norm_num

theorem QEasingCurve.easeInOutQuad_one : QEasingCurve.easeInOutQuad 1 = 1 := by
  unfold QEasingCurve.easeInOutQuad
  norm_num

theorem QEasingCurve.easeInOutQuad_half : QEasingCurve.easeInOutQuad (1 / 2) = 1 / 2 := by
  unfold QEasingCurve.easeInOutQuad
  norm_num

/-- The curve below the half-way point: 2 t². -/
theorem QEasingCurve.easeInOutQuad_of_lt_half {t : ℚ} (h : t < 1 / 2) :
    QEasingCurve.easeInOutQuad t = 2 * t ^ 2 := by
  unfold QEasingCurve.easeInOutQuad
  have h2 : t * 2 < 1 := by linarith
  simp only [h2, if_true]
  ring

/-- The curve from the half-way point on: 1 - 2 (1 - t)². -/
theorem QEasingCurve.easeInOutQuad_of_half_le {t : ℚ} (h : 1 / 2 ≤ t) :
    QEasingCurve.easeInOutQuad t = 1 - 2 * (1 - t) ^ 2 := by
  unfold QEasingCurve.easeInOutQuad
  have h2 : ¬ t * 2 < 1 := by linarith
  simp only [h2, if_false]
  ring

/-- The curve does not decrease on [0, 1]. -/
theorem QEasingCurve.easeInOutQuad_mono {x y : ℚ} (hx : 0 ≤ x) (hxy : x ≤ y) (hy : y ≤ 1) :
    QEasingCurve.easeInOutQuad x ≤ QEasingCurve.easeInOutQuad y := by
  by_cases h1 : x < 1 / 2
  · by_cases h2 : y < 1 / 2
    · rw [QEasingCurve.easeInOutQuad_of_lt_half h1, QEasingCurve.easeInOutQuad_of_lt_half h2]
      nlinarith
    · rw [QEasingCurve.easeInOutQuad_of_lt_half h1,
        QEasingCurve.easeInOutQuad_of_half_le (not_lt.mp h2)]
      nlinarith
  · have h2 : 1 / 2 ≤ y := le_trans (not_lt.mp h1) hxy
    rw [QEasingCurve.easeInOutQuad_of_half_le (not_lt.mp h1),
      QEasingCurve.easeInOutQuad_of_half_le h2]
    nlinarith

/-- On [0, 1] the bound of `valueForProgress` changes nothing. -/
theorem QEasingCurve.valueForProgress_of_mem {p : ℚ} (h0 : 0 ≤ p) (h1 : p ≤ 1) :
    QEasingCurve.valueForProgress p = QEasingCurve.easeInOutQuad p := by
  unfold QEasingCurve.valueForProgress
  rw [min_eq_left h1, max_eq_right h0]

/-- The eased progress lies in [0, 1]. -/
theorem QEasingCurve.valueForProgress_mem (p : ℚ) :
    0 ≤ QEasingCurve.valueForProgress p ∧ QEasingCurve.valueForProgress p ≤ 1 := by
  have hb0 : (0 : ℚ) ≤ max 0 (min p 1) := le_max_left _ _
  have hb1 : max 0 (min p 1) ≤ (1 : ℚ) := max_le (by norm_num) (min_le_right _ _)
  unfold QEasingCurve.valueForProgress
  constructor
  · have h := QEasingCurve.easeInOutQuad_mono le_rfl hb0 hb1
    rwa [QEasingCurve.easeInOutQuad_zero] at h
  · have h := QEasingCurve.easeInOutQuad_mono hb0 hb1 le_rfl
    rwa [QEasingCurve.easeInOutQuad_one] at h

/-- The effect of `setCurrentTime` in the forward direction, for a positive
duration: the time is bounded to [0, duration], the value is the eased progress,
and the animation stops when the bound is the duration. -/
theorem QVariantAnimation.setCurrentTime_forward (a : QVariantAnimation) (hD : 0 < a.duration)
    (hdir : a.direction = QAbstractAnimation.Direction.Forward) (m : Int) :
    a.setCurrentTime m =
      { a with
        totalCurrentTime := min a.duration (max m 0)
        currentTime := min a.duration (max m 0)
        currentValue := some (QEasingCurve.valueForProgress
          (((min a.duration (max m 0) : Int) : ℚ) / (a.duration : ℚ)))
        state := if min a.duration (max m 0) = a.duration then QAbstractAnimation.State.Stopped
          else a.state } := by
  obtain ⟨st, dir, D, ct, tt, cv⟩ := a
  simp only at hD hdir
  subst hdir
  have hD0 : ¬ D ≤ 0 := not_le.mpr hD
  have hDne : D ≠ 0 := by omega
  have hD1 : ¬ D = -1 := by omega
  have ht0 : 0 ≤ min D (max m 0) := by omega
  have hle : min D (max m 0) ≤ D := min_le_left _ _
  unfold QVariantAnimation.setCurrentTime QVariantAnimation.recalculateCurrentInterval
    QVariantAnimation.stop
  simp only [hD0, hDne, hD1, if_false, mul_one, ne_eq, not_false_eq_true, if_true, zero_add,
    sub_zero, one_mul]
  generalize min D (max m 0) = t at ht0 hle ⊢
  rcases eq_or_lt_of_le hle with ht | hlt
  · subst ht
    have h2 : max 0 t = t := by omega
    simp only [Int.tdiv_self hDne, h2, if_true]
    cases st <;> simp
  · have h1 : Int.tdiv t D = 0 := Int.tdiv_eq_zero_of_lt ht0 hlt
    have h2 : Int.tmod t D = t := Int.tmod_eq_of_lt ht0 hlt
    have h3 : ¬ t = D := by omega
    simp only [h1, h2, h3, if_false, if_true]
    simp [h3]

/-- The effect of `setCurrentTime` in the backward direction, for a duration of
more than one millisecond: the animation stops when the bounded time is 0. -/
theorem QVariantAnimation.setCurrentTime_backward (a : QVariantAnimation) (hD : 1 < a.duration)
    (hdir : a.direction = QAbstractAnimation.Direction.Backward) (m : Int) :
    a.setCurrentTime m =
      { a with
        totalCurrentTime := min a.duration (max m 0)
        currentTime := min a.duration (max m 0)
        currentValue := some (QEasingCurve.valueForProgress
          (((min a.duration (max m 0) : Int) : ℚ) / (a.duration : ℚ)))
        state := if min a.duration (max m 0) = 0 then QAbstractAnimation.State.Stopped
          else a.state } := by
  obtain ⟨st, dir, D, ct, tt, cv⟩ := a
  simp only at hD hdir
  subst hdir
  have hD0 : ¬ D ≤ 0 := by omega
  have hDne : D ≠ 0 := by omega
  have hD1 : ¬ D = -1 := by omega
  have ht0 : 0 ≤ min D (max m 0) := by omega
  have hle : min D (max m 0) ≤ D := min_le_left _ _
  unfold QVariantAnimation.setCurrentTime QVariantAnimation.recalculateCurrentInterval
    QVariantAnimation.stop
  simp only [hD0, hDne, hD1, if_false, mul_one, ne_eq, not_false_eq_true, if_true, zero_add,
    sub_zero, one_mul]
  generalize min D (max m 0) = t at ht0 hle ⊢
  rcases eq_or_lt_of_le hle with ht | hlt
  · subst ht
    have h2 : max 0 t = t := by omega
    simp only [Int.tdiv_self hDne, h2, if_true]
    simp [hDne]
  · have h1 : Int.tdiv t D = 0 := Int.tdiv_eq_zero_of_lt ht0 hlt
    simp only [h1]
    by_cases hz : t = 0
    · subst hz
      have hm1 : Int.tmod (0 - 1) D = -1 := by
        have h := Int.tdiv_eq_zero_of_lt (a := 1) (b := D) (by omega) hD
        rw [show (0 - 1 : Int) = -1 from rfl, Int.tmod_def, Int.neg_tdiv, h]
        omega
      simp only [hm1]
      cases st <;> simp
    · have h2 : Int.tmod (t - 1) D + 1 = t := by
        rw [Int.tmod_eq_of_lt (by omega) (by omega)]
        omega
      simp only [h2]
      simp [hz]

/-- A stopped animation ignores the timer. -/
theorem QVariantAnimation.updateAnimationTimes_stopped (a : QVariantAnimation)
    (h : a.state = QAbstractAnimation.State.Stopped) (deltas : List Nat) :
    a.updateAnimationTimes deltas = a := by
  induction deltas with
  | nil => rfl
  | cons delta deltas ih =>
    have h1 : a.updateAnimationTime delta = a := by
      unfold QVariantAnimation.updateAnimationTime
      simp [h]
    show (a.updateAnimationTime delta).updateAnimationTimes deltas = a
    rw [h1, ih]

/-- One timer tick on a running animation in the forward direction. -/
theorem QVariantAnimation.updateAnimationTime_forward (a : QVariantAnimation) (hin : a.InStep)
    (hrun : a.state = QAbstractAnimation.State.Running)
    (hdir : a.direction = QAbstractAnimation.Direction.Forward) (delta : Nat) :
    (a.updateAnimationTime delta).direction = QAbstractAnimation.Direction.Forward ∧
    (a.updateAnimationTime delta).duration = a.duration ∧
    (a.updateAnimationTime delta).currentTime = min a.duration (a.currentTime + (delta : Int)) ∧
    (a.updateAnimationTime delta).InStep ∧
    (a.updateAnimationTime delta).state =
      (if 0 < delta ∧ a.duration ≤ a.currentTime + (delta : Int) then
        QAbstractAnimation.State.Stopped
       else QAbstractAnimation.State.Running) := by
  obtain ⟨hD, h0, hle, htot, hval⟩ := hin
  by_cases hz : delta = 0
  · have h1 : a.updateAnimationTime delta = a := by
      unfold QVariantAnimation.updateAnimationTime
      simp [hz]
    rw [h1]
    subst hz
    refine ⟨hdir, rfl, ?_, ⟨hD, h0, hle, htot, hval⟩, ?_⟩
    · simp only [Nat.cast_zero, add_zero]
      omega
    · simp [hrun]
  · have hpos : 0 < delta := Nat.pos_of_ne_zero hz
    have hm : max (a.currentTime + (delta : Int)) 0 = a.currentTime + (delta : Int) := by omega
    have h1 : a.updateAnimationTime delta = a.setCurrentTime (a.currentTime + (delta : Int)) := by
      unfold QVariantAnimation.updateAnimationTime
      simp [hrun, hz, hdir, htot]
    rw [h1, QVariantAnimation.setCurrentTime_forward a hD hdir, hm]
    refine ⟨hdir, rfl, rfl, ⟨hD, ?_, ?_, rfl, rfl⟩, ?_⟩
    · show 0 ≤ min a.duration (a.currentTime + (delta : Int))
      omega
    · show min a.duration (a.currentTime + (delta : Int)) ≤ a.duration
      omega
    · show (if min a.duration (a.currentTime + (delta : Int)) = a.duration then
          QAbstractAnimation.State.Stopped else a.state) = _
      by_cases hend : a.duration ≤ a.currentTime + (delta : Int)
      · have hmin : min a.duration (a.currentTime + (delta : Int)) = a.duration := by omega
        simp [hmin, hpos, hend]
      · have hmin : ¬ min a.duration (a.currentTime + (delta : Int)) = a.duration := by omega
        simp [hmin, hend, hrun]

/-- Timer ticks on a running animation in the forward direction: the time
advances by the elapsed time up to the duration, the value is the eased progress
of the time, and the animation stops once the duration is reached. -/
theorem QVariantAnimation.updateAnimationTimes_forward (deltas : List Nat) :
    ∀ a : QVariantAnimation, a.InStep → a.state = QAbstractAnimation.State.Running →
      a.direction = QAbstractAnimation.Direction.Forward →
      (a.updateAnimationTimes deltas).direction = QAbstractAnimation.Direction.Forward ∧
      (a.updateAnimationTimes deltas).duration = a.duration ∧
      (a.updateAnimationTimes deltas).currentTime
        = min a.duration (a.currentTime + (deltas.sum : Int)) ∧
      (a.updateAnimationTimes deltas).InStep ∧
      (a.updateAnimationTimes deltas).state =
        (if 0 < deltas.sum ∧ a.duration ≤ a.currentTime + (deltas.sum : Int) then
          QAbstractAnimation.State.Stopped
         else QAbstractAnimation.State.Running) := by
  induction deltas with
  | nil =>
    intro a hin hrun hdir
    obtain ⟨hD, h0, hle, htot, hval⟩ := hin
    refine ⟨hdir, rfl, ?_, ⟨hD, h0, hle, htot, hval⟩, ?_⟩
    · show a.currentTime = min a.duration (a.currentTime + ((0 : Nat) : Int))
      simp only [Nat.cast_zero, add_zero]
      omega
    · show a.state = _
      simp [hrun]
  | cons delta deltas ih =>
    intro a hin hrun hdir
    obtain ⟨s1, s2, s3, s4, s5⟩ :=
      QVariantAnimation.updateAnimationTime_forward a hin hrun hdir delta
    obtain ⟨hD, h0, hle, htot, hval⟩ := hin
    have hsum : ((delta :: deltas).sum : Int) = (delta : Int) + (deltas.sum : Int) := by
      simp
    have hsumN : (delta :: deltas).sum = delta + deltas.sum := by simp
    have hcons : a.updateAnimationTimes (delta :: deltas)
        = (a.updateAnimationTime delta).updateAnimationTimes deltas := rfl
    rw [hcons, hsum, hsumN]
    by_cases hend : 0 < delta ∧ a.duration ≤ a.currentTime + (delta : Int)
    · rw [if_pos hend] at s5
      rw [QVariantAnimation.updateAnimationTimes_stopped _ s5]
      refine ⟨s1, s2, ?_, s4, ?_⟩
      · rw [s3]
        omega
      · rw [s5]
        have : 0 < delta + deltas.sum ∧
            a.duration ≤ a.currentTime + ((delta : Int) + (deltas.sum : Int)) := by
          constructor <;> omega
        rw [if_pos this]
    · rw [if_neg hend] at s5
      obtain ⟨i1, i2, i3, i4, i5⟩ := ih (a.updateAnimationTime delta) s4 s5 s1
      refine ⟨i1, i2.trans s2, ?_, i4, ?_⟩
      · rw [i3, s2, s3]
        omega
      · rw [i5, s2, s3]
        by_cases hz : delta = 0
        · subst hz
          have e1 : min a.duration a.currentTime = a.currentTime := by omega
          simp only [Nat.cast_zero, add_zero, zero_add, e1]
        · have hlt : a.currentTime + (delta : Int) < a.duration := by
            by_contra hc
            exact hend ⟨Nat.pos_of_ne_zero hz, by omega⟩
          have e1 : min a.duration (a.currentTime + (delta : Int))
              = a.currentTime + (delta : Int) := by omega
          rw [e1]
          by_cases hs : a.duration ≤ a.currentTime + (delta : Int) + (deltas.sum : Int)
          · have hs1 : 0 < deltas.sum := by omega
            have hs2 : 0 < delta + deltas.sum ∧
                a.duration ≤ a.currentTime + ((delta : Int) + (deltas.sum : Int)) := by
              constructor <;> omega
            rw [if_pos ⟨hs1, hs⟩, if_pos hs2]
          · have hs2 : ¬ (0 < delta + deltas.sum ∧
                a.duration ≤ a.currentTime + ((delta : Int) + (deltas.sum : Int))) := by
              intro h
              exact hs (by omega)
            have hs3 : ¬ (0 < deltas.sum ∧
                a.duration ≤ a.currentTime + (delta : Int) + (deltas.sum : Int)) := by
              intro h
              exact hs h.2
            rw [if_neg hs3, if_neg hs2]

/-- One timer tick on a running animation in the backward direction, for a
duration of more than one millisecond. -/
theorem QVariantAnimation.updateAnimationTime_backward (a : QVariantAnimation) (hin : a.InStep)
    (hD1 : 1 < a.duration) (hrun : a.state = QAbstractAnimation.State.Running)
    (hdir : a.direction = QAbstractAnimation.Direction.Backward) (delta : Nat) :
    (a.updateAnimationTime delta).direction = QAbstractAnimation.Direction.Backward ∧
    (a.updateAnimationTime delta).duration = a.duration ∧
    (a.updateAnimationTime delta).currentTime = max 0 (a.currentTime - (delta : Int)) ∧
    (a.updateAnimationTime delta).InStep ∧
    (a.updateAnimationTime delta).state =
      (if 0 < delta ∧ a.currentTime ≤ (delta : Int) then QAbstractAnimation.State.Stopped
       else QAbstractAnimation.State.Running) := by
  obtain ⟨hD, h0, hle, htot, hval⟩ := hin
  by_cases hz : delta = 0
  · have h1 : a.updateAnimationTime delta = a := by
      unfold QVariantAnimation.updateAnimationTime
      simp [hz]
    rw [h1]
    subst hz
    refine ⟨hdir, rfl, ?_, ⟨hD, h0, hle, htot, hval⟩, ?_⟩
    · simp only [Nat.cast_zero, sub_zero]
      omega
    · simp [hrun]
  · have hpos : 0 < delta := Nat.pos_of_ne_zero hz
    have hm : min a.duration (max (a.currentTime + -(delta : Int)) 0)
        = max 0 (a.currentTime - (delta : Int)) := by omega
    have h1 : a.updateAnimationTime delta
        = a.setCurrentTime (a.currentTime + -(delta : Int)) := by
      unfold QVariantAnimation.updateAnimationTime
      simp [hrun, hz, hdir, htot]
    rw [h1, QVariantAnimation.setCurrentTime_backward a hD1 hdir, hm]
    refine ⟨hdir, rfl, rfl, ⟨hD, ?_, ?_, rfl, rfl⟩, ?_⟩
    · show 0 ≤ max 0 (a.currentTime - (delta : Int))
      omega
    · show max 0 (a.currentTime - (delta : Int)) ≤ a.duration
      omega
    · show (if max 0 (a.currentTime - (delta : Int)) = 0 then
          QAbstractAnimation.State.Stopped else a.state) = _
      by_cases hend : a.currentTime ≤ (delta : Int)
      · have hmax : max 0 (a.currentTime - (delta : Int)) = 0 := by omega
        simp [hmax, hpos, hend]
      · have hmax : ¬ max 0 (a.currentTime - (delta : Int)) = 0 := by omega
        simp [hmax, hend, hrun]

/-- Timer ticks on a running animation in the backward direction: the time
goes back by the elapsed time down to 0, the value is the eased progress of the
time, and the animation stops once 0 is reached. -/
theorem QVariantAnimation.updateAnimationTimes_backward (deltas : List Nat) :
    ∀ a : QVariantAnimation, a.InStep → 1 < a.duration →
      a.state = QAbstractAnimation.State.Running →
      a.direction = QAbstractAnimation.Direction.Backward →
      (a.updateAnimationTimes deltas).direction = QAbstractAnimation.Direction.Backward ∧
      (a.updateAnimationTimes deltas).duration = a.duration ∧
      (a.updateAnimationTimes deltas).currentTime
        = max 0 (a.currentTime - (deltas.sum : Int)) ∧
      (a.updateAnimationTimes deltas).InStep ∧
      (a.updateAnimationTimes deltas).state =
        (if 0 < deltas.sum ∧ a.currentTime ≤ (deltas.sum : Int) then
          QAbstractAnimation.State.Stopped
         else QAbstractAnimation.State.Running) := by
  induction deltas with
  | nil =>
    intro a hin _ hrun hdir
    obtain ⟨hD, h0, hle, htot, hval⟩ := hin
    refine ⟨hdir, rfl, ?_, ⟨hD, h0, hle, htot, hval⟩, ?_⟩
    · show a.currentTime = max 0 (a.currentTime - ((0 : Nat) : Int))
      simp only [Nat.cast_zero, sub_zero]
      omega
    · show a.state = _
      simp [hrun]
  | cons delta deltas ih =>
    intro a hin hD1 hrun hdir
    obtain ⟨s1, s2, s3, s4, s5⟩ :=
      QVariantAnimation.updateAnimationTime_backward a hin hD1 hrun hdir delta
    obtain ⟨hD, h0, hle, htot, hval⟩ := hin
    have hsum : ((delta :: deltas).sum : Int) = (delta : Int) + (deltas.sum : Int) := by
      simp
    have hsumN : (delta :: deltas).sum = delta + deltas.sum := by simp
    have hcons : a.updateAnimationTimes (delta :: deltas)
        = (a.updateAnimationTime delta).updateAnimationTimes deltas := rfl
    rw [hcons, hsum, hsumN]
    by_cases hend : 0 < delta ∧ a.currentTime ≤ (delta : Int)
    · rw [if_pos hend] at s5
      rw [QVariantAnimation.updateAnimationTimes_stopped _ s5]
      refine ⟨s1, s2, ?_, s4, ?_⟩
      · rw [s3]
        omega
      · rw [s5]
        have : 0 < delta + deltas.sum ∧
            a.currentTime ≤ (delta : Int) + (deltas.sum : Int) := by
          constructor <;> omega
        rw [if_pos this]
    · rw [if_neg hend] at s5
      obtain ⟨i1, i2, i3, i4, i5⟩ :=
        ih (a.updateAnimationTime delta) s4 (by rw [s2]; exact hD1) s5 s1
      refine ⟨i1, i2.trans s2, ?_, i4, ?_⟩
      · rw [i3, s3]
        omega
      · rw [i5, s3]
        by_cases hz : delta = 0
        · subst hz
          have e1 : max 0 a.currentTime = a.currentTime := by omega
          simp only [Nat.cast_zero, sub_zero, zero_add, e1]
        · have hlt : (delta : Int) < a.currentTime := by
            by_contra hc
            exact hend ⟨Nat.pos_of_ne_zero hz, by omega⟩
          have e1 : max 0 (a.currentTime - (delta : Int)) = a.currentTime - (delta : Int) := by
            omega
          rw [e1]
          by_cases hs : a.currentTime ≤ (delta : Int) + (deltas.sum : Int)
          · have hs1 : 0 < deltas.sum ∧ a.currentTime - (delta : Int) ≤ (deltas.sum : Int) := by
              constructor <;> omega
            have hs2 : 0 < delta + deltas.sum ∧
                a.currentTime ≤ (delta : Int) + (deltas.sum : Int) := by
              constructor <;> omega
            rw [if_pos hs1, if_pos hs2]
          · have hs2 : ¬ (0 < delta + deltas.sum ∧
                a.currentTime ≤ (delta : Int) + (deltas.sum : Int)) := fun h => hs h.2
            have hs3 : ¬ (0 < deltas.sum ∧
                a.currentTime - (delta : Int) ≤ (deltas.sum : Int)) := by
              intro h
              exact hs (by omega)
            rw [if_neg hs3, if_neg hs2]

/-- The animation after `setDirection` and, when it is not running, `start`, as
both `updateAnimationState` functions do. From the stopped state, forward, with
a positive duration: running at time 0 with value 0. -/
theorem QVariantAnimation.start_forward (a : QVariantAnimation)
    (hs : a.state = QAbstractAnimation.State.Stopped) (hD : 0 < a.duration) :
    (a.setDirection QAbstractAnimation.Direction.Forward).start =
      { state := QAbstractAnimation.State.Running
        direction := QAbstractAnimation.Direction.Forward
        duration := a.duration, currentTime := 0, totalCurrentTime := 0
        currentValue := some 0 } := by
  have hset : (a.setDirection QAbstractAnimation.Direction.Forward).state
        = QAbstractAnimation.State.Stopped ∧
      (a.setDirection QAbstractAnimation.Direction.Forward).direction
        = QAbstractAnimation.Direction.Forward ∧
      (a.setDirection QAbstractAnimation.Direction.Forward).duration = a.duration := by
    unfold QVariantAnimation.setDirection
    split_ifs with h1 <;> simp_all
  obtain ⟨e1, e2, e3⟩ := hset
  generalize a.setDirection QAbstractAnimation.Direction.Forward = b at e1 e2 e3
  obtain ⟨st, dir, D, ct, tt, cv⟩ := b
  simp only at e1 e2 e3
  subst e1 e2 e3
  have hne : ¬ (0 : Int) = a.duration := by omega
  have hmin : min a.duration (max (0 : Int) 0) = 0 := by omega
  have hstart : QVariantAnimation.start
      { state := QAbstractAnimation.State.Stopped
        direction := QAbstractAnimation.Direction.Forward
        duration := a.duration, currentTime := ct, totalCurrentTime := tt, currentValue := cv }
      = QVariantAnimation.setCurrentTime
        { state := QAbstractAnimation.State.Running
          direction := QAbstractAnimation.Direction.Forward
          duration := a.duration, currentTime := 0, totalCurrentTime := 0, currentValue := cv }
        0 := by
    simp [QVariantAnimation.start]
  have key := QVariantAnimation.setCurrentTime_forward
    { state := QAbstractAnimation.State.Running
      direction := QAbstractAnimation.Direction.Forward
      duration := a.duration, currentTime := 0, totalCurrentTime := 0, currentValue := cv }
    hD rfl 0
  simp only [hmin, hne, if_false] at key
  rw [hstart, key]
  simp [QEasingCurve.valueForProgress, QEasingCurve.easeInOutQuad_zero]

/-- From the stopped state, forward, with a duration of 0: the value is 1 and the
animation has stopped again at once. -/
theorem QVariantAnimation.start_forward_zero (a : QVariantAnimation)
    (hs : a.state = QAbstractAnimation.State.Stopped) (hD : a.duration = 0) :
    (a.setDirection QAbstractAnimation.Direction.Forward).start =
      { state := QAbstractAnimation.State.Stopped
        direction := QAbstractAnimation.Direction.Forward
        duration := 0, currentTime := 0, totalCurrentTime := 0
        currentValue := some 1 } := by
  have hset : (a.setDirection QAbstractAnimation.Direction.Forward).state
        = QAbstractAnimation.State.Stopped ∧
      (a.setDirection QAbstractAnimation.Direction.Forward).direction
        = QAbstractAnimation.Direction.Forward ∧
      (a.setDirection QAbstractAnimation.Direction.Forward).duration = 0 := by
    unfold QVariantAnimation.setDirection
    split_ifs with h1 <;> simp_all
  obtain ⟨e1, e2, e3⟩ := hset
  generalize a.setDirection QAbstractAnimation.Direction.Forward = b at e1 e2 e3
  obtain ⟨st, dir, D, ct, tt, cv⟩ := b
  simp only at e1 e2 e3
  subst e1 e2 e3
  simp [QVariantAnimation.start, QVariantAnimation.setCurrentTime,
    QVariantAnimation.recalculateCurrentInterval, QVariantAnimation.stop,
    QEasingCurve.valueForProgress, QEasingCurve.easeInOutQuad_one]

/-- What `setAnimation` does to the decoration: the animation is replaced, client
and settings stay. -/
theorem Decoration.setAnimation_fields (d : Decoration) (a : QVariantAnimation) :
    (d.setAnimation a).m_animation = a ∧ (d.setAnimation a).client = d.client ∧
    (d.setAnimation a).m_internalSettings = d.m_internalSettings := by
  unfold Decoration.setAnimation Decoration.setOpacity
  cases QVariantAnimation.valueChanged d.m_animation a with
  | none => exact ⟨rfl, rfl, rfl⟩
  | some v =>
    dsimp only
    split_ifs <;> exact ⟨rfl, rfl, rfl⟩

/-- After `setAnimation` the opacity is the current value of the animation, when
it was in sync before; it is unchanged when the value is. -/
theorem Decoration.setAnimation_opacity (d : Decoration) (a : QVariantAnimation)
    (hs : d.OpacityInSync) :
    (∀ v, a.currentValue = some v → (d.setAnimation a).m_opacity = v) ∧
    (a.currentValue = d.m_animation.currentValue → (d.setAnimation a).m_opacity = d.m_opacity) := by
  unfold Decoration.setAnimation QVariantAnimation.valueChanged
  constructor
  · intro v hv
    by_cases hch : a.currentValue = d.m_animation.currentValue
    · rw [if_neg (not_not.mpr hch)]
      exact hs v (hch ▸ hv)
    · rw [if_pos hch, hv]
      show (Decoration.setOpacity _ v).m_opacity = v
      unfold Decoration.setOpacity
      split_ifs with h
      · exact h
      · rfl
  · intro hch
    rw [if_neg (not_not.mpr hch)]

/-- The opacity stays in sync under `setAnimation`. -/
theorem Decoration.setAnimation_inSync (d : Decoration) (a : QVariantAnimation)
    (hs : d.OpacityInSync) : (d.setAnimation a).OpacityInSync := by
  intro v hv
  rw [(Decoration.setAnimation_fields d a).1] at hv
  exact (Decoration.setAnimation_opacity d a hs).1 v hv

/-- Timer ticks on the decoration are timer ticks on its animation; client and
settings stay and the opacity stays in sync. -/
theorem Decoration.animationTicks_spec (deltas : List Nat) :
    ∀ d : Decoration, d.OpacityInSync →
      (d.animationTicks deltas).m_animation = d.m_animation.updateAnimationTimes deltas ∧
      (d.animationTicks deltas).client = d.client ∧
      (d.animationTicks deltas).m_internalSettings = d.m_internalSettings ∧
      (d.animationTicks deltas).OpacityInSync := by
  induction deltas with
  | nil => intro d hs; exact ⟨rfl, rfl, rfl, hs⟩
  | cons delta deltas ih =>
    intro d hs
    obtain ⟨f1, f2, f3⟩ := Decoration.setAnimation_fields d
      (d.m_animation.updateAnimationTime delta)
    have hs2 := Decoration.setAnimation_inSync d (d.m_animation.updateAnimationTime delta) hs
    obtain ⟨i1, i2, i3, i4⟩ := ih (d.animationTick delta) hs2
    refine ⟨?_, ?_, ?_, i4⟩
    · show ((d.animationTick delta).animationTicks deltas).m_animation = _
      rw [i1]
      show (d.setAnimation _).m_animation.updateAnimationTimes deltas = _
      rw [f1]
      rfl
    · show ((d.animationTick delta).animationTicks deltas).client = _
      rw [i2]
      exact f2
    · show ((d.animationTick delta).animationTicks deltas).m_internalSettings = _
      rw [i3]
      exact f3

/-- With animations enabled, `updateAnimationState` of the decoration sets the
direction from the focus state and starts the animation when it is not running. -/
theorem Decoration.updateAnimationState_enabled (d : Decoration)
    (hen : d.m_internalSettings.animationsEnabled = true) (active : Bool)
    (hact : active = (match d.client with
      | some c => c.isActive
      | none => false)) :
    d.updateAnimationState = d.setAnimation
      (if (d.m_animation.setDirection
            (if active then QAbstractAnimation.Direction.Forward
             else QAbstractAnimation.Direction.Backward)).state
          ≠ QAbstractAnimation.State.Running then
        (d.m_animation.setDirection
            (if active then QAbstractAnimation.Direction.Forward
             else QAbstractAnimation.Direction.Backward)).start
       else d.m_animation.setDirection
            (if active then QAbstractAnimation.Direction.Forward
             else QAbstractAnimation.Direction.Backward)) := by
  unfold Decoration.updateAnimationState
  rw [if_pos hen, hact]

/-- On a running animation `setDirection` changes the direction only. -/
theorem QVariantAnimation.setDirection_running (a : QVariantAnimation)
    (hrun : a.state = QAbstractAnimation.State.Running)
    (dir : QAbstractAnimation.Direction) :
    a.setDirection dir = { a with direction := dir } := by
  unfold QVariantAnimation.setDirection
  by_cases h : a.direction = dir
  · rw [if_pos h]
    obtain ⟨st, di, D, ct, tt, cv⟩ := a
    simp only at h
    subst h
    rfl
  · rw [if_neg h]
    simp [hrun]

/-- The mix of the two dark title colours half-way. -/
theorem KColorUtils.mix_dark_title_half :
    KColorUtils.mix DARK_TITLE_FONT_COLOR_INACTIVE DARK_TITLE_FONT_COLOR (1 / 2) =
      { valid := true, alpha := 47288, red := 53199, green := 56026, blue := 59367 } := by
  have hb : ¬ ((1 : ℚ) / 2 ≤ 0) := by norm_num
  have hb2 : ¬ ((1 : ℚ) / 2 ≥ 1) := by norm_num
  unfold KColorUtils.mix
  rw [if_neg hb, if_neg hb2]
  norm_num [DARK_TITLE_FONT_COLOR_INACTIVE, DARK_TITLE_FONT_COLOR, QColor.fromArgb,
    QColor.redF, QColor.greenF, QColor.blueF, QColor.alphaF, KColorUtils.mixQreal,
    QColor.fromRgbF, qRound]
  decide

/-- From the stopped state, forward, with a positive duration, then timer ticks:
the time is the elapsed time up to the duration, the value its eased progress, and
the animation has stopped once the duration has elapsed. -/
theorem QVariantAnimation.start_forward_ticks (a : QVariantAnimation)
    (hs : a.state = QAbstractAnimation.State.Stopped) (hD : 0 < a.duration)
    (deltas : List Nat) :
    (((a.setDirection QAbstractAnimation.Direction.Forward).start).updateAnimationTimes
        deltas).currentTime = min a.duration (deltas.sum : Int) ∧
    (((a.setDirection QAbstractAnimation.Direction.Forward).start).updateAnimationTimes
        deltas).currentValue = some (QEasingCurve.valueForProgress
          (((min a.duration (deltas.sum : Int) : Int) : ℚ) / (a.duration : ℚ))) ∧
    (((a.setDirection QAbstractAnimation.Direction.Forward).start).updateAnimationTimes
        deltas).state =
      (if 0 < deltas.sum ∧ a.duration ≤ (deltas.sum : Int) then QAbstractAnimation.State.Stopped
       else QAbstractAnimation.State.Running) := by
  rw [QVariantAnimation.start_forward a hs hD]
  have hin : QVariantAnimation.InStep
      { state := QAbstractAnimation.State.Running
        direction := QAbstractAnimation.Direction.Forward
        duration := a.duration, currentTime := 0, totalCurrentTime := 0
        currentValue := some 0 } := by
    refine ⟨hD, le_refl _, le_of_lt hD, rfl, ?_⟩
    simp [QEasingCurve.valueForProgress, QEasingCurve.easeInOutQuad_zero]
  obtain ⟨_, r2, r3, r4, r5⟩ :=
    QVariantAnimation.updateAnimationTimes_forward deltas _ hin rfl rfl
  simp only [zero_add] at r3 r5
  refine ⟨r3, ?_, r5⟩
  have hv := r4.2.2.2.2
  rw [r2, r3] at hv
  exact hv

/-- A running animation turned backward, then timer ticks: the time goes back
from where it was. -/
theorem QVariantAnimation.reverse_ticks (a : QVariantAnimation) (hin : a.InStep)
    (hD1 : 1 < a.duration) (hrun : a.state = QAbstractAnimation.State.Running)
    (deltas : List Nat) :
    ((a.setDirection QAbstractAnimation.Direction.Backward).updateAnimationTimes
        deltas).currentTime = max 0 (a.currentTime - (deltas.sum : Int)) ∧
    ((a.setDirection QAbstractAnimation.Direction.Backward).updateAnimationTimes
        deltas).currentValue = some (QEasingCurve.valueForProgress
          (((max 0 (a.currentTime - (deltas.sum : Int)) : Int) : ℚ) / (a.duration : ℚ))) ∧
    ((a.setDirection QAbstractAnimation.Direction.Backward).updateAnimationTimes
        deltas).state =
      (if 0 < deltas.sum ∧ a.currentTime ≤ (deltas.sum : Int) then
        QAbstractAnimation.State.Stopped
       else QAbstractAnimation.State.Running) := by
  rw [QVariantAnimation.setDirection_running a hrun]
  obtain ⟨hD, h0, hle, htot, hval⟩ := hin
  have hin2 : QVariantAnimation.InStep
      { a with direction := QAbstractAnimation.Direction.Backward } :=
    ⟨hD, h0, hle, htot, hval⟩
  obtain ⟨_, r2, r3, r4, r5⟩ :=
    QVariantAnimation.updateAnimationTimes_backward deltas _ hin2 hD1 hrun rfl
  refine ⟨r3, ?_, r5⟩
  have hv := r4.2.2.2.2
  rw [r2, r3] at hv
  exact hv

/-- A running animation turned forward, then timer ticks: the time goes on from
where it was. -/
theorem QVariantAnimation.forward_ticks (a : QVariantAnimation) (hin : a.InStep)
    (hrun : a.state = QAbstractAnimation.State.Running) (deltas : List Nat) :
    ((a.setDirection QAbstractAnimation.Direction.Forward).updateAnimationTimes
        deltas).currentTime = min a.duration (a.currentTime + (deltas.sum : Int)) ∧
    ((a.setDirection QAbstractAnimation.Direction.Forward).updateAnimationTimes
        deltas).currentValue = some (QEasingCurve.valueForProgress
          (((min a.duration (a.currentTime + (deltas.sum : Int)) : Int) : ℚ)
            / (a.duration : ℚ))) ∧
    ((a.setDirection QAbstractAnimation.Direction.Forward).updateAnimationTimes
        deltas).state =
      (if 0 < deltas.sum ∧ a.duration ≤ a.currentTime + (deltas.sum : Int) then
        QAbstractAnimation.State.Stopped
       else QAbstractAnimation.State.Running) := by
  rw [QVariantAnimation.setDirection_running a hrun]
  obtain ⟨hD, h0, hle, htot, hval⟩ := hin
  have hin2 : QVariantAnimation.InStep
      { a with direction := QAbstractAnimation.Direction.Forward } :=
    ⟨hD, h0, hle, htot, hval⟩
  obtain ⟨_, r2, r3, r4, r5⟩ :=
    QVariantAnimation.updateAnimationTimes_forward deltas _ hin2 hrun rfl
  refine ⟨r3, ?_, r5⟩
  have hv := r4.2.2.2.2
  rw [r2, r3] at hv
  exact hv

/-- The opacity of the decoration after timer ticks is the value its animation
has then. -/
theorem Decoration.animationTicks_opacity (d : Decoration) (hs : d.OpacityInSync)
    (deltas : List Nat) (v : ℚ)
    (hv : (d.m_animation.updateAnimationTimes deltas).currentValue = some v) :
    (d.animationTicks deltas).m_opacity = v := by
  obtain ⟨i1, _, _, i4⟩ := Decoration.animationTicks_spec deltas d hs
  exact i4 v (i1 ▸ hv)

/-- The state is untouched by `setDirection`. -/
theorem QVariantAnimation.setDirection_state (a : QVariantAnimation)
    (dir : QAbstractAnimation.Direction) : (a.setDirection dir).state = a.state := by
  unfold QVariantAnimation.setDirection
  split_ifs <;> rfl

/-- The duration is untouched by `setDirection`. -/
theorem QVariantAnimation.setDirection_duration (a : QVariantAnimation)
    (dir : QAbstractAnimation.Direction) : (a.setDirection dir).duration = a.duration := by
  unfold QVariantAnimation.setDirection
  split_ifs <;> rfl

/-- Focus gained by a decoration whose animation is stopped, animations enabled,
positive duration, then timer ticks. -/
theorem Decoration.focus_gain_ticks (d : Decoration) (c : DecoratedClient)
    (hc : d.client = some c) (hact : c.isActive = true)
    (hen : d.m_internalSettings.animationsEnabled = true)
    (hstop : d.m_animation.state = QAbstractAnimation.State.Stopped)
    (hD : 0 < d.m_animation.duration) (hs : d.OpacityInSync) (deltas : List Nat) :
    (d.updateAnimationState.animationTicks deltas).m_animation.currentTime
      = min d.m_animation.duration (deltas.sum : Int) ∧
    (d.updateAnimationState.animationTicks deltas).m_opacity
      = QEasingCurve.valueForProgress
          (((min d.m_animation.duration (deltas.sum : Int) : Int) : ℚ)
            / (d.m_animation.duration : ℚ)) ∧
    (d.updateAnimationState.animationTicks deltas).m_animation.state =
      (if 0 < deltas.sum ∧ d.m_animation.duration ≤ (deltas.sum : Int) then
        QAbstractAnimation.State.Stopped
       else QAbstractAnimation.State.Running) ∧
    (d.updateAnimationState.animationTicks deltas).client = d.client ∧
    (d.updateAnimationState.animationTicks deltas).m_internalSettings = d.m_internalSettings := by
  have hu := Decoration.updateAnimationState_enabled d hen true (by rw [hc]; exact hact.symm)
  simp only [if_true, QVariantAnimation.setDirection_state, hstop, ne_eq,
    not_false_eq_true, reduceCtorEq] at hu
  obtain ⟨f1, f2, f3⟩ := Decoration.setAnimation_fields d
    (d.m_animation.setDirection QAbstractAnimation.Direction.Forward).start
  have hs2 := Decoration.setAnimation_inSync d
    (d.m_animation.setDirection QAbstractAnimation.Direction.Forward).start hs
  rw [← hu] at f1 f2 f3 hs2
  obtain ⟨i1, i2, i3, _⟩ := Decoration.animationTicks_spec deltas _ hs2
  obtain ⟨r1, r2, r3⟩ := QVariantAnimation.start_forward_ticks d.m_animation hstop hD deltas
  rw [← f1] at r1 r2 r3
  refine ⟨?_, ?_, ?_, i2.trans f2, i3.trans f3⟩
  · rw [i1]
    exact r1
  · exact Decoration.animationTicks_opacity _ hs2 deltas _ r2
  · rw [i1]
    exact r3

/-- A focus change while the animation of the decoration is running, animations
enabled, then timer ticks: the direction changes, time and opacity go on from
where they were. -/
theorem Decoration.focus_change_running_ticks (d : Decoration)
    (hen : d.m_internalSettings.animationsEnabled = true)
    (hrun : d.m_animation.state = QAbstractAnimation.State.Running)
    (hin : d.m_animation.InStep) (hs : d.OpacityInSync) (deltas : List Nat) :
    ((match d.client with
        | some c => c.isActive
        | none => false) = false → 1 < d.m_animation.duration →
      d.updateAnimationState.m_animation
        = { d.m_animation with direction := QAbstractAnimation.Direction.Backward } ∧
      d.updateAnimationState.m_opacity = d.m_opacity ∧
      (d.updateAnimationState.animationTicks deltas).m_animation.currentTime
        = max 0 (d.m_animation.currentTime - (deltas.sum : Int)) ∧
      (d.updateAnimationState.animationTicks deltas).m_opacity
        = QEasingCurve.valueForProgress
            (((max 0 (d.m_animation.currentTime - (deltas.sum : Int)) : Int) : ℚ)
              / (d.m_animation.duration : ℚ)) ∧
      (d.updateAnimationState.animationTicks deltas).m_animation.state =
        (if 0 < deltas.sum ∧ d.m_animation.currentTime ≤ (deltas.sum : Int) then
          QAbstractAnimation.State.Stopped
         else QAbstractAnimation.State.Running)) ∧
    ((match d.client with
        | some c => c.isActive
        | none => false) = true →
      d.updateAnimationState.m_animation
        = { d.m_animation with direction := QAbstractAnimation.Direction.Forward } ∧
      d.updateAnimationState.m_opacity = d.m_opacity ∧
      (d.updateAnimationState.animationTicks deltas).m_animation.currentTime
        = min d.m_animation.duration (d.m_animation.currentTime + (deltas.sum : Int)) ∧
      (d.updateAnimationState.animationTicks deltas).m_opacity
        = QEasingCurve.valueForProgress
            (((min d.m_animation.duration (d.m_animation.currentTime + (deltas.sum : Int))
                : Int) : ℚ) / (d.m_animation.duration : ℚ)) ∧
      (d.updateAnimationState.animationTicks deltas).m_animation.state =
        (if 0 < deltas.sum ∧ d.m_animation.duration
            ≤ d.m_animation.currentTime + (deltas.sum : Int) then
          QAbstractAnimation.State.Stopped
         else QAbstractAnimation.State.Running)) := by
  constructor
  · intro hact hD1
    have hu := Decoration.updateAnimationState_enabled d hen false hact.symm
    simp only [Bool.false_eq_true, if_false, QVariantAnimation.setDirection_state, hrun, ne_eq,
      not_true_eq_false] at hu
    obtain ⟨f1, _, _⟩ := Decoration.setAnimation_fields d
      (d.m_animation.setDirection QAbstractAnimation.Direction.Backward)
    have hs2 := Decoration.setAnimation_inSync d
      (d.m_animation.setDirection QAbstractAnimation.Direction.Backward) hs
    have ho := (Decoration.setAnimation_opacity d
      (d.m_animation.setDirection QAbstractAnimation.Direction.Backward) hs).2
      (by rw [QVariantAnimation.setDirection_running _ hrun])
    rw [← hu] at f1 hs2 ho
    obtain ⟨i1, _, _, _⟩ := Decoration.animationTicks_spec deltas _ hs2
    obtain ⟨r1, r2, r3⟩ := QVariantAnimation.reverse_ticks d.m_animation hin hD1 hrun deltas
    rw [← f1] at r1 r2 r3
    refine ⟨?_, ho, ?_, ?_, ?_⟩
    · rw [f1, QVariantAnimation.setDirection_running _ hrun]
    · rw [i1]
      exact r1
    · exact Decoration.animationTicks_opacity _ hs2 deltas _ r2
    · rw [i1]
      exact r3
  · intro hact
    have hu := Decoration.updateAnimationState_enabled d hen true hact.symm
    simp only [if_true, QVariantAnimation.setDirection_state, hrun, ne_eq,
      not_true_eq_false, if_false] at hu
    obtain ⟨f1, _, _⟩ := Decoration.setAnimation_fields d
      (d.m_animation.setDirection QAbstractAnimation.Direction.Forward)
    have hs2 := Decoration.setAnimation_inSync d
      (d.m_animation.setDirection QAbstractAnimation.Direction.Forward) hs
    have ho := (Decoration.setAnimation_opacity d
      (d.m_animation.setDirection QAbstractAnimation.Direction.Forward) hs).2
      (by rw [QVariantAnimation.setDirection_running _ hrun])
    rw [← hu] at f1 hs2 ho
    obtain ⟨i1, _, _, _⟩ := Decoration.animationTicks_spec deltas _ hs2
    obtain ⟨r1, r2, r3⟩ := QVariantAnimation.forward_ticks d.m_animation hin hrun deltas
    rw [← f1] at r1 r2 r3
    refine ⟨?_, ho, ?_, ?_, ?_⟩
    · rw [f1, QVariantAnimation.setDirection_running _ hrun]
    · rw [i1]
      exact r1
    · exact Decoration.animationTicks_opacity _ hs2 deltas _ r2
    · rw [i1]
      exact r3

/-- What `setAnimation` does to the animation of the button. -/
theorem Button.setAnimation_animation (b : Button) (a : QVariantAnimation) :
    (b.setAnimation a).m_animation = a := by
  unfold Button.setAnimation Button.setOpacity
  cases QVariantAnimation.valueChanged b.m_animation a with
  | none => rfl
  | some v =>
    dsimp only
    split_ifs <;> rfl

/-- After `setAnimation` the opacity of the button is the current value of its
animation, when it was in sync before; it is unchanged when the value is. -/
theorem Button.hover_setAnimation_opacity (b : Button) (a : QVariantAnimation)
    (hs : b.OpacityInSync) :
    (∀ v, a.currentValue = some v → (b.setAnimation a).m_opacity = v) ∧
    (a.currentValue = b.m_animation.currentValue → (b.setAnimation a).m_opacity = b.m_opacity) := by
  unfold Button.setAnimation QVariantAnimation.valueChanged
  constructor
  · intro v hv
    by_cases hch : a.currentValue = b.m_animation.currentValue
    · rw [if_neg (not_not.mpr hch)]
      exact hs v (hch ▸ hv)
    · rw [if_pos hch, hv]
      show (Button.setOpacity _ v).m_opacity = v
      unfold Button.setOpacity
      split_ifs with h
      · exact h
      · rfl
  · intro hch
    rw [if_neg (not_not.mpr hch)]

/-- The opacity of the button stays in sync under `setAnimation`. -/
theorem Button.hover_setAnimation_inSync (b : Button) (a : QVariantAnimation)
    (hs : b.OpacityInSync) : (b.setAnimation a).OpacityInSync := by
  intro v hv
  rw [Button.setAnimation_animation b a] at hv
  exact (Button.hover_setAnimation_opacity b a hs).1 v hv

/-- Timer ticks on the button are timer ticks on its animation, and the opacity
stays in sync. -/
theorem Button.hover_animationTicks_spec (deltas : List Nat) :
    ∀ b : Button, b.OpacityInSync →
      (b.animationTicks deltas).m_animation = b.m_animation.updateAnimationTimes deltas ∧
      (b.animationTicks deltas).OpacityInSync := by
  induction deltas with
  | nil => intro b hs; exact ⟨rfl, hs⟩
  | cons delta deltas ih =>
    intro b hs
    have f1 := Button.setAnimation_animation b (b.m_animation.updateAnimationTime delta)
    have hs2 := Button.hover_setAnimation_inSync b (b.m_animation.updateAnimationTime delta) hs
    obtain ⟨i1, i4⟩ := ih (b.animationTick delta) hs2
    refine ⟨?_, i4⟩
    show ((b.animationTick delta).animationTicks deltas).m_animation = _
    rw [i1]
    show (b.setAnimation _).m_animation.updateAnimationTimes deltas = _
    rw [f1]
    rfl

/-- The opacity of the button after timer ticks is the value its animation has
then. -/
theorem Button.hover_animationTicks_opacity (b : Button) (hs : b.OpacityInSync)
    (deltas : List Nat) (v : ℚ)
    (hv : (b.m_animation.updateAnimationTimes deltas).currentValue = some v) :
    (b.animationTicks deltas).m_opacity = v := by
  obtain ⟨i1, i4⟩ := Button.hover_animationTicks_spec deltas b hs
  exact i4 v (i1 ▸ hv)

/-- With animations enabled, `updateAnimationState` of the button sets the
direction from the hover state and starts the animation when it is not running. -/
theorem Button.hover_updateAnimationState_enabled (d : Decoration) (b : Button) (hovered : Bool)
    (hen : d.m_internalSettings.animationsEnabled = true) :
    b.updateAnimationState (some d) hovered = b.setAnimation
      (if (b.m_animation.setDirection
            (if hovered then QAbstractAnimation.Direction.Forward
             else QAbstractAnimation.Direction.Backward)).state
          ≠ QAbstractAnimation.State.Running then
        (b.m_animation.setDirection
            (if hovered then QAbstractAnimation.Direction.Forward
             else QAbstractAnimation.Direction.Backward)).start
       else b.m_animation.setDirection
            (if hovered then QAbstractAnimation.Direction.Forward
             else QAbstractAnimation.Direction.Backward)) := by
  unfold Button.updateAnimationState
  simp only [hen, Bool.not_true, Bool.false_eq_true, if_false]

/-- Hover entered on a button whose animation is stopped, animations enabled,
positive duration, then timer ticks. -/
theorem Button.hover_enter_ticks (d : Decoration) (b : Button)
    (hen : d.m_internalSettings.animationsEnabled = true)
    (hstop : b.m_animation.state = QAbstractAnimation.State.Stopped)
    (hD : 0 < b.m_animation.duration) (hs : b.OpacityInSync) (deltas : List Nat) :
    ((b.updateAnimationState (some d) true).animationTicks deltas).m_animation.currentTime
      = min b.m_animation.duration (deltas.sum : Int) ∧
    ((b.updateAnimationState (some d) true).animationTicks deltas).m_opacity
      = QEasingCurve.valueForProgress
          (((min b.m_animation.duration (deltas.sum : Int) : Int) : ℚ)
            / (b.m_animation.duration : ℚ)) ∧
    ((b.updateAnimationState (some d) true).animationTicks deltas).m_animation.state =
      (if 0 < deltas.sum ∧ b.m_animation.duration ≤ (deltas.sum : Int) then
        QAbstractAnimation.State.Stopped
       else QAbstractAnimation.State.Running) := by
  have hu := Button.hover_updateAnimationState_enabled d b true hen
  simp only [if_true, QVariantAnimation.setDirection_state, hstop, ne_eq,
    not_false_eq_true, reduceCtorEq] at hu
  have f1 := Button.setAnimation_animation b
    (b.m_animation.setDirection QAbstractAnimation.Direction.Forward).start
  have hs2 := Button.hover_setAnimation_inSync b
    (b.m_animation.setDirection QAbstractAnimation.Direction.Forward).start hs
  rw [← hu] at f1 hs2
  obtain ⟨i1, _⟩ := Button.hover_animationTicks_spec deltas _ hs2
  obtain ⟨r1, r2, r3⟩ := QVariantAnimation.start_forward_ticks b.m_animation hstop hD deltas
  rw [← f1] at r1 r2 r3
  refine ⟨?_, ?_, ?_⟩
  · rw [i1]
    exact r1
  · exact Button.hover_animationTicks_opacity _ hs2 deltas _ r2
  · rw [i1]
    exact r3

/-- A hover change while the animation of the button is running, animations
enabled, then timer ticks: the direction changes, time and opacity go on from
where they were. -/
theorem Button.hover_change_running_ticks (d : Decoration) (b : Button)
    (hen : d.m_internalSettings.animationsEnabled = true)
    (hrun : b.m_animation.state = QAbstractAnimation.State.Running)
    (hin : b.m_animation.InStep) (hs : b.OpacityInSync) (deltas : List Nat) :
    (1 < b.m_animation.duration →
      (b.updateAnimationState (some d) false).m_animation
        = { b.m_animation with direction := QAbstractAnimation.Direction.Backward } ∧
      (b.updateAnimationState (some d) false).m_opacity = b.m_opacity ∧
      ((b.updateAnimationState (some d) false).animationTicks deltas).m_animation.currentTime
        = max 0 (b.m_animation.currentTime - (deltas.sum : Int)) ∧
      ((b.updateAnimationState (some d) false).animationTicks deltas).m_opacity
        = QEasingCurve.valueForProgress
            (((max 0 (b.m_animation.currentTime - (deltas.sum : Int)) : Int) : ℚ)
              / (b.m_animation.duration : ℚ)) ∧
      ((b.updateAnimationState (some d) false).animationTicks deltas).m_animation.state =
        (if 0 < deltas.sum ∧ b.m_animation.currentTime ≤ (deltas.sum : Int) then
          QAbstractAnimation.State.Stopped
         else QAbstractAnimation.State.Running)) ∧
    ((b.updateAnimationState (some d) true).m_animation
        = { b.m_animation with direction := QAbstractAnimation.Direction.Forward } ∧
      (b.updateAnimationState (some d) true).m_opacity = b.m_opacity ∧
      ((b.updateAnimationState (some d) true).animationTicks deltas).m_animation.currentTime
        = min b.m_animation.duration (b.m_animation.currentTime + (deltas.sum : Int)) ∧
      ((b.updateAnimationState (some d) true).animationTicks deltas).m_opacity
        = QEasingCurve.valueForProgress
            (((min b.m_animation.duration (b.m_animation.currentTime + (deltas.sum : Int))
                : Int) : ℚ) / (b.m_animation.duration : ℚ)) ∧
      ((b.updateAnimationState (some d) true).animationTicks deltas).m_animation.state =
        (if 0 < deltas.sum ∧ b.m_animation.duration
            ≤ b.m_animation.currentTime + (deltas.sum : Int) then
          QAbstractAnimation.State.Stopped
         else QAbstractAnimation.State.Running)) := by
  constructor
  · intro hD1
    have hu := Button.hover_updateAnimationState_enabled d b false hen
    simp only [Bool.false_eq_true, if_false, QVariantAnimation.setDirection_state, hrun, ne_eq,
      not_true_eq_false] at hu
    have f1 := Button.setAnimation_animation b
      (b.m_animation.setDirection QAbstractAnimation.Direction.Backward)
    have hs2 := Button.hover_setAnimation_inSync b
      (b.m_animation.setDirection QAbstractAnimation.Direction.Backward) hs
    have ho := (Button.hover_setAnimation_opacity b
      (b.m_animation.setDirection QAbstractAnimation.Direction.Backward) hs).2
      (by rw [QVariantAnimation.setDirection_running _ hrun])
    rw [← hu] at f1 hs2 ho
    obtain ⟨i1, _⟩ := Button.hover_animationTicks_spec deltas _ hs2
    obtain ⟨r1, r2, r3⟩ := QVariantAnimation.reverse_ticks b.m_animation hin hD1 hrun deltas
    rw [← f1] at r1 r2 r3
    refine ⟨?_, ho, ?_, ?_, ?_⟩
    · rw [f1, QVariantAnimation.setDirection_running _ hrun]
    · rw [i1]
      exact r1
    · exact Button.hover_animationTicks_opacity _ hs2 deltas _ r2
    · rw [i1]
      exact r3
  · have hu := Button.hover_updateAnimationState_enabled d b true hen
    simp only [if_true, QVariantAnimation.setDirection_state, hrun, ne_eq,
      not_true_eq_false, if_false] at hu
    have f1 := Button.setAnimation_animation b
      (b.m_animation.setDirection QAbstractAnimation.Direction.Forward)
    have hs2 := Button.hover_setAnimation_inSync b
      (b.m_animation.setDirection QAbstractAnimation.Direction.Forward) hs
    have ho := (Button.hover_setAnimation_opacity b
      (b.m_animation.setDirection QAbstractAnimation.Direction.Forward) hs).2
      (by rw [QVariantAnimation.setDirection_running _ hrun])
    rw [← hu] at f1 hs2 ho
    obtain ⟨i1, _⟩ := Button.hover_animationTicks_spec deltas _ hs2
    obtain ⟨r1, r2, r3⟩ := QVariantAnimation.forward_ticks b.m_animation hin hrun deltas
    rw [← f1] at r1 r2 r3
    refine ⟨?_, ho, ?_, ?_, ?_⟩
    · rw [f1, QVariantAnimation.setDirection_running _ hrun]
    · rw [i1]
      exact r1
    · exact Button.hover_animationTicks_opacity _ hs2 deltas _ r2
    · rw [i1]
      exact r3

/-! ## C13, C14: the title font colour -/

/-- C13: a window becomes active (client active, animation stopped) with
animations enabled, a duration of 200 ms and the dark theme. Right after
`updateAnimationState` the font colour is `DARK_TITLE_FONT_COLOR_INACTIVE`; after
timer ticks that sum to 200 ms, whatever their granularity, it is
`DARK_TITLE_FONT_COLOR`; after ticks that sum to 100 ms it is the half-way mix,
whose alpha 0xb8 lies strictly between 0x7f and 0xf1. -/
theorem fontColor_focus_cross_fade (E : InternalSettings.Enum) (d : Decoration)
    (c : DecoratedClient) (hc : d.client = some c) (hact : c.isActive = true)
    (hen : d.m_internalSettings.animationsEnabled = true)
    (htheme : d.m_internalSettings.arcTheme = E.ThemeDark)
    (hstop : d.m_animation.state = QAbstractAnimation.State.Stopped)
    (hdur : d.m_animation.duration = 200) (hs : d.OpacityInSync) :
    d.updateAnimationState.fontColor E KColorUtils.mix = DARK_TITLE_FONT_COLOR_INACTIVE ∧
    (∀ deltas : List Nat, deltas.sum = 200 →
      (d.updateAnimationState.animationTicks deltas).fontColor E KColorUtils.mix
        = DARK_TITLE_FONT_COLOR) ∧
    (∀ deltas : List Nat, deltas.sum = 100 →
      (d.updateAnimationState.animationTicks deltas).fontColor E KColorUtils.mix
        = { valid := true, alpha := 47288, red := 53199, green := 56026, blue := 59367 } ∧
      ((d.updateAnimationState.animationTicks deltas).fontColor E KColorUtils.mix).alpha8 = 0xb8 ∧
      DARK_TITLE_FONT_COLOR_INACTIVE.alpha8 = 0x7f ∧ DARK_TITLE_FONT_COLOR.alpha8 = 0xf1 ∧
      DARK_TITLE_FONT_COLOR_INACTIVE.alpha8
        < ((d.updateAnimationState.animationTicks deltas).fontColor E KColorUtils.mix).alpha8 ∧
      ((d.updateAnimationState.animationTicks deltas).fontColor E KColorUtils.mix).alpha8
        < DARK_TITLE_FONT_COLOR.alpha8) := by
  have hD : 0 < d.m_animation.duration := by omega
  have key := Decoration.focus_gain_ticks d c hc hact hen hstop hD hs
  have hfont : ∀ deltas : List Nat,
      (d.updateAnimationState.animationTicks deltas).fontColor E KColorUtils.mix =
        if (d.updateAnimationState.animationTicks deltas).m_animation.state
            = QAbstractAnimation.State.Running then
          KColorUtils.mix DARK_TITLE_FONT_COLOR_INACTIVE DARK_TITLE_FONT_COLOR
            (d.updateAnimationState.animationTicks deltas).m_opacity
        else DARK_TITLE_FONT_COLOR := by
    intro deltas
    obtain ⟨_, _, _, k4, k5⟩ := key deltas
    unfold Decoration.fontColor Decoration.activeColor Decoration.inactiveColor
    simp only [k4, k5, hc, hact, htheme, if_true]
  refine ⟨?_, ?_, ?_⟩
  · obtain ⟨_, k2, k3, _, _⟩ := key []
    have h := hfont []
    simp only [List.sum_nil, lt_self_iff_false, false_and, if_false] at k3
    rw [k3, if_pos rfl, k2] at h
    have hz : QEasingCurve.valueForProgress
        (((min d.m_animation.duration (([] : List Nat).sum : Int) : Int) : ℚ)
          / (d.m_animation.duration : ℚ)) = 0 := by
      have hm : min d.m_animation.duration (([] : List Nat).sum : Int) = 0 := by
        simp only [List.sum_nil, Nat.cast_zero]
        omega
      rw [hm]
      simp [QEasingCurve.valueForProgress, QEasingCurve.easeInOutQuad_zero]
    rw [hz] at h
    exact h.trans (by simp [KColorUtils.mix])
  · intro deltas hsum
    obtain ⟨_, _, k3, _, _⟩ := key deltas
    have h := hfont deltas
    have hcond : 0 < deltas.sum ∧ d.m_animation.duration ≤ (deltas.sum : Int) := by
      rw [hsum, hdur]
      constructor
      · omega
      · norm_num
    rw [if_pos hcond] at k3
    rw [k3] at h
    exact h
  · intro deltas hsum
    obtain ⟨_, k2, k3, _, _⟩ := key deltas
    have h := hfont deltas
    have hcond : ¬ (0 < deltas.sum ∧ d.m_animation.duration ≤ (deltas.sum : Int)) := by
      rw [hsum, hdur]
      norm_num
    rw [if_neg hcond] at k3
    have hv : QEasingCurve.valueForProgress
        (((min d.m_animation.duration (deltas.sum : Int) : Int) : ℚ)
          / (d.m_animation.duration : ℚ)) = 1 / 2 := by
      rw [hsum, hdur]
      have hm : min (200 : Int) ((100 : Nat) : Int) = 100 := by norm_num
      rw [hm]
      rw [QEasingCurve.valueForProgress_of_mem (by norm_num) (by norm_num)]
      have : ((100 : Int) : ℚ) / ((200 : Int) : ℚ) = 1 / 2 := by norm_num
      rw [this, QEasingCurve.easeInOutQuad_half]
    rw [k3, if_pos rfl, k2, hv, KColorUtils.mix_dark_title_half] at h
    rw [h]
    exact ⟨rfl, by decide, by decide, by decide, by decide, by decide⟩

/-- C13 on the sample decoration: ticks of 30, 30 and 40 ms bring the alpha of the
title colour to 0xb8; ticks of 120 and 80 ms bring the colour to #f1cfdae7. -/
theorem fontColor_focus_cross_fade_witness :
    ((sampleDecoration.updateAnimationState.animationTicks [30, 30, 40]).fontColor sampleEnum
      KColorUtils.mix).alpha8 = 0xb8 ∧
    (sampleDecoration.updateAnimationState.animationTicks [120, 80]).fontColor sampleEnum
      KColorUtils.mix = QColor.fromArgb 0xf1 0xcf 0xda 0xe7 :=
  have h := fontColor_focus_cross_fade sampleEnum sampleDecoration sampleClient rfl rfl rfl rfl
    rfl rfl (by intro v hv; cases hv)
  ⟨(h.2.2 [30, 30, 40] (by decide)).2.1, h.2.1 [120, 80] (by decide)⟩

/-- C14: for either theme, while the animation is running `fontColor` is the mix of
the inactive and the active font colour at the stored progress, hence the
inactive colour at progress 0 and the active colour at progress 1 for a mixing
function that returns its ends there; when no animation is running it is the
active colour if the client is present and active, and the inactive colour
otherwise, whatever the stored progress. -/
theorem fontColor_mix_or_snap (E : InternalSettings.Enum) (mix : QColor → QColor → ℚ → QColor)
    (d : Decoration) (h0 : ∀ a b, mix a b 0 = a) (h1 : ∀ a b, mix a b 1 = b) :
    (d.m_animation.state = QAbstractAnimation.State.Running →
      d.fontColor E mix = mix (d.inactiveColor E) (d.activeColor E) d.m_opacity ∧
      (d.m_opacity = 0 → d.fontColor E mix = d.inactiveColor E) ∧
      (d.m_opacity = 1 → d.fontColor E mix = d.activeColor E)) ∧
    (d.m_animation.state ≠ QAbstractAnimation.State.Running →
      d.fontColor E mix =
        if (∃ c, d.client = some c ∧ c.isActive = true) then d.activeColor E
        else d.inactiveColor E) ∧
    d.activeColor E = (if d.m_internalSettings.arcTheme = E.ThemeDark
      then QColor.fromArgb 0xf1 0xcf 0xda 0xe7 else QColor.fromArgb 0xf1 0x52 0x5d 0x76) ∧
    d.inactiveColor E = (if d.m_internalSettings.arcTheme = E.ThemeDark
      then QColor.fromArgb 0x7f 0xcf 0xda 0xe7 else QColor.fromArgb 0x7f 0x52 0x5d 0x76) := by
  refine ⟨?_, ?_, rfl, rfl⟩
  · intro hrun
    have h : d.fontColor E mix = mix (d.inactiveColor E) (d.activeColor E) d.m_opacity := by
      unfold Decoration.fontColor
      simp only [hrun, if_true]
    refine ⟨h, ?_, ?_⟩
    · intro hz
      rw [h, hz, h0]
    · intro ho
      rw [h, ho, h1]
  · intro hrun
    unfold Decoration.fontColor
    simp only [hrun, if_false]
    cases hc : d.client with
    | none => simp
    | some c =>
      cases ha : c.isActive <;> simp [ha]

/-- C14 on the sample decoration (not animating, active, stored progress 1) and
on the fading one (animating at progress 1/2). -/
theorem fontColor_mix_or_snap_witness :
    sampleDecoration.fontColor sampleEnum KColorUtils.mix = QColor.fromArgb 0xf1 0xcf 0xda 0xe7 ∧
    sampleFading.fontColor sampleEnum KColorUtils.mix
      = KColorUtils.mix (QColor.fromArgb 0x7f 0xcf 0xda 0xe7) (QColor.fromArgb 0xf1 0xcf 0xda 0xe7)
          (1 / 2) :=
  ⟨((fontColor_mix_or_snap sampleEnum KColorUtils.mix sampleDecoration
      (by intro a b; simp [KColorUtils.mix]) (by intro a b; simp [KColorUtils.mix])).2.1
        (by decide)).trans rfl,
   ((fontColor_mix_or_snap sampleEnum KColorUtils.mix sampleFading
      (by intro a b; simp [KColorUtils.mix]) (by intro a b; simp [KColorUtils.mix])).1
        rfl).1⟩

/-! ## C15, C17: the focus and hover animations -/

/-- The eased progress at the end of the duration is 1. -/
theorem QEasingCurve.valueForProgress_full {D : Int} (hD : 0 < D) (n : Nat)
    (hn : (n : Int) = D) :
    QEasingCurve.valueForProgress (((min D (n : Int) : Int) : ℚ) / (D : ℚ)) = 1 := by
  have hm : min D (n : Int) = D := by omega
  have hDq : (D : ℚ) ≠ 0 := by
    have : (0 : ℚ) < (D : ℚ) := by exact_mod_cast hD
    exact ne_of_gt this
  rw [hm, div_self hDq, QEasingCurve.valueForProgress_of_mem (by norm_num) (le_refl _),
    QEasingCurve.easeInOutQuad_one]

/-- C15: the focus animation of a decoration and the hover animation of a button,
started forward from the stopped state with animations enabled. With a positive
duration D the progress starts at 0, and after timer ticks whose elapsed times sum
to D, whatever their granularity, the progress is exactly 1 and the animation is
stopped. With a duration of 0 the progress is 1 and the animation is stopped at
once. -/
theorem animation_forward_completes (d : Decoration) (c : DecoratedClient) (b : Button)
    (hc : d.client = some c) (hact : c.isActive = true)
    (hen : d.m_internalSettings.animationsEnabled = true)
    (hstop : d.m_animation.state = QAbstractAnimation.State.Stopped) (hs : d.OpacityInSync)
    (hbstop : b.m_animation.state = QAbstractAnimation.State.Stopped) (hbs : b.OpacityInSync) :
    (0 < d.m_animation.duration →
      d.updateAnimationState.m_opacity = 0 ∧
      d.updateAnimationState.m_animation.state = QAbstractAnimation.State.Running ∧
      ∀ deltas : List Nat, (deltas.sum : Int) = d.m_animation.duration →
        (d.updateAnimationState.animationTicks deltas).m_opacity = 1 ∧
        (d.updateAnimationState.animationTicks deltas).m_animation.state
          = QAbstractAnimation.State.Stopped) ∧
    (d.m_animation.duration = 0 →
      d.updateAnimationState.m_opacity = 1 ∧
      d.updateAnimationState.m_animation.state = QAbstractAnimation.State.Stopped) ∧
    (0 < b.m_animation.duration →
      (b.updateAnimationState (some d) true).m_opacity = 0 ∧
      (b.updateAnimationState (some d) true).m_animation.state
        = QAbstractAnimation.State.Running ∧
      ∀ deltas : List Nat, (deltas.sum : Int) = b.m_animation.duration →
        ((b.updateAnimationState (some d) true).animationTicks deltas).m_opacity = 1 ∧
        ((b.updateAnimationState (some d) true).animationTicks deltas).m_animation.state
          = QAbstractAnimation.State.Stopped) ∧
    (b.m_animation.duration = 0 →
      (b.updateAnimationState (some d) true).m_opacity = 1 ∧
      (b.updateAnimationState (some d) true).m_animation.state
        = QAbstractAnimation.State.Stopped) := by
  refine ⟨?_, ?_, ?_, ?_⟩
  · intro hD
    have key := Decoration.focus_gain_ticks d c hc hact hen hstop hD hs
    obtain ⟨_, k2, k3, _, _⟩ := key []
    refine ⟨?_, ?_, ?_⟩
    · have hm : min d.m_animation.duration (([] : List Nat).sum : Int) = 0 := by
        simp only [List.sum_nil, Nat.cast_zero]
        omega
      rw [hm] at k2
      exact k2.trans (by simp [QEasingCurve.valueForProgress, QEasingCurve.easeInOutQuad_zero])
    · simpa using k3
    · intro deltas hsum
      obtain ⟨_, j2, j3, _, _⟩ := key deltas
      have hpos : 0 < deltas.sum := by omega
      refine ⟨?_, ?_⟩
      · rw [j2]
        exact QEasingCurve.valueForProgress_full hD _ hsum
      · rw [j3, if_pos ⟨hpos, le_of_eq hsum.symm⟩]
  · intro hD
    have hu := Decoration.updateAnimationState_enabled d hen true (by rw [hc]; exact hact.symm)
    simp only [if_true, QVariantAnimation.setDirection_state, hstop, ne_eq,
      not_false_eq_true, reduceCtorEq] at hu
    rw [QVariantAnimation.start_forward_zero d.m_animation hstop hD] at hu
    rw [hu]
    exact ⟨(Decoration.setAnimation_opacity d _ hs).1 1 rfl,
      by rw [(Decoration.setAnimation_fields d _).1]⟩
  · intro hD
    have key := Button.hover_enter_ticks d b hen hbstop hD hbs
    obtain ⟨_, k2, k3⟩ := key []
    refine ⟨?_, ?_, ?_⟩
    · have hm : min b.m_animation.duration (([] : List Nat).sum : Int) = 0 := by
        simp only [List.sum_nil, Nat.cast_zero]
        omega
      rw [hm] at k2
      exact k2.trans (by simp [QEasingCurve.valueForProgress, QEasingCurve.easeInOutQuad_zero])
    · simpa using k3
    · intro deltas hsum
      obtain ⟨_, j2, j3⟩ := key deltas
      have hpos : 0 < deltas.sum := by omega
      refine ⟨?_, ?_⟩
      · rw [j2]
        exact QEasingCurve.valueForProgress_full hD _ hsum
      · rw [j3, if_pos ⟨hpos, le_of_eq hsum.symm⟩]
  · intro hD
    have hu := Button.hover_updateAnimationState_enabled d b true hen
    simp only [if_true, QVariantAnimation.setDirection_state, hbstop, ne_eq,
      not_false_eq_true, reduceCtorEq] at hu
    rw [QVariantAnimation.start_forward_zero b.m_animation hbstop hD] at hu
    rw [hu]
    exact ⟨(Button.hover_setAnimation_opacity b _ hbs).1 1 rfl,
      by rw [Button.setAnimation_animation b _]⟩

/-- C15 on the sample decoration and a sample button, duration 200 ms: ticks of
7, 93 and 100 ms. -/
theorem animation_forward_completes_witness :
    (sampleDecoration.updateAnimationState.animationTicks [7, 93, 100]).m_opacity = 1 ∧
    (sampleDecoration.updateAnimationState.animationTicks [7, 93, 100]).m_animation.state
      = QAbstractAnimation.State.Stopped ∧
    (((sampleButton DecorationButtonType.Close).updateAnimationState (some sampleDecoration)
      true).animationTicks [7, 93, 100]).m_opacity = 1 :=
  have h := animation_forward_completes sampleDecoration sampleClient
    (sampleButton DecorationButtonType.Close) rfl rfl rfl rfl (by intro v hv; cases hv) rfl
    (by intro v hv; cases hv)
  ⟨((h.1 (by decide)).2.2 [7, 93, 100] (by decide)).1,
   ((h.1 (by decide)).2.2 [7, 93, 100] (by decide)).2,
   ((h.2.2.1 (by decide)).2.2 [7, 93, 100] (by decide)).1⟩

/-- The sample animation half-way is in step. -/
theorem sampleFading_inStep : sampleFading.m_animation.InStep := by
  refine ⟨by decide, by decide, by decide, rfl, ?_⟩
  show some (1 / 2 : ℚ) = some (QEasingCurve.valueForProgress (((100 : Int) : ℚ) / ((200 : Int) : ℚ)))
  rw [QEasingCurve.valueForProgress_of_mem (by norm_num) (by norm_num)]
  have : ((100 : Int) : ℚ) / ((200 : Int) : ℚ) = 1 / 2 := by norm_num
  rw [this, QEasingCurve.easeInOutQuad_half]

/-- The sample decoration has no animation value yet, so its opacity is in sync. -/
theorem sampleDecoration_inSync : sampleDecoration.OpacityInSync := by
  intro v hv
  cases hv

/-- C17, counterexample: the sample decoration gains focus with a stopped
animation of 200 ms, so the animation starts forward from progress 0; after a
timer tick of 50 ms the elapsed time is 50 ms but the progress delivered to
`setOpacity` is 1/8, not 50/200 = 1/4. -/
theorem animation_progress_not_linear :
    sampleDecoration.updateAnimationState.m_opacity = 0 ∧
    sampleDecoration.updateAnimationState.m_animation.direction
      = QAbstractAnimation.Direction.Forward ∧
    sampleDecoration.updateAnimationState.m_animation.duration = 200 ∧
    (sampleDecoration.updateAnimationState.animationTicks [50]).m_animation.currentTime = 50 ∧
    (sampleDecoration.updateAnimationState.animationTicks [50]).m_opacity = 1 / 8 ∧
    (sampleDecoration.updateAnimationState.animationTicks [50]).m_opacity ≠ (50 : ℚ) / 200 := by
  have k0 := Decoration.focus_gain_ticks sampleDecoration sampleClient rfl rfl rfl rfl
    (by decide) sampleDecoration_inSync []
  have k := Decoration.focus_gain_ticks sampleDecoration sampleClient rfl rfl rfl rfl
    (by decide) sampleDecoration_inSync [50]
  have hv : QEasingCurve.valueForProgress
      (((min sampleDecoration.m_animation.duration (([50] : List Nat).sum : Int) : Int) : ℚ)
        / (sampleDecoration.m_animation.duration : ℚ)) = 1 / 8 := by
    have e : (((min sampleDecoration.m_animation.duration (([50] : List Nat).sum : Int) : Int)
        : ℚ) / (sampleDecoration.m_animation.duration : ℚ)) = 1 / 4 := by
      have e1 : min sampleDecoration.m_animation.duration (([50] : List Nat).sum : Int) = 50 := by
        decide
      have e2 : sampleDecoration.m_animation.duration = 200 := rfl
      rw [e1, e2]
      norm_num
    rw [e, QEasingCurve.valueForProgress_of_mem (by norm_num) (by norm_num),
      QEasingCurve.easeInOutQuad_of_lt_half (by norm_num)]
    norm_num
  have hv0 : QEasingCurve.valueForProgress
      (((min sampleDecoration.m_animation.duration (([] : List Nat).sum : Int) : Int) : ℚ)
        / (sampleDecoration.m_animation.duration : ℚ)) = 0 := by
    have e1 : min sampleDecoration.m_animation.duration (([] : List Nat).sum : Int) = 0 := by
      decide
    rw [e1]
    simp only [Int.cast_zero, zero_div]
    rw [QEasingCurve.valueForProgress_of_mem (le_refl _) (by norm_num),
      QEasingCurve.easeInOutQuad_zero]
  have hd : sampleDecoration.updateAnimationState.m_animation
      = (sampleDecoration.m_animation.setDirection QAbstractAnimation.Direction.Forward).start := by
    have hu := Decoration.updateAnimationState_enabled sampleDecoration rfl true rfl
    rw [hu]
    exact (Decoration.setAnimation_fields _ _).1
  refine ⟨?_, ?_, ?_, ?_, ?_, ?_⟩
  · have := k0.2.1
    rw [hv0] at this
    exact this
  · rw [hd]
    rfl
  · rw [hd]
    rfl
  · rw [k.1]
    decide
  · rw [k.2.1, hv]
  · rw [k.2.1, hv]
    norm_num

/-- C17, amended: elapsed time advances linearly and is clamped to the duration,
and the progress delivered to `setOpacity` is the `InOutQuad` easing of
elapsed time over duration. Started forward from the stopped state with duration
D > 0 (focus gained, hover entered), after timer ticks summing to e ≤ D the
animation time is e and the progress is `easeInOutQuad (e / D)`, which is
2 (e/D)² up to half the duration and 1 - 2 (1 - e/D)² after it. Reversed while
running at time t (focus lost, hover left, D > 1), after ticks summing to e the
animation time is max 0 (t - e) and the progress is `easeInOutQuad` of that time
over D; all progress values lie in [0, 1]. -/
theorem animation_progress_eased (d d2 : Decoration) (c : DecoratedClient) (b b2 : Button)
    (hc : d.client = some c) (hact : c.isActive = true)
    (hen : d.m_internalSettings.animationsEnabled = true)
    (hstop : d.m_animation.state = QAbstractAnimation.State.Stopped)
    (hD : 0 < d.m_animation.duration) (hs : d.OpacityInSync)
    (hbstop : b.m_animation.state = QAbstractAnimation.State.Stopped)
    (hbD : 0 < b.m_animation.duration) (hbs : b.OpacityInSync)
    (hact2 : (match d2.client with
        | some c => c.isActive
        | none => false) = false)
    (hen2 : d2.m_internalSettings.animationsEnabled = true)
    (hrun2 : d2.m_animation.state = QAbstractAnimation.State.Running)
    (hin2 : d2.m_animation.InStep) (hs2 : d2.OpacityInSync) (hD2 : 1 < d2.m_animation.duration)
    (hbrun2 : b2.m_animation.state = QAbstractAnimation.State.Running)
    (hbin2 : b2.m_animation.InStep) (hbs2 : b2.OpacityInSync)
    (hbD2 : 1 < b2.m_animation.duration) :
    (∀ deltas : List Nat, (deltas.sum : Int) ≤ d.m_animation.duration →
      (d.updateAnimationState.animationTicks deltas).m_animation.currentTime = deltas.sum ∧
      (d.updateAnimationState.animationTicks deltas).m_opacity
        = QEasingCurve.easeInOutQuad ((deltas.sum : ℚ) / (d.m_animation.duration : ℚ)) ∧
      0 ≤ (d.updateAnimationState.animationTicks deltas).m_opacity ∧
      (d.updateAnimationState.animationTicks deltas).m_opacity ≤ 1) ∧
    (∀ deltas : List Nat, (deltas.sum : Int) ≤ b.m_animation.duration →
      ((b.updateAnimationState (some d) true).animationTicks deltas).m_animation.currentTime
        = deltas.sum ∧
      ((b.updateAnimationState (some d) true).animationTicks deltas).m_opacity
        = QEasingCurve.easeInOutQuad ((deltas.sum : ℚ) / (b.m_animation.duration : ℚ)) ∧
      0 ≤ ((b.updateAnimationState (some d) true).animationTicks deltas).m_opacity ∧
      ((b.updateAnimationState (some d) true).animationTicks deltas).m_opacity ≤ 1) ∧
    (∀ deltas : List Nat,
      (d2.updateAnimationState.animationTicks deltas).m_animation.currentTime
        = max 0 (d2.m_animation.currentTime - (deltas.sum : Int)) ∧
      (d2.updateAnimationState.animationTicks deltas).m_opacity
        = QEasingCurve.easeInOutQuad
            (((max 0 (d2.m_animation.currentTime - (deltas.sum : Int)) : Int) : ℚ)
              / (d2.m_animation.duration : ℚ)) ∧
      0 ≤ (d2.updateAnimationState.animationTicks deltas).m_opacity ∧
      (d2.updateAnimationState.animationTicks deltas).m_opacity ≤ 1) ∧
    (∀ deltas : List Nat,
      ((b2.updateAnimationState (some d) false).animationTicks deltas).m_animation.currentTime
        = max 0 (b2.m_animation.currentTime - (deltas.sum : Int)) ∧
      ((b2.updateAnimationState (some d) false).animationTicks deltas).m_opacity
        = QEasingCurve.easeInOutQuad
            (((max 0 (b2.m_animation.currentTime - (deltas.sum : Int)) : Int) : ℚ)
              / (b2.m_animation.duration : ℚ)) ∧
      0 ≤ ((b2.updateAnimationState (some d) false).animationTicks deltas).m_opacity ∧
      ((b2.updateAnimationState (some d) false).animationTicks deltas).m_opacity ≤ 1) := by
  have fwd : ∀ (D : Int) (n : Nat), 0 < D → (n : Int) ≤ D →
      QEasingCurve.valueForProgress (((min D (n : Int) : Int) : ℚ) / (D : ℚ))
        = QEasingCurve.easeInOutQuad ((n : ℚ) / (D : ℚ)) := by
    intro D n h0 hle
    have hm : min D (n : Int) = n := by omega
    have hDq : (0 : ℚ) < (D : ℚ) := by exact_mod_cast h0
    have hnq : ((n : Int) : ℚ) ≤ (D : ℚ) := by exact_mod_cast hle
    rw [hm]
    simp only [Int.cast_natCast] at hnq ⊢
    rw [QEasingCurve.valueForProgress_of_mem (div_nonneg (Nat.cast_nonneg n) hDq.le)
      ((div_le_one hDq).mpr hnq)]
  have bwd : ∀ (D t : Int) (n : Nat), 0 < D → 0 ≤ t → t ≤ D →
      QEasingCurve.valueForProgress (((max 0 (t - (n : Int)) : Int) : ℚ) / (D : ℚ))
        = QEasingCurve.easeInOutQuad (((max 0 (t - (n : Int)) : Int) : ℚ) / (D : ℚ)) := by
    intro D t n h0 ht0 htD
    have hDq : (0 : ℚ) < (D : ℚ) := by exact_mod_cast h0
    have h1 : (0 : Int) ≤ max 0 (t - (n : Int)) := le_max_left _ _
    have h2 : max 0 (t - (n : Int)) ≤ D := by omega
    have h1q : (0 : ℚ) ≤ ((max 0 (t - (n : Int)) : Int) : ℚ) := by exact_mod_cast h1
    have h2q : ((max 0 (t - (n : Int)) : Int) : ℚ) ≤ (D : ℚ) := by exact_mod_cast h2
    rw [QEasingCurve.valueForProgress_of_mem (div_nonneg h1q hDq.le) ((div_le_one hDq).mpr h2q)]
  refine ⟨?_, ?_, ?_, ?_⟩
  · intro deltas hle
    obtain ⟨k1, k2, _⟩ := Decoration.focus_gain_ticks d c hc hact hen hstop hD hs deltas
    refine ⟨?_, ?_, ?_, ?_⟩
    · rw [k1]; omega
    · rw [k2, fwd _ _ hD hle]
    · rw [k2]; exact (QEasingCurve.valueForProgress_mem _).1
    · rw [k2]; exact (QEasingCurve.valueForProgress_mem _).2
  · intro deltas hle
    obtain ⟨k1, k2, _⟩ := Button.hover_enter_ticks d b hen hbstop hbD hbs deltas
    refine ⟨?_, ?_, ?_, ?_⟩
    · rw [k1]; omega
    · rw [k2, fwd _ _ hbD hle]
    · rw [k2]; exact (QEasingCurve.valueForProgress_mem _).1
    · rw [k2]; exact (QEasingCurve.valueForProgress_mem _).2
  · intro deltas
    obtain ⟨_, _, k1, k2, _⟩ :=
      (Decoration.focus_change_running_ticks d2 hen2 hrun2 hin2 hs2 deltas).1 hact2 hD2
    refine ⟨k1, ?_, ?_, ?_⟩
    · rw [k2, bwd _ _ _ hin2.1 hin2.2.1 hin2.2.2.1]
    · rw [k2]; exact (QEasingCurve.valueForProgress_mem _).1
    · rw [k2]; exact (QEasingCurve.valueForProgress_mem _).2
  · intro deltas
    obtain ⟨_, _, k1, k2, _⟩ :=
      (Button.hover_change_running_ticks d b2 hen hbrun2 hbin2 hbs2 deltas).1 hbD2
    refine ⟨k1, ?_, ?_, ?_⟩
    · rw [k2, bwd _ _ _ hbin2.1 hbin2.2.1 hbin2.2.2.1]
    · rw [k2]; exact (QEasingCurve.valueForProgress_mem _).1
    · rw [k2]; exact (QEasingCurve.valueForProgress_mem _).2

/-- C17, amended, on the samples: the sample decoration gains focus and its Close
button is entered (both animations stopped, 200 ms); the fading sample decoration
loses focus at 100 of 200 ms. After 30 + 20 ms the forward progress is the eased
value of 50/200. -/
theorem animation_progress_eased_witness :
    (sampleDecoration.updateAnimationState.animationTicks [30, 20]).m_animation.currentTime
      = (([30, 20] : List Nat).sum : Int) ∧
    (sampleDecoration.updateAnimationState.animationTicks [30, 20]).m_opacity
      = QEasingCurve.easeInOutQuad
          (((([30, 20] : List Nat).sum : Nat) : ℚ) / (sampleDecoration.m_animation.duration : ℚ)) :=
  have h := (animation_progress_eased sampleDecoration sampleFading sampleClient
    (sampleButton DecorationButtonType.Close)
    { sampleButton DecorationButtonType.Close with
      m_animation := sampleFading.m_animation, m_opacity := 1 / 2 }
    rfl rfl rfl rfl (by decide) sampleDecoration_inSync
    rfl (by decide) (by intro v hv; cases hv)
    rfl rfl rfl sampleFading_inStep (by intro v hv; cases hv; rfl) (by decide)
    rfl sampleFading_inStep (by intro v hv; cases hv; rfl) (by decide)).1 [30, 20] (by decide)
  ⟨h.1, h.2.1⟩

/-! ## C18, C19, C20: the layout of the buttons and the title bar -/

/-- Placing keeps the number of buttons. -/
theorem DecorationButtonGroup.positionButtons_length (y spacing : Int) :
    ∀ (position : Int) (bs : List Button),
      (DecorationButtonGroup.positionButtons y spacing position bs).length = bs.length := by
  intro position bs
  induction bs generalizing position with
  | nil => rfl
  | cons b bs ih =>
    unfold DecorationButtonGroup.positionButtons
    split_ifs <;> simp [ih]

/-- Placing an empty list, or not. -/
theorem DecorationButtonGroup.positionButtons_isEmpty (y spacing position : Int)
    (bs : List Button) :
    (DecorationButtonGroup.positionButtons y spacing position bs).isEmpty = bs.isEmpty := by
  cases bs with
  | nil => rfl
  | cons b bs =>
    unfold DecorationButtonGroup.positionButtons
    split_ifs <;> rfl

/-- Placing again overwrites the positions of the first placing. -/
theorem DecorationButtonGroup.positionButtons_idem (y spacing y2 spacing2 : Int) :
    ∀ (position position2 : Int) (bs : List Button),
      DecorationButtonGroup.positionButtons y spacing position
          (DecorationButtonGroup.positionButtons y2 spacing2 position2 bs)
        = DecorationButtonGroup.positionButtons y spacing position bs := by
  intro position position2 bs
  induction bs generalizing position position2 with
  | nil => rfl
  | cons b bs ih =>
    by_cases hv : b.isVisible = true
    · have e1 : DecorationButtonGroup.positionButtons y2 spacing2 position2 (b :: bs)
          = { b with geometry :=
                { x := position2, y := y2, width := b.geometry.width
                  height := b.geometry.height } }
            :: DecorationButtonGroup.positionButtons y2 spacing2
                (position2 + b.geometry.width + spacing2) bs := by
        rw [DecorationButtonGroup.positionButtons, if_pos hv]
      rw [e1, DecorationButtonGroup.positionButtons, if_pos hv, ih,
        DecorationButtonGroup.positionButtons, if_pos hv]
    · have e1 : DecorationButtonGroup.positionButtons y2 spacing2 position2 (b :: bs)
          = b :: DecorationButtonGroup.positionButtons y2 spacing2 position2 bs := by
        rw [DecorationButtonGroup.positionButtons, if_neg hv]
      rw [e1, DecorationButtonGroup.positionButtons, if_neg hv, ih,
        DecorationButtonGroup.positionButtons, if_neg hv]

/-- A change of the first button that overwrites its geometry does not see an
earlier placing. -/
theorem DecorationButtonGroup.positionButtons_modifyHead (f : Button → Button)
    (hf : ∀ (b : Button) (r : QRectF), f { b with geometry := r } = f b)
    (y spacing y2 spacing2 position position2 : Int) (bs : List Button) :
    DecorationButtonGroup.positionButtons y spacing position
        ((DecorationButtonGroup.positionButtons y2 spacing2 position2 bs).modifyHead f)
      = DecorationButtonGroup.positionButtons y spacing position (bs.modifyHead f) := by
  cases bs with
  | nil => rfl
  | cons b bs =>
    by_cases hv : b.isVisible = true
    · have e1 : DecorationButtonGroup.positionButtons y2 spacing2 position2 (b :: bs)
          = { b with geometry :=
                { x := position2, y := y2, width := b.geometry.width
                  height := b.geometry.height } }
            :: DecorationButtonGroup.positionButtons y2 spacing2
                (position2 + b.geometry.width + spacing2) bs := by
        rw [DecorationButtonGroup.positionButtons, if_pos hv]
      rw [e1]
      simp only [List.modifyHead_cons]
      rw [hf]
      by_cases hv2 : (f b).isVisible = true
      · rw [DecorationButtonGroup.positionButtons, if_pos hv2,
          DecorationButtonGroup.positionButtons_idem,
          DecorationButtonGroup.positionButtons, if_pos hv2]
      · rw [DecorationButtonGroup.positionButtons, if_neg hv2,
          DecorationButtonGroup.positionButtons_idem,
          DecorationButtonGroup.positionButtons, if_neg hv2]
    · have e1 : DecorationButtonGroup.positionButtons y2 spacing2 position2 (b :: bs)
          = b :: DecorationButtonGroup.positionButtons y2 spacing2 position2 bs := by
        rw [DecorationButtonGroup.positionButtons, if_neg hv]
      rw [e1]
      simp only [List.modifyHead_cons]
      by_cases hv2 : (f b).isVisible = true
      · rw [DecorationButtonGroup.positionButtons, if_pos hv2,
          DecorationButtonGroup.positionButtons_idem,
          DecorationButtonGroup.positionButtons, if_pos hv2]
      · rw [DecorationButtonGroup.positionButtons, if_neg hv2,
          DecorationButtonGroup.positionButtons_idem,
          DecorationButtonGroup.positionButtons, if_neg hv2]

/-- The last element of a list with at least two elements is the last of its tail. -/
theorem DecorationButtonGroup.modifyBackList_cons (f : Button → Button) (b : Button)
    {bs : List Button} (h : bs ≠ []) :
    DecorationButtonGroup.modifyBackList f (b :: bs)
      = b :: DecorationButtonGroup.modifyBackList f bs := by
  cases bs with
  | nil => exact absurd rfl h
  | cons b2 bs => rfl

/-- Placing a non-empty list gives a non-empty list. -/
theorem DecorationButtonGroup.positionButtons_ne_nil (y spacing position : Int)
    {bs : List Button} (h : bs ≠ []) :
    DecorationButtonGroup.positionButtons y spacing position bs ≠ [] := by
  intro h2
  have := DecorationButtonGroup.positionButtons_length y spacing position bs
  rw [h2] at this
  exact h (List.length_eq_zero.mp this.symm)

/-- A change of the last button that overwrites its geometry does not see an
earlier placing. -/
theorem DecorationButtonGroup.positionButtons_modifyBackList (f : Button → Button)
    (hf : ∀ (b : Button) (r : QRectF), f { b with geometry := r } = f b)
    (y spacing y2 spacing2 : Int) :
    ∀ (position position2 : Int) (bs : List Button),
      DecorationButtonGroup.positionButtons y spacing position
          (DecorationButtonGroup.modifyBackList f
            (DecorationButtonGroup.positionButtons y2 spacing2 position2 bs))
        = DecorationButtonGroup.positionButtons y spacing position
            (DecorationButtonGroup.modifyBackList f bs) := by
  intro position position2 bs
  induction bs generalizing position position2 with
  | nil => rfl
  | cons b bs ih =>
    by_cases hbs : bs = []
    · subst hbs
      by_cases hv : b.isVisible = true
      · have e1 : DecorationButtonGroup.positionButtons y2 spacing2 position2 [b]
            = [{ b with geometry :=
                  { x := position2, y := y2, width := b.geometry.width
                    height := b.geometry.height } }] := by
          rw [DecorationButtonGroup.positionButtons, if_pos hv]
          rfl
        rw [e1]
        show DecorationButtonGroup.positionButtons y spacing position [f _]
          = DecorationButtonGroup.positionButtons y spacing position [f b]
        rw [hf]
      · have e1 : DecorationButtonGroup.positionButtons y2 spacing2 position2 [b] = [b] := by
          rw [DecorationButtonGroup.positionButtons, if_neg hv]
          rfl
        rw [e1]
    · have hne2 : ∀ p, DecorationButtonGroup.positionButtons y2 spacing2 p bs ≠ [] :=
        fun p => DecorationButtonGroup.positionButtons_ne_nil y2 spacing2 p hbs
      rw [DecorationButtonGroup.modifyBackList_cons f b hbs]
      by_cases hv : b.isVisible = true
      · have e1 : DecorationButtonGroup.positionButtons y2 spacing2 position2 (b :: bs)
            = { b with geometry :=
                  { x := position2, y := y2, width := b.geometry.width
                    height := b.geometry.height } }
              :: DecorationButtonGroup.positionButtons y2 spacing2
                  (position2 + b.geometry.width + spacing2) bs := by
          rw [DecorationButtonGroup.positionButtons, if_pos hv]
        rw [e1, DecorationButtonGroup.modifyBackList_cons f _ (hne2 _),
          DecorationButtonGroup.positionButtons, if_pos hv, ih,
          DecorationButtonGroup.positionButtons, if_pos hv]
      · have e1 : DecorationButtonGroup.positionButtons y2 spacing2 position2 (b :: bs)
            = b :: DecorationButtonGroup.positionButtons y2 spacing2 position2 bs := by
          rw [DecorationButtonGroup.positionButtons, if_neg hv]
        rw [e1, DecorationButtonGroup.modifyBackList_cons f _ (hne2 _),
          DecorationButtonGroup.positionButtons, if_neg hv, ih,
          DecorationButtonGroup.positionButtons, if_neg hv]

/-- The width of the layout depends on the sizes only, not on the positions. -/
theorem DecorationButtonGroup.layoutWidth_positionButtons (spacing y spacing2 : Int) :
    ∀ (position : Int) (bs : List Button),
      DecorationButtonGroup.layoutWidth spacing
          (DecorationButtonGroup.positionButtons y spacing2 position bs)
        = DecorationButtonGroup.layoutWidth spacing bs := by
  intro position bs
  induction bs generalizing position with
  | nil => rfl
  | cons b bs ih =>
    by_cases hv : b.isVisible = true
    · rw [DecorationButtonGroup.positionButtons, if_pos hv, DecorationButtonGroup.layoutWidth,
        DecorationButtonGroup.layoutWidth, ih,
        DecorationButtonGroup.positionButtons_isEmpty]
    · rw [DecorationButtonGroup.positionButtons, if_neg hv, DecorationButtonGroup.layoutWidth,
        DecorationButtonGroup.layoutWidth, ih,
        DecorationButtonGroup.positionButtons_isEmpty]

/-- What placing leaves of a button: everything but the position, and a visible
button sits at the height of the group. -/
theorem DecorationButtonGroup.positionButtons_mem (y spacing : Int) :
    ∀ (position : Int) (bs : List Button) (b2 : Button),
      b2 ∈ DecorationButtonGroup.positionButtons y spacing position bs →
      ∃ b ∈ bs, b2.geometry.width = b.geometry.width ∧ b2.geometry.height = b.geometry.height ∧
        b2.m_offset = b.m_offset ∧ b2.m_iconSize = b.m_iconSize ∧ b2.m_flag = b.m_flag ∧
        b2.isVisible = b.isVisible ∧ (b.isVisible = true → b2.geometry.y = y) := by
  intro position bs
  induction bs generalizing position with
  | nil =>
    intro b2 h
    exact absurd h (List.not_mem_nil _)
  | cons b bs ih =>
    intro b2 h
    by_cases hv : b.isVisible = true
    · rw [DecorationButtonGroup.positionButtons, if_pos hv] at h
      rcases List.mem_cons.mp h with h | h
      · refine ⟨b, List.mem_cons_self _ _, ?_⟩
        subst h
        exact ⟨rfl, rfl, rfl, rfl, rfl, rfl, fun _ => rfl⟩
      · obtain ⟨b0, hb0, hr⟩ := ih _ b2 h
        exact ⟨b0, List.mem_cons_of_mem _ hb0, hr⟩
    · rw [DecorationButtonGroup.positionButtons, if_neg hv] at h
      rcases List.mem_cons.mp h with h | h
      · refine ⟨b, List.mem_cons_self _ _, ?_⟩
        subst h
        exact ⟨rfl, rfl, rfl, rfl, rfl, rfl, fun h => absurd h hv⟩
      · obtain ⟨b0, hb0, hr⟩ := ih _ b2 h
        exact ⟨b0, List.mem_cons_of_mem _ hb0, hr⟩

/-- The first button after placing: the first button, at the start position when
it is visible. -/
theorem DecorationButtonGroup.positionButtons_head (y spacing position : Int) (b : Button)
    (bs l : List Button)
    (hl : l = DecorationButtonGroup.positionButtons y spacing position (b :: bs)) :
    ∃ b2 bs2, l = b2 :: bs2 ∧
      b2.geometry.width = b.geometry.width ∧ b2.m_offset = b.m_offset ∧ b2.m_flag = b.m_flag ∧
      b2.isVisible = b.isVisible ∧ (b.isVisible = true → b2.geometry.x = position) ∧
      ∀ b3 ∈ bs2, ∃ b0 ∈ bs, b3.geometry.width = b0.geometry.width ∧ b3.m_offset = b0.m_offset := by
  subst hl
  by_cases hv : b.isVisible = true
  · refine ⟨{ b with geometry :=
        { x := position, y := y, width := b.geometry.width, height := b.geometry.height } },
      DecorationButtonGroup.positionButtons y spacing (position + b.geometry.width + spacing) bs,
      by rw [DecorationButtonGroup.positionButtons, if_pos hv], rfl, rfl, rfl, rfl,
      fun _ => rfl, ?_⟩
    intro b3 h3
    obtain ⟨b0, hb0, h1, _, h2, _⟩ := DecorationButtonGroup.positionButtons_mem _ _ _ _ _ h3
    exact ⟨b0, hb0, h1, h2⟩
  · refine ⟨b, DecorationButtonGroup.positionButtons y spacing position bs,
      by rw [DecorationButtonGroup.positionButtons, if_neg hv], rfl, rfl, rfl, rfl,
      fun h => absurd h hv, ?_⟩
    intro b3 h3
    obtain ⟨b0, hb0, h1, _, h2, _⟩ := DecorationButtonGroup.positionButtons_mem _ _ _ _ _ h3
    exact ⟨b0, hb0, h1, h2⟩

/-- The buttons after `updateLayout`. -/
theorem DecorationButtonGroup.updateLayout_buttons (g : DecorationButtonGroup) :
    g.updateLayout.buttons
      = DecorationButtonGroup.positionButtons g.geometry.y g.spacing g.geometry.x g.buttons := by
  unfold DecorationButtonGroup.updateLayout
  split_ifs with h
  · rw [List.isEmpty_iff.mp h]
    rfl
  · rfl

/-- The spacing and the corner of the group are kept by `updateLayout`. -/
theorem DecorationButtonGroup.updateLayout_keeps (g : DecorationButtonGroup) :
    g.updateLayout.spacing = g.spacing ∧ g.updateLayout.geometry.x = g.geometry.x ∧
      g.updateLayout.geometry.y = g.geometry.y := by
  unfold DecorationButtonGroup.updateLayout
  split_ifs <;> exact ⟨rfl, rfl, rfl⟩

/-- The width of a group with buttons after `updateLayout`. -/
theorem DecorationButtonGroup.updateLayout_width (g : DecorationButtonGroup)
    (h : g.buttons ≠ []) :
    g.updateLayout.geometry.width = DecorationButtonGroup.layoutWidth g.spacing g.buttons := by
  unfold DecorationButtonGroup.updateLayout
  rw [if_neg (by simpa [List.isEmpty_iff] using h)]

/-- The left group after `updateButtonsGeometry`, for a group with buttons: the
buttons with their new cells (the first one widened on a screen edge), placed from
the corner of the group. -/
theorem Decoration.updateButtonsGeometry_left (E : InternalSettings.Enum) (M : Metrics)
    (d : Decoration) (hne : d.m_leftButtons.buttons ≠ []) :
    (d.updateButtonsGeometry E M).m_leftButtons.buttons
      = DecorationButtonGroup.positionButtons
          (if d.isTopEdge then 0 else d.settings.smallSpacing * M.TitleBar_TopMargin)
          (d.settings.smallSpacing * M.TitleBar_ButtonSpacing)
          (if d.isLeftEdge then 0
            else d.settings.smallSpacing * M.TitleBar_SideMargin + d.borderLeft)
          (if d.isLeftEdge then
            (d.m_leftButtons.buttons.map (fun button =>
              { button with
                geometry :=
                  { x := 0, y := 0, width := d.buttonHeight E
                    height := d.captionHeight M + (if d.isTopEdge then
                      d.settings.smallSpacing * M.TitleBar_TopMargin else 0) }
                m_offset :=
                  { x := 0
                    y := (if d.isTopEdge then d.settings.smallSpacing * M.TitleBar_TopMargin
                      else 0) + Int.tdiv (d.captionHeight M - d.buttonHeight E) 2 }
                m_iconSize :=
                  { width := d.buttonHeight E, height := d.buttonHeight E } })).modifyHead
              (fun button =>
                { button with
                  geometry :=
                    { x := 0, y := 0
                      width := d.buttonHeight E
                        + d.settings.smallSpacing * M.TitleBar_SideMargin
                      height := d.captionHeight M + (if d.isTopEdge then
                        d.settings.smallSpacing * M.TitleBar_TopMargin else 0) }
                  m_flag := Button.Flag.FlagFirstInList
                  m_offset :=
                    { button.m_offset with
                      x := d.settings.smallSpacing * M.TitleBar_SideMargin } })
           else
            d.m_leftButtons.buttons.map (fun button =>
              { button with
                geometry :=
                  { x := 0, y := 0, width := d.buttonHeight E
                    height := d.captionHeight M + (if d.isTopEdge then
                      d.settings.smallSpacing * M.TitleBar_TopMargin else 0) }
                m_offset :=
                  { x := 0
                    y := (if d.isTopEdge then d.settings.smallSpacing * M.TitleBar_TopMargin
                      else 0) + Int.tdiv (d.captionHeight M - d.buttonHeight E) 2 }
                m_iconSize :=
                  { width := d.buttonHeight E, height := d.buttonHeight E } })) ∧
    (d.updateButtonsGeometry E M).m_leftButtons.geometry.x
      = (if d.isLeftEdge then 0
          else d.settings.smallSpacing * M.TitleBar_SideMargin + d.borderLeft) := by
  obtain ⟨b, bs, hbs⟩ := List.exists_cons_of_ne_nil hne
  unfold Decoration.updateButtonsGeometry
  dsimp only
  have hne1 : (d.m_leftButtons.mapButtons (fun button =>
      { button with
        geometry :=
          { x := 0, y := 0, width := d.buttonHeight E
            height := d.captionHeight M + (if d.isTopEdge then
              d.settings.smallSpacing * M.TitleBar_TopMargin else 0) }
        m_offset :=
          { x := 0
            y := (if d.isTopEdge then d.settings.smallSpacing * M.TitleBar_TopMargin
              else 0) + Int.tdiv (d.captionHeight M - d.buttonHeight E) 2 }
        m_iconSize :=
          { width := d.buttonHeight E, height := d.buttonHeight E } })).buttons.isEmpty
      = false := by
    unfold DecorationButtonGroup.mapButtons
    rw [DecorationButtonGroup.updateLayout_buttons,
      DecorationButtonGroup.positionButtons_isEmpty, hbs]
    rfl
  rw [hne1]
  simp only [Bool.not_false, if_true]
  by_cases hedge : d.isLeftEdge = true
  · simp only [hedge, if_true]
    unfold DecorationButtonGroup.setPos DecorationButtonGroup.modifyFront
      DecorationButtonGroup.setSpacing DecorationButtonGroup.mapButtons
    constructor
    · simp only [DecorationButtonGroup.updateLayout_buttons,
        (DecorationButtonGroup.updateLayout_keeps _).1,
        (DecorationButtonGroup.updateLayout_keeps _).2.1,
        (DecorationButtonGroup.updateLayout_keeps _).2.2,
        DecorationButtonGroup.positionButtons_idem]
      rw [DecorationButtonGroup.positionButtons_modifyHead]
      intro button r
      rfl
    · simp only [(DecorationButtonGroup.updateLayout_keeps _).2.1]
  · simp only [hedge, Bool.false_eq_true, if_false]
    unfold DecorationButtonGroup.setPos
      DecorationButtonGroup.setSpacing DecorationButtonGroup.mapButtons
    constructor
    · simp only [DecorationButtonGroup.updateLayout_buttons,
        (DecorationButtonGroup.updateLayout_keeps _).1,
        (DecorationButtonGroup.updateLayout_keeps _).2.1,
        (DecorationButtonGroup.updateLayout_keeps _).2.2,
        DecorationButtonGroup.positionButtons_idem]
    · simp only [(DecorationButtonGroup.updateLayout_keeps _).2.1]

/-- Changing the last button of a non-empty list leaves a non-empty list. -/
theorem DecorationButtonGroup.modifyBackList_ne_nil (f : Button → Button) :
    ∀ {bs : List Button}, bs ≠ [] → DecorationButtonGroup.modifyBackList f bs ≠ []
  | [], h => absurd rfl h
  | [_], _ => by simp [DecorationButtonGroup.modifyBackList]
  | _ :: _ :: _, _ => by simp [DecorationButtonGroup.modifyBackList]

/-- Changing the last button keeps the number of buttons. -/
theorem DecorationButtonGroup.modifyBackList_length (f : Button → Button) :
    ∀ bs : List Button, (DecorationButtonGroup.modifyBackList f bs).length = bs.length
  | [] => rfl
  | [_] => rfl
  | b :: b2 :: bs => by
    rw [DecorationButtonGroup.modifyBackList, List.length_cons,
      DecorationButtonGroup.modifyBackList_length f (b2 :: bs)]
    rfl

/-- The right group after `updateButtonsGeometry`, for a group with buttons: the
buttons with their new cells (the last one widened on a screen edge), placed from
the corner of the group, and where the group ends. -/
theorem Decoration.updateButtonsGeometry_right (E : InternalSettings.Enum) (M : Metrics)
    (d : Decoration) (hne : d.m_rightButtons.buttons ≠ []) :
    (d.updateButtonsGeometry E M).m_rightButtons.buttons
      = DecorationButtonGroup.positionButtons
          (if d.isTopEdge then 0 else d.settings.smallSpacing * M.TitleBar_TopMargin)
          (d.settings.smallSpacing * M.TitleBar_ButtonSpacing)
          (d.updateButtonsGeometry E M).m_rightButtons.geometry.x
          (if d.isRightEdge then
            DecorationButtonGroup.modifyBackList
              (fun button =>
                { button with
                  geometry :=
                    { x := 0, y := 0
                      width := d.buttonHeight E
                        + d.settings.smallSpacing * M.TitleBar_SideMargin
                      height := d.captionHeight M + (if d.isTopEdge then
                        d.settings.smallSpacing * M.TitleBar_TopMargin else 0) }
                  m_flag := Button.Flag.FlagLastInList })
              (d.m_rightButtons.buttons.map (fun button =>
                { button with
                  geometry :=
                    { x := 0, y := 0, width := d.buttonHeight E
                      height := d.captionHeight M + (if d.isTopEdge then
                        d.settings.smallSpacing * M.TitleBar_TopMargin else 0) }
                  m_offset :=
                    { x := 0
                      y := (if d.isTopEdge then d.settings.smallSpacing * M.TitleBar_TopMargin
                        else 0) + Int.tdiv (d.captionHeight M - d.buttonHeight E) 2 }
                  m_iconSize :=
                    { width := d.buttonHeight E, height := d.buttonHeight E } }))
           else
            d.m_rightButtons.buttons.map (fun button =>
              { button with
                geometry :=
                  { x := 0, y := 0, width := d.buttonHeight E
                    height := d.captionHeight M + (if d.isTopEdge then
                      d.settings.smallSpacing * M.TitleBar_TopMargin else 0) }
                m_offset :=
                  { x := 0
                    y := (if d.isTopEdge then d.settings.smallSpacing * M.TitleBar_TopMargin
                      else 0) + Int.tdiv (d.captionHeight M - d.buttonHeight E) 2 }
                m_iconSize :=
                  { width := d.buttonHeight E, height := d.buttonHeight E } })) ∧
    (d.updateButtonsGeometry E M).m_rightButtons.geometry.x
        + (d.updateButtonsGeometry E M).m_rightButtons.geometry.width
      = (if d.isRightEdge then d.size.width
          else d.size.width - d.settings.smallSpacing * M.TitleBar_SideMargin
            - d.borderRight) := by
  obtain ⟨b, bs, hbs⟩ := List.exists_cons_of_ne_nil hne
  have hlen : ∀ l : List Button, l.length = d.m_rightButtons.buttons.length → l ≠ [] := by
    intro l hl h
    rw [h, hbs] at hl
    exact absurd hl (by simp)
  unfold Decoration.updateButtonsGeometry
  dsimp only
  have hne1 : (d.m_rightButtons.mapButtons (fun button =>
      { button with
        geometry :=
          { x := 0, y := 0, width := d.buttonHeight E
            height := d.captionHeight M + (if d.isTopEdge then
              d.settings.smallSpacing * M.TitleBar_TopMargin else 0) }
        m_offset :=
          { x := 0
            y := (if d.isTopEdge then d.settings.smallSpacing * M.TitleBar_TopMargin
              else 0) + Int.tdiv (d.captionHeight M - d.buttonHeight E) 2 }
        m_iconSize :=
          { width := d.buttonHeight E, height := d.buttonHeight E } })).buttons.isEmpty
      = false := by
    unfold DecorationButtonGroup.mapButtons
    rw [DecorationButtonGroup.updateLayout_buttons,
      DecorationButtonGroup.positionButtons_isEmpty, hbs]
    rfl
  rw [hne1]
  simp only [Bool.not_false, if_true]
  by_cases hedge : d.isRightEdge = true
  · simp only [hedge, if_true]
    unfold DecorationButtonGroup.setPos DecorationButtonGroup.modifyBack
      DecorationButtonGroup.setSpacing DecorationButtonGroup.mapButtons
    constructor
    · simp only [DecorationButtonGroup.updateLayout_buttons,
        (DecorationButtonGroup.updateLayout_keeps _).1,
        (DecorationButtonGroup.updateLayout_keeps _).2.1,
        (DecorationButtonGroup.updateLayout_keeps _).2.2,
        DecorationButtonGroup.positionButtons_idem]
      rw [DecorationButtonGroup.positionButtons_modifyBackList]
      intro button r
      rfl
    · rw [DecorationButtonGroup.updateLayout_width _ (by
          apply hlen
          simp only [DecorationButtonGroup.updateLayout_buttons,
            DecorationButtonGroup.positionButtons_length,
            DecorationButtonGroup.modifyBackList_length, List.length_map])]
      simp only [(DecorationButtonGroup.updateLayout_keeps _).2.1,
        (DecorationButtonGroup.updateLayout_keeps _).2.2,
        (DecorationButtonGroup.updateLayout_keeps _).1,
        DecorationButtonGroup.updateLayout_buttons,
        DecorationButtonGroup.layoutWidth_positionButtons,
        DecorationButtonGroup.positionButtons_idem]
      rw [DecorationButtonGroup.updateLayout_width _ (by
          apply hlen
          simp only [DecorationButtonGroup.updateLayout_buttons,
            DecorationButtonGroup.positionButtons_length,
            DecorationButtonGroup.modifyBackList_length, List.length_map])]
      simp only [(DecorationButtonGroup.updateLayout_keeps _).2.1,
        (DecorationButtonGroup.updateLayout_keeps _).2.2,
        (DecorationButtonGroup.updateLayout_keeps _).1,
        DecorationButtonGroup.updateLayout_buttons,
        DecorationButtonGroup.layoutWidth_positionButtons,
        DecorationButtonGroup.positionButtons_idem]
      omega
  · simp only [hedge, Bool.false_eq_true, if_false]
    unfold DecorationButtonGroup.setPos
      DecorationButtonGroup.setSpacing DecorationButtonGroup.mapButtons
    constructor
    · simp only [DecorationButtonGroup.updateLayout_buttons,
        (DecorationButtonGroup.updateLayout_keeps _).1,
        (DecorationButtonGroup.updateLayout_keeps _).2.1,
        (DecorationButtonGroup.updateLayout_keeps _).2.2,
        DecorationButtonGroup.positionButtons_idem]
    · rw [DecorationButtonGroup.updateLayout_width _ (by
          apply hlen
          simp only [DecorationButtonGroup.updateLayout_buttons,
            DecorationButtonGroup.positionButtons_length,
            DecorationButtonGroup.modifyBackList_length, List.length_map])]
      simp only [(DecorationButtonGroup.updateLayout_keeps _).2.1,
        (DecorationButtonGroup.updateLayout_keeps _).2.2,
        (DecorationButtonGroup.updateLayout_keeps _).1,
        DecorationButtonGroup.updateLayout_buttons,
        DecorationButtonGroup.layoutWidth_positionButtons,
        DecorationButtonGroup.positionButtons_idem]
      rw [DecorationButtonGroup.updateLayout_width _ (by
          apply hlen
          simp only [DecorationButtonGroup.updateLayout_buttons,
            DecorationButtonGroup.positionButtons_length,
            DecorationButtonGroup.modifyBackList_length, List.length_map])]
      simp only [(DecorationButtonGroup.updateLayout_keeps _).2.1,
        (DecorationButtonGroup.updateLayout_keeps _).2.2,
        (DecorationButtonGroup.updateLayout_keeps _).1,
        DecorationButtonGroup.updateLayout_buttons,
        DecorationButtonGroup.layoutWidth_positionButtons,
        DecorationButtonGroup.positionButtons_idem]
      omega

/-- The buttons after a change of the last one and a placing: the last button has
the width and the flag the change gave it, the buttons before it keep their
widths. -/
theorem DecorationButtonGroup.positionButtons_modifyBackList_last (f : Button → Button)
    (y spacing : Int) :
    ∀ (position : Int) (bs l : List Button), bs ≠ [] →
      l = DecorationButtonGroup.positionButtons y spacing position
            (DecorationButtonGroup.modifyBackList f bs) →
      ∃ bs2 b2 b0, l = bs2 ++ [b2] ∧
        b0 ∈ bs ∧ b2.geometry.width = (f b0).geometry.width ∧ b2.m_flag = (f b0).m_flag ∧
        ∀ b3 ∈ bs2, ∃ b1 ∈ bs, b3.geometry.width = b1.geometry.width := by
  intro position bs
  induction bs generalizing position with
  | nil => intro l h; exact absurd rfl h
  | cons b bs ih =>
    intro l _ hl
    subst hl
    by_cases hbs : bs = []
    · subst hbs
      obtain ⟨b2, bs2, h1, h2, _, h3, _, _, _⟩ :=
        DecorationButtonGroup.positionButtons_head y spacing position (f b) [] _ rfl
      have hnil : bs2 = [] := by
        have hl := DecorationButtonGroup.positionButtons_length y spacing position [f b]
        rw [h1] at hl
        simpa using hl
      subst hnil
      refine ⟨[], b2, b, ?_, List.mem_cons_self _ _, h2, h3, ?_⟩
      · show DecorationButtonGroup.positionButtons y spacing position [f b] = [b2]
        exact h1
      · intro b3 h
        exact absurd h (List.not_mem_nil _)
    · rw [DecorationButtonGroup.modifyBackList_cons f b hbs]
      by_cases hv : b.isVisible = true
      · obtain ⟨bs2, b2, b0, h1, h2, h3, h4, h5⟩ :=
          ih (position + b.geometry.width + spacing) _ hbs rfl
        refine ⟨{ b with geometry :=
              { x := position, y := y, width := b.geometry.width
                height := b.geometry.height } } :: bs2, b2, b0, ?_,
          List.mem_cons_of_mem _ h2, h3, h4, ?_⟩
        · rw [DecorationButtonGroup.positionButtons, if_pos hv, h1]
          rfl
        · intro b3 hb3
          rcases List.mem_cons.mp hb3 with h | h
          · exact ⟨b, List.mem_cons_self _ _, by rw [h]⟩
          · obtain ⟨b1, hb1, hw⟩ := h5 b3 h
            exact ⟨b1, List.mem_cons_of_mem _ hb1, hw⟩
      · obtain ⟨bs2, b2, b0, h1, h2, h3, h4, h5⟩ := ih position _ hbs rfl
        refine ⟨b :: bs2, b2, b0, ?_, List.mem_cons_of_mem _ h2, h3, h4, ?_⟩
        · rw [DecorationButtonGroup.positionButtons, if_neg hv, h1]
          rfl
        · intro b3 hb3
          rcases List.mem_cons.mp hb3 with h | h
          · exact ⟨b, List.mem_cons_self _ _, by rw [h]⟩
          · obtain ⟨b1, hb1, hw⟩ := h5 b3 h
            exact ⟨b1, List.mem_cons_of_mem _ hb1, hw⟩

/-- A button of the list with its last element changed is a button of the list or
a changed button of the list. -/
theorem DecorationButtonGroup.modifyBackList_mem (f : Button → Button) (b2 : Button) :
    ∀ bs : List Button, b2 ∈ DecorationButtonGroup.modifyBackList f bs →
      b2 ∈ bs ∨ ∃ b ∈ bs, b2 = f b
  | [], h => absurd h (List.not_mem_nil _)
  | [b], h => by
    right
    refine ⟨b, List.mem_cons_self _ _, ?_⟩
    simpa [DecorationButtonGroup.modifyBackList] using h
  | b :: b1 :: bs, h => by
    rw [DecorationButtonGroup.modifyBackList] at h
    rcases List.mem_cons.mp h with h | h
    · left
      rw [h]
      exact List.mem_cons_self _ _
    · rcases DecorationButtonGroup.modifyBackList_mem f b2 (b1 :: bs) h with h | ⟨a, ha, h⟩
      · left
        exact List.mem_cons_of_mem _ h
      · right
        exact ⟨a, List.mem_cons_of_mem _ ha, h⟩

/-- A group without buttons stays without buttons. -/
theorem Decoration.updateButtonsGeometry_nil (E : InternalSettings.Enum) (M : Metrics)
    (d : Decoration) :
    (d.m_leftButtons.buttons = [] → (d.updateButtonsGeometry E M).m_leftButtons.buttons = []) ∧
    (d.m_rightButtons.buttons = [] → (d.updateButtonsGeometry E M).m_rightButtons.buttons = []) := by
  constructor
  · intro h
    unfold Decoration.updateButtonsGeometry
    dsimp only
    unfold DecorationButtonGroup.mapButtons
    simp only [DecorationButtonGroup.updateLayout_buttons, h, List.map_nil,
      DecorationButtonGroup.positionButtons, List.isEmpty_nil, Bool.not_true,
      Bool.false_eq_true, if_false]
  · intro h
    unfold Decoration.updateButtonsGeometry
    dsimp only
    unfold DecorationButtonGroup.mapButtons
    simp only [DecorationButtonGroup.updateLayout_buttons, h, List.map_nil,
      DecorationButtonGroup.positionButtons, List.isEmpty_nil, Bool.not_true,
      Bool.false_eq_true, if_false]

/-- Every button after `updateButtonsGeometry`: its icon cell, its vertical
offset, and its height in the title bar when it is visible. -/
theorem Decoration.updateButtonsGeometry_mem (E : InternalSettings.Enum) (M : Metrics)
    (d : Decoration) (b : Button)
    (hb : b ∈ (d.updateButtonsGeometry E M).m_leftButtons.buttons
      ++ (d.updateButtonsGeometry E M).m_rightButtons.buttons) :
    b.m_iconSize = { width := d.buttonHeight E, height := d.buttonHeight E } ∧
    b.m_offset.y = (if d.isTopEdge then d.settings.smallSpacing * M.TitleBar_TopMargin else 0)
      + Int.tdiv (d.captionHeight M - d.buttonHeight E) 2 ∧
    (b.isVisible = true →
      b.geometry.y = if d.isTopEdge then 0 else d.settings.smallSpacing * M.TitleBar_TopMargin) := by
  rcases List.mem_append.mp hb with hb | hb
  · by_cases hl : d.m_leftButtons.buttons = []
    · rw [(Decoration.updateButtonsGeometry_nil E M d).1 hl] at hb
      exact absurd hb (List.not_mem_nil _)
    · obtain ⟨l1, _⟩ := Decoration.updateButtonsGeometry_left E M d hl
      rw [l1] at hb
      obtain ⟨b1, hb1, _, _, h3, h4, _, h6, h7⟩ :=
        DecorationButtonGroup.positionButtons_mem _ _ _ _ _ hb
      rw [h3, h4]
      refine ⟨?_, ?_, fun hv => h7 (h6 ▸ hv)⟩
      · by_cases hedge : d.isLeftEdge = true
        · rw [if_pos hedge] at hb1
          obtain ⟨b0, bs0, hbs0⟩ := List.exists_cons_of_ne_nil hl
          rw [hbs0] at hb1
          simp only [List.map_cons, List.modifyHead_cons] at hb1
          rcases List.mem_cons.mp hb1 with h | h
          · rw [h]
          · obtain ⟨a, _, rfl⟩ := List.mem_map.mp h
            rfl
        · rw [if_neg hedge] at hb1
          obtain ⟨a, _, rfl⟩ := List.mem_map.mp hb1
          rfl
      · by_cases hedge : d.isLeftEdge = true
        · rw [if_pos hedge] at hb1
          obtain ⟨b0, bs0, hbs0⟩ := List.exists_cons_of_ne_nil hl
          rw [hbs0] at hb1
          simp only [List.map_cons, List.modifyHead_cons] at hb1
          rcases List.mem_cons.mp hb1 with h | h
          · rw [h]
          · obtain ⟨a, _, rfl⟩ := List.mem_map.mp h
            rfl
        · rw [if_neg hedge] at hb1
          obtain ⟨a, _, rfl⟩ := List.mem_map.mp hb1
          rfl
  · by_cases hr : d.m_rightButtons.buttons = []
    · rw [(Decoration.updateButtonsGeometry_nil E M d).2 hr] at hb
      exact absurd hb (List.not_mem_nil _)
    · obtain ⟨r1, _⟩ := Decoration.updateButtonsGeometry_right E M d hr
      rw [r1] at hb
      obtain ⟨b1, hb1, _, _, h3, h4, _, h6, h7⟩ :=
        DecorationButtonGroup.positionButtons_mem _ _ _ _ _ hb
      rw [h3, h4]
      refine ⟨?_, ?_, fun hv => h7 (h6 ▸ hv)⟩
      · by_cases hedge : d.isRightEdge = true
        · rw [if_pos hedge] at hb1
          rcases DecorationButtonGroup.modifyBackList_mem _ _ _ hb1 with h | ⟨a, ha, h⟩
          · obtain ⟨a, _, rfl⟩ := List.mem_map.mp h
            rfl
          · obtain ⟨a2, _, rfl⟩ := List.mem_map.mp ha
            rw [h]
        · rw [if_neg hedge] at hb1
          obtain ⟨a, _, rfl⟩ := List.mem_map.mp hb1
          rfl
      · by_cases hedge : d.isRightEdge = true
        · rw [if_pos hedge] at hb1
          rcases DecorationButtonGroup.modifyBackList_mem _ _ _ hb1 with h | ⟨a, ha, h⟩
          · obtain ⟨a, _, rfl⟩ := List.mem_map.mp h
            rfl
          · obtain ⟨a2, _, rfl⟩ := List.mem_map.mp ha
            rw [h]
        · rw [if_neg hedge] at hb1
          obtain ⟨a, _, rfl⟩ := List.mem_map.mp hb1
          rfl

/-- A relation between the buttons before and after that a new cell does not
break holds after placing. -/
theorem DecorationButtonGroup.positionButtons_each {T : Button → Button → Prop}
    (hT : ∀ (b0 b1 : Button) (g : QRectF), T b0 b1 → T b0 { b1 with geometry := g })
    (y spacing : Int) :
    ∀ (position : Int) (l bs : List Button), List.Forall₂ T l bs →
      List.Forall₂ T l (DecorationButtonGroup.positionButtons y spacing position bs) := by
  intro position l bs h
  induction h generalizing position with
  | nil => exact .nil
  | @cons b0 b l bs hb _ ih =>
    by_cases hv : b.isVisible = true
    · rw [DecorationButtonGroup.positionButtons, if_pos hv]
      exact .cons (hT _ _ _ hb) (ih _)
    · rw [DecorationButtonGroup.positionButtons, if_neg hv]
      exact .cons hb (ih _)

/-- A relation that a change `f` does not break holds after the change of the
first button. -/
theorem DecorationButtonGroup.modifyHead_each {T : Button → Button → Prop}
    (f : Button → Button) (hT : ∀ b0 b1 : Button, T b0 b1 → T b0 (f b1))
    (l bs : List Button) (h : List.Forall₂ T l bs) :
    List.Forall₂ T l (bs.modifyHead f) := by
  cases h with
  | nil => exact .nil
  | cons hb ht => exact .cons (hT _ _ hb) ht

/-- A relation that a change `f` does not break holds after the change of the
last button. -/
theorem DecorationButtonGroup.modifyBackList_each {T : Button → Button → Prop}
    (f : Button → Button) (hT : ∀ b0 b1 : Button, T b0 b1 → T b0 (f b1))
    (l bs : List Button) (h : List.Forall₂ T l bs) :
    List.Forall₂ T l (DecorationButtonGroup.modifyBackList f bs) := by
  induction h with
  | nil => exact .nil
  | @cons b0 b l bs hb ht ih =>
    by_cases hbs : bs = []
    · subst hbs
      cases ht
      exact .cons (hT _ _ hb) .nil
    · rw [DecorationButtonGroup.modifyBackList_cons f b hbs]
      exact .cons hb ih

/-- A relation that holds between a button and its image under `f` holds between
a list and its image. -/
theorem DecorationButtonGroup.map_each {T : Button → Button → Prop} (f : Button → Button)
    (hT : ∀ b0 : Button, T b0 (f b0)) (bs : List Button) :
    List.Forall₂ T bs (bs.map f) := by
  induction bs with
  | nil => exact .nil
  | cons b bs ih => exact .cons (hT b) ih

/-- The buttons after `updateButtonsGeometry` are the buttons before it, in the
same order, each with a new layout: the icon cell (buttonHeight, buttonHeight) and
the vertical offset of the caption row. -/
theorem Decoration.updateButtonsGeometry_each (E : InternalSettings.Enum) (M : Metrics)
    (d : Decoration) :
    List.Forall₂
      (fun b0 b => Button.LayoutOf b0 b ∧
        b.m_iconSize = { width := d.buttonHeight E, height := d.buttonHeight E } ∧
        b.m_offset.y
          = (if d.isTopEdge then d.settings.smallSpacing * M.TitleBar_TopMargin else 0)
            + Int.tdiv (d.captionHeight M - d.buttonHeight E) 2)
      d.m_leftButtons.buttons (d.updateButtonsGeometry E M).m_leftButtons.buttons ∧
    List.Forall₂
      (fun b0 b => Button.LayoutOf b0 b ∧
        b.m_iconSize = { width := d.buttonHeight E, height := d.buttonHeight E } ∧
        b.m_offset.y
          = (if d.isTopEdge then d.settings.smallSpacing * M.TitleBar_TopMargin else 0)
            + Int.tdiv (d.captionHeight M - d.buttonHeight E) 2)
      d.m_rightButtons.buttons (d.updateButtonsGeometry E M).m_rightButtons.buttons := by
  have hg : ∀ (b0 b1 : Button) (g : QRectF), Button.LayoutOf b0 b1 →
      Button.LayoutOf b0 { b1 with geometry := g } := by
    intro b0 b1 g h
    unfold Button.LayoutOf at h ⊢
    rw [h]
  constructor
  · by_cases hl : d.m_leftButtons.buttons = []
    · rw [(Decoration.updateButtonsGeometry_nil E M d).1 hl, hl]
      exact .nil
    · obtain ⟨l1, _⟩ := Decoration.updateButtonsGeometry_left E M d hl
      rw [l1]
      apply DecorationButtonGroup.positionButtons_each
      · rintro b0 b1 g ⟨h1, h2, h3⟩
        exact ⟨hg _ _ _ h1, h2, h3⟩
      by_cases hedge : d.isLeftEdge = true
      · rw [if_pos hedge]
        apply DecorationButtonGroup.modifyHead_each
        · rintro b0 b1 ⟨h1, h2, h3⟩
          refine ⟨?_, h2, h3⟩
          unfold Button.LayoutOf at h1 ⊢
          rw [h1]
        apply DecorationButtonGroup.map_each
        intro b0
        exact ⟨rfl, rfl, rfl⟩
      · rw [if_neg hedge]
        apply DecorationButtonGroup.map_each
        intro b0
        exact ⟨rfl, rfl, rfl⟩
  · by_cases hr : d.m_rightButtons.buttons = []
    · rw [(Decoration.updateButtonsGeometry_nil E M d).2 hr, hr]
      exact .nil
    · obtain ⟨r1, _⟩ := Decoration.updateButtonsGeometry_right E M d hr
      rw [r1]
      apply DecorationButtonGroup.positionButtons_each
      · rintro b0 b1 g ⟨h1, h2, h3⟩
        exact ⟨hg _ _ _ h1, h2, h3⟩
      by_cases hedge : d.isRightEdge = true
      · rw [if_pos hedge]
        apply DecorationButtonGroup.modifyBackList_each
        · rintro b0 b1 ⟨h1, h2, h3⟩
          refine ⟨?_, h2, h3⟩
          unfold Button.LayoutOf at h1 ⊢
          rw [h1]
        apply DecorationButtonGroup.map_each
        intro b0
        exact ⟨rfl, rfl, rfl⟩
      · rw [if_neg hedge]
        apply DecorationButtonGroup.map_each
        intro b0
        exact ⟨rfl, rfl, rfl⟩

/-- The first button after placing starts at the start position when it is
visible, and where it was when it is not. -/
theorem DecorationButtonGroup.positionButtons_head_cell (y spacing position : Int)
    (b : Button) (bs l : List Button)
    (hl : l = DecorationButtonGroup.positionButtons y spacing position (b :: bs)) :
    ∃ b2 bs2, l = b2 :: bs2 ∧
      b2.geometry.x = (if b.isVisible then position else b.geometry.x) := by
  subst hl
  by_cases hv : b.isVisible = true
  · rw [DecorationButtonGroup.positionButtons, if_pos hv, if_pos hv]
    exact ⟨_, _, rfl, rfl⟩
  · rw [DecorationButtonGroup.positionButtons, if_neg hv, if_neg hv]
    exact ⟨_, _, rfl, rfl⟩

/-- The last button of a list that ends with `b` is `b`. -/
theorem DecorationButtonGroup.modifyBackList_concat (f : Button → Button) (b : Button) :
    ∀ bs : List Button,
      DecorationButtonGroup.modifyBackList f (bs ++ [b]) = bs ++ [f b]
  | [] => rfl
  | b1 :: bs => by
    rw [List.cons_append, DecorationButtonGroup.modifyBackList_cons f b1 (by simp),
      DecorationButtonGroup.modifyBackList_concat f b bs]
    rfl

/-- The last button after placing: it keeps its width and its flag; when it is
visible its cell ends where the layout ends, when it is not it stays where it
was. The buttons before it keep their widths. -/
theorem DecorationButtonGroup.positionButtons_concat (y spacing : Int) (c : Button) :
    ∀ (position : Int) (bs l : List Button),
      l = DecorationButtonGroup.positionButtons y spacing position (bs ++ [c]) →
      ∃ bs2 c2, l = bs2 ++ [c2] ∧
        c2.geometry.width = c.geometry.width ∧ c2.m_flag = c.m_flag ∧
        c2.isVisible = c.isVisible ∧
        (c.isVisible = true →
          c2.geometry.x + c2.geometry.width
            = position + DecorationButtonGroup.layoutWidth spacing (bs ++ [c])) ∧
        (c.isVisible = false → c2.geometry.x = c.geometry.x) ∧
        ∀ b3 ∈ bs2, ∃ b1 ∈ bs, b3.geometry.width = b1.geometry.width := by
  intro position bs
  induction bs generalizing position with
  | nil =>
    intro l hl
    subst hl
    by_cases hv : c.isVisible = true
    · refine ⟨[], { c with geometry :=
          { x := position, y := y, width := c.geometry.width
            height := c.geometry.height } }, ?_, rfl, rfl, rfl, ?_, ?_, ?_⟩
      · show DecorationButtonGroup.positionButtons y spacing position [c] = _
        rw [DecorationButtonGroup.positionButtons, if_pos hv]
        rfl
      · intro _
        show position + c.geometry.width
          = position + DecorationButtonGroup.layoutWidth spacing [c]
        rw [DecorationButtonGroup.layoutWidth, if_pos hv]
        simp [DecorationButtonGroup.layoutWidth]
      · intro h
        rw [h] at hv
        exact absurd hv (by decide)
      · intro b3 h
        exact absurd h (List.not_mem_nil _)
    · refine ⟨[], c, ?_, rfl, rfl, rfl, fun h => absurd h hv, fun _ => rfl, ?_⟩
      · show DecorationButtonGroup.positionButtons y spacing position [c] = _
        rw [DecorationButtonGroup.positionButtons, if_neg hv]
        rfl
      · intro b3 h
        exact absurd h (List.not_mem_nil _)
  | cons b bs ih =>
    intro l hl
    subst hl
    have hne : (bs ++ [c]).isEmpty = false := by
      cases bs <;> rfl
    by_cases hv : b.isVisible = true
    · obtain ⟨bs2, c2, h1, h2, h3, h4, h5, h6, h7⟩ :=
        ih (position + b.geometry.width + spacing) _ rfl
      refine ⟨{ b with geometry :=
            { x := position, y := y, width := b.geometry.width
              height := b.geometry.height } } :: bs2, c2, ?_, h2, h3, h4, ?_, h6, ?_⟩
      · rw [List.cons_append, DecorationButtonGroup.positionButtons, if_pos hv, h1]
        rfl
      · intro hc
        rw [h5 hc, List.cons_append, DecorationButtonGroup.layoutWidth, if_pos hv, hne]
        simp only [Bool.false_eq_true, if_false]
        omega
      · intro b3 hb3
        rcases List.mem_cons.mp hb3 with h | h
        · exact ⟨b, List.mem_cons_self _ _, by rw [h]⟩
        · obtain ⟨b1, hb1, hw⟩ := h7 b3 h
          exact ⟨b1, List.mem_cons_of_mem _ hb1, hw⟩
    · obtain ⟨bs2, c2, h1, h2, h3, h4, h5, h6, h7⟩ := ih position _ rfl
      refine ⟨b :: bs2, c2, ?_, h2, h3, h4, ?_, h6, ?_⟩
      · rw [List.cons_append, DecorationButtonGroup.positionButtons, if_neg hv, h1]
        rfl
      · intro hc
        rw [h5 hc, List.cons_append, DecorationButtonGroup.layoutWidth, if_neg hv]
        omega
      · intro b3 hb3
        rcases List.mem_cons.mp hb3 with h | h
        · exact ⟨b, List.mem_cons_self _ _, by rw [h]⟩
        · obtain ⟨b1, hb1, hw⟩ := h7 b3 h
          exact ⟨b1, List.mem_cons_of_mem _ hb1, hw⟩

/-- The width of a group with buttons after `updateLayout` is the width of the
layout of its buttons. -/
theorem DecorationButtonGroup.updateLayout_width_buttons (g : DecorationButtonGroup)
    (h : g.buttons ≠ []) :
    g.updateLayout.geometry.width
      = DecorationButtonGroup.layoutWidth g.updateLayout.spacing g.updateLayout.buttons := by
  rw [DecorationButtonGroup.updateLayout_width g h,
    (DecorationButtonGroup.updateLayout_keeps g).1,
    DecorationButtonGroup.updateLayout_buttons,
    DecorationButtonGroup.layoutWidth_positionButtons]

/-- The width of the right group after `updateButtonsGeometry`, for a group with
buttons: the width of the layout of its buttons with the button spacing. -/
theorem Decoration.updateButtonsGeometry_right_width (E : InternalSettings.Enum)
    (M : Metrics) (d : Decoration) (hne : d.m_rightButtons.buttons ≠ []) :
    (d.updateButtonsGeometry E M).m_rightButtons.geometry.width
      = DecorationButtonGroup.layoutWidth
          (d.settings.smallSpacing * M.TitleBar_ButtonSpacing)
          (d.updateButtonsGeometry E M).m_rightButtons.buttons := by
  obtain ⟨b, bs, hbs⟩ := List.exists_cons_of_ne_nil hne
  have hlen : ∀ l : List Button, l.length = d.m_rightButtons.buttons.length → l ≠ [] := by
    intro l hl h
    rw [h, hbs] at hl
    exact absurd hl (by simp)
  unfold Decoration.updateButtonsGeometry
  dsimp only
  have hne1 : (d.m_rightButtons.mapButtons (fun button =>
      { button with
        geometry :=
          { x := 0, y := 0, width := d.buttonHeight E
            height := d.captionHeight M + (if d.isTopEdge then
              d.settings.smallSpacing * M.TitleBar_TopMargin else 0) }
        m_offset :=
          { x := 0
            y := (if d.isTopEdge then d.settings.smallSpacing * M.TitleBar_TopMargin
              else 0) + Int.tdiv (d.captionHeight M - d.buttonHeight E) 2 }
        m_iconSize :=
          { width := d.buttonHeight E, height := d.buttonHeight E } })).buttons.isEmpty
      = false := by
    unfold DecorationButtonGroup.mapButtons
    rw [DecorationButtonGroup.updateLayout_buttons,
      DecorationButtonGroup.positionButtons_isEmpty, hbs]
    rfl
  rw [hne1]
  simp only [Bool.not_false, if_true]
  by_cases hedge : d.isRightEdge = true
  · simp only [hedge, if_true]
    unfold DecorationButtonGroup.setPos
    rw [DecorationButtonGroup.updateLayout_width_buttons _ (by
        apply hlen
        unfold DecorationButtonGroup.modifyBack DecorationButtonGroup.setSpacing
          DecorationButtonGroup.mapButtons
        simp only [DecorationButtonGroup.updateLayout_buttons,
          DecorationButtonGroup.positionButtons_length,
          DecorationButtonGroup.modifyBackList_length, List.length_map])]
    unfold DecorationButtonGroup.modifyBack DecorationButtonGroup.setSpacing
      DecorationButtonGroup.mapButtons
    simp only [(DecorationButtonGroup.updateLayout_keeps _).1]
  · simp only [hedge, Bool.false_eq_true, if_false]
    unfold DecorationButtonGroup.setPos
    rw [DecorationButtonGroup.updateLayout_width_buttons _ (by
        apply hlen
        unfold DecorationButtonGroup.setSpacing DecorationButtonGroup.mapButtons
        simp only [DecorationButtonGroup.updateLayout_buttons,
          DecorationButtonGroup.positionButtons_length, List.length_map])]
    unfold DecorationButtonGroup.setSpacing DecorationButtonGroup.mapButtons
    simp only [(DecorationButtonGroup.updateLayout_keeps _).1]

/-- C18: `updateButtonsGeometry`, with hPadding = smallSpacing *
TitleBar_SideMargin; each side depends on its own group only, and the buttons
afterwards are the buttons before, in the same order, with a new layout.
Left group with buttons, on a left screen edge: the group is placed at x = 0 and
its first button gets the width buttonHeight + hPadding, the flag
`FlagFirstInList` and the horizontal offset hPadding; its cell starts at x = 0 and
its icon is drawn from x = hPadding; the other buttons keep the width
buttonHeight. Away from the left edge every button has the width buttonHeight and
the group starts at hPadding + borderLeft, as do the cell and the icon of a
visible first button (a hidden one is not placed and stays at x = 0).
Right group with buttons, on a right screen edge: the last button gets the width
buttonHeight + hPadding and the flag `FlagLastInList`, the others the width
buttonHeight, the group ends at the width of the decoration, and so does the cell
of a visible last button (a hidden one is not placed and stays at x = 0). Away
from the right edge no button is widened and the group, and the cell of a visible
last button, end at width - hPadding - borderRight. -/
theorem updateButtonsGeometry_edge_buttons (E : InternalSettings.Enum) (M : Metrics)
    (d : Decoration) :
    (d.m_leftButtons.buttons ≠ [] →
      List.Forall₂ Button.LayoutOf d.m_leftButtons.buttons
        (d.updateButtonsGeometry E M).m_leftButtons.buttons ∧
      (d.isLeftEdge = true →
        (d.updateButtonsGeometry E M).m_leftButtons.geometry.x = 0 ∧
        ∃ b bs, (d.updateButtonsGeometry E M).m_leftButtons.buttons = b :: bs ∧
          b.geometry.width
            = d.buttonHeight E + d.settings.smallSpacing * M.TitleBar_SideMargin ∧
          b.m_offset.x = d.settings.smallSpacing * M.TitleBar_SideMargin ∧
          b.m_flag = Button.Flag.FlagFirstInList ∧
          b.geometry.x = 0 ∧
          b.iconOrigin.x = d.settings.smallSpacing * M.TitleBar_SideMargin ∧
          ∀ b2 ∈ bs, b2.geometry.width = d.buttonHeight E) ∧
      (d.isLeftEdge = false →
        (d.updateButtonsGeometry E M).m_leftButtons.geometry.x
          = d.settings.smallSpacing * M.TitleBar_SideMargin + d.borderLeft ∧
        ∃ b bs, (d.updateButtonsGeometry E M).m_leftButtons.buttons = b :: bs ∧
          (b.isVisible = true →
            b.geometry.x = d.settings.smallSpacing * M.TitleBar_SideMargin + d.borderLeft ∧
            b.iconOrigin.x
              = d.settings.smallSpacing * M.TitleBar_SideMargin + d.borderLeft) ∧
          (b.isVisible = false → b.geometry.x = 0) ∧
          ∀ b2 ∈ b :: bs, b2.geometry.width = d.buttonHeight E)) ∧
    (d.m_rightButtons.buttons ≠ [] →
      List.Forall₂ Button.LayoutOf d.m_rightButtons.buttons
        (d.updateButtonsGeometry E M).m_rightButtons.buttons ∧
      (d.isRightEdge = true →
        (d.updateButtonsGeometry E M).m_rightButtons.geometry.x
            + (d.updateButtonsGeometry E M).m_rightButtons.geometry.width = d.size.width ∧
        ∃ bs b, (d.updateButtonsGeometry E M).m_rightButtons.buttons = bs ++ [b] ∧
          b.geometry.width
            = d.buttonHeight E + d.settings.smallSpacing * M.TitleBar_SideMargin ∧
          b.m_flag = Button.Flag.FlagLastInList ∧
          (b.isVisible = true → b.geometry.x + b.geometry.width = d.size.width) ∧
          (b.isVisible = false → b.geometry.x = 0) ∧
          ∀ b2 ∈ bs, b2.geometry.width = d.buttonHeight E) ∧
      (d.isRightEdge = false →
        (d.updateButtonsGeometry E M).m_rightButtons.geometry.x
            + (d.updateButtonsGeometry E M).m_rightButtons.geometry.width
          = d.size.width - d.settings.smallSpacing * M.TitleBar_SideMargin
            - d.borderRight ∧
        (∃ bs b, (d.updateButtonsGeometry E M).m_rightButtons.buttons = bs ++ [b] ∧
          (b.isVisible = true →
            b.geometry.x + b.geometry.width
              = d.size.width - d.settings.smallSpacing * M.TitleBar_SideMargin
                - d.borderRight) ∧
          (b.isVisible = false → b.geometry.x = 0)) ∧
        ∀ b2 ∈ (d.updateButtonsGeometry E M).m_rightButtons.buttons,
          b2.geometry.width = d.buttonHeight E)) := by
  refine ⟨fun hl => ⟨(Decoration.updateButtonsGeometry_each E M d).1.imp
      (fun _ _ h => h.1), ?_, ?_⟩,
    fun hr => ⟨(Decoration.updateButtonsGeometry_each E M d).2.imp
      (fun _ _ h => h.1), ?_, ?_⟩⟩
  · intro hedge
    obtain ⟨l1, l2⟩ := Decoration.updateButtonsGeometry_left E M d hl
    obtain ⟨b0, bs0, hbs0⟩ := List.exists_cons_of_ne_nil hl
    rw [hedge] at l1 l2
    simp only [if_true] at l1 l2
    refine ⟨l2, ?_⟩
    rw [hbs0] at l1
    simp only [List.map_cons, List.modifyHead_cons] at l1
    obtain ⟨b2, bs2, h1, h2, h3, h4, h5, h6, h7⟩ :=
      DecorationButtonGroup.positionButtons_head _ _ _ _ _ _ l1
    obtain ⟨b4, bs4, h8, hx⟩ :=
      DecorationButtonGroup.positionButtons_head_cell _ _ _ _ _ _ l1
    have hb : b4 = b2 := (List.cons.inj (h8.symm.trans h1)).1
    rw [hb] at hx
    have hx0 : b2.geometry.x = 0 := by
      rw [hx]
      split_ifs <;> rfl
    refine ⟨b2, bs2, h1, h2, by rw [h3], h4, hx0, ?_, ?_⟩
    · unfold Button.iconOrigin Button.paintTranslation
      rw [if_pos h4, hx0, h3]
      simp
    · intro b3 hb3
      obtain ⟨b1, hb1, hw, _⟩ := h7 b3 hb3
      obtain ⟨b, _, rfl⟩ := List.mem_map.mp hb1
      exact hw
  · intro hedge
    obtain ⟨l1, l2⟩ := Decoration.updateButtonsGeometry_left E M d hl
    obtain ⟨b0, bs0, hbs0⟩ := List.exists_cons_of_ne_nil hl
    rw [hedge] at l1 l2
    simp only [Bool.false_eq_true, if_false] at l1 l2
    refine ⟨l2, ?_⟩
    rw [hbs0] at l1
    simp only [List.map_cons] at l1
    obtain ⟨b2, bs2, h1, h2, h3, _, h5, h6, h7⟩ :=
      DecorationButtonGroup.positionButtons_head _ _ _ _ _ _ l1
    obtain ⟨b4, bs4, h8, hx⟩ :=
      DecorationButtonGroup.positionButtons_head_cell _ _ _ _ _ _ l1
    have hb : b4 = b2 := (List.cons.inj (h8.symm.trans h1)).1
    rw [hb] at hx
    refine ⟨b2, bs2, h1, ?_, ?_, ?_⟩
    · intro hv
      have hx := h6 (h5 ▸ hv)
      refine ⟨hx, ?_⟩
      unfold Button.iconOrigin Button.paintTranslation
      rw [hx, h3]
      split_ifs <;> simp
    · intro hv
      rw [hx, if_neg (by rw [← h5, hv]; decide)]
    · intro b3 hb3
      rcases List.mem_cons.mp hb3 with h | h
      · rw [h]
        exact h2
      · obtain ⟨b1, hb1, hw, _⟩ := h7 b3 h
        obtain ⟨b, _, rfl⟩ := List.mem_map.mp hb1
        exact hw
  · intro hedge
    obtain ⟨r1, r2⟩ := Decoration.updateButtonsGeometry_right E M d hr
    have hw := Decoration.updateButtonsGeometry_right_width E M d hr
    rw [hedge] at r1 r2
    simp only [if_true] at r1 r2
    refine ⟨r2, ?_⟩
    rcases List.eq_nil_or_concat (d.m_rightButtons.buttons.map (fun button =>
        { button with
          geometry :=
            { x := 0, y := 0, width := d.buttonHeight E
              height := d.captionHeight M + (if d.isTopEdge then
                d.settings.smallSpacing * M.TitleBar_TopMargin else 0) }
          m_offset :=
            { x := 0
              y := (if d.isTopEdge then d.settings.smallSpacing * M.TitleBar_TopMargin
                else 0) + Int.tdiv (d.captionHeight M - d.buttonHeight E) 2 }
          m_iconSize :=
            { width := d.buttonHeight E, height := d.buttonHeight E } })) with hX | ⟨init, c, hX⟩
    · exact absurd (List.map_eq_nil_iff.mp hX) hr
    · rw [List.concat_eq_append] at hX
      rw [hX, DecorationButtonGroup.modifyBackList_concat] at r1
      obtain ⟨bs2, c2, h1, h2, h3, h4, h5, h6, h7⟩ :=
        DecorationButtonGroup.positionButtons_concat _ _ _ _ _ _ r1
      rw [r1, DecorationButtonGroup.layoutWidth_positionButtons] at hw
      refine ⟨bs2, c2, h1, h2, h3, ?_, ?_, ?_⟩
      · intro hv
        rw [h5 (h4 ▸ hv), ← hw]
        exact r2
      · intro hv
        exact h6 (h4 ▸ hv)
      · intro b3 hb3
        obtain ⟨b1, hb1, hw1⟩ := h7 b3 hb3
        have hm : b1 ∈ init ++ [c] := List.mem_append_left _ hb1
        rw [← hX] at hm
        obtain ⟨a, _, rfl⟩ := List.mem_map.mp hm
        exact hw1
  · intro hedge
    obtain ⟨r1, r2⟩ := Decoration.updateButtonsGeometry_right E M d hr
    have hw := Decoration.updateButtonsGeometry_right_width E M d hr
    rw [hedge] at r1 r2
    simp only [Bool.false_eq_true, if_false] at r1 r2
    refine ⟨r2, ?_, ?_⟩
    · rcases List.eq_nil_or_concat (d.m_rightButtons.buttons.map (fun button =>
          { button with
            geometry :=
              { x := 0, y := 0, width := d.buttonHeight E
                height := d.captionHeight M + (if d.isTopEdge then
                  d.settings.smallSpacing * M.TitleBar_TopMargin else 0) }
            m_offset :=
              { x := 0
                y := (if d.isTopEdge then d.settings.smallSpacing * M.TitleBar_TopMargin
                  else 0) + Int.tdiv (d.captionHeight M - d.buttonHeight E) 2 }
            m_iconSize :=
              { width := d.buttonHeight E, height := d.buttonHeight E } })) with hX | ⟨init, c, hX⟩
      · exact absurd (List.map_eq_nil_iff.mp hX) hr
      · rw [List.concat_eq_append] at hX
        have hc : c ∈ init ++ [c] := List.mem_append_right _ (List.mem_singleton_self c)
        rw [← hX] at hc
        obtain ⟨a, _, hca⟩ := List.mem_map.mp hc
        rw [hX] at r1
        obtain ⟨bs2, c2, h1, _, _, h4, h5, h6, _⟩ :=
          DecorationButtonGroup.positionButtons_concat _ _ _ _ _ _ r1
        rw [r1, DecorationButtonGroup.layoutWidth_positionButtons] at hw
        refine ⟨bs2, c2, h1, ?_, ?_⟩
        · intro hv
          rw [h5 (h4 ▸ hv), ← hw]
          exact r2
        · intro hv
          rw [h6 (h4 ▸ hv), ← hca]
    · intro b3 hb3
      rw [r1] at hb3
      obtain ⟨b1, hb1, hw, _⟩ := DecorationButtonGroup.positionButtons_mem _ _ _ _ _ hb3
      obtain ⟨b, _, rfl⟩ := List.mem_map.mp hb1
      exact hw

/-- C18 on the sample window maximized, both groups with buttons: the left group
starts at x = 0, the right group ends at the width 400 of the decoration. -/
theorem updateButtonsGeometry_edge_buttons_witness :
    sampleMaximized.m_leftButtons.buttons ≠ [] ∧
    sampleMaximized.m_rightButtons.buttons ≠ [] ∧
    (sampleMaximized.updateButtonsGeometry sampleEnum sampleMetrics).m_leftButtons.geometry.x = 0 ∧
    (sampleMaximized.updateButtonsGeometry sampleEnum sampleMetrics).m_rightButtons.geometry.x
      + (sampleMaximized.updateButtonsGeometry sampleEnum sampleMetrics).m_rightButtons.geometry.width
      = 400 :=
  have h := updateButtonsGeometry_edge_buttons sampleEnum sampleMetrics sampleMaximized
  ⟨List.cons_ne_nil _ _, List.cons_ne_nil _ _,
    ((h.1 (List.cons_ne_nil _ _)).2.1 rfl).1, ((h.2 (List.cons_ne_nil _ _)).2.1 rfl).1⟩

/-- C19: the buttons of both groups after `updateButtonsGeometry` are the buttons
before it, in the same order and changed in their layout only, and every one of
them has the icon cell (buttonHeight, buttonHeight) and the vertical offset
(captionHeight - buttonHeight) / 2, plus smallSpacing * TitleBar_TopMargin on a top
screen edge. When the title bar is shown and the top border is the one
`recalculateBorders` sets, the caption height is max(font height, buttonHeight)
and the icon of a visible button is centred in the caption row
[smallSpacing * TitleBar_TopMargin, + captionHeight): the space above it and the
space below it are not negative, and the space below is the space above or one
pixel more. -/
theorem updateButtonsGeometry_icon_cell (E : InternalSettings.Enum) (M : Metrics)
    (d : Decoration) :
    List.Forall₂
      (fun b0 b => Button.LayoutOf b0 b ∧
        b.m_iconSize = { width := d.buttonHeight E, height := d.buttonHeight E } ∧
        b.m_offset.y
          = (if d.isTopEdge then d.settings.smallSpacing * M.TitleBar_TopMargin else 0)
            + Int.tdiv (d.captionHeight M - d.buttonHeight E) 2)
      d.m_leftButtons.buttons (d.updateButtonsGeometry E M).m_leftButtons.buttons ∧
    List.Forall₂
      (fun b0 b => Button.LayoutOf b0 b ∧
        b.m_iconSize = { width := d.buttonHeight E, height := d.buttonHeight E } ∧
        b.m_offset.y
          = (if d.isTopEdge then d.settings.smallSpacing * M.TitleBar_TopMargin else 0)
            + Int.tdiv (d.captionHeight M - d.buttonHeight E) 2)
      d.m_rightButtons.buttons (d.updateButtonsGeometry E M).m_rightButtons.buttons ∧
    (∀ b ∈ (d.updateButtonsGeometry E M).m_leftButtons.buttons
        ++ (d.updateButtonsGeometry E M).m_rightButtons.buttons,
      b.m_iconSize = { width := d.buttonHeight E, height := d.buttonHeight E } ∧
      b.m_offset.y = (if d.isTopEdge then d.settings.smallSpacing * M.TitleBar_TopMargin else 0)
        + Int.tdiv (d.captionHeight M - d.buttonHeight E) 2) ∧
    (∀ c : DecoratedClient, d.client = some c →
      (d.recalculateBorders E M).borders.top = d.borders.top →
      d.hideTitleBar = false →
      d.captionHeight M = max d.settings.fontMetrics.height (d.buttonHeight E) ∧
      ∀ b ∈ (d.updateButtonsGeometry E M).m_leftButtons.buttons
          ++ (d.updateButtonsGeometry E M).m_rightButtons.buttons,
        b.isVisible = true →
        0 ≤ b.iconOrigin.y - d.settings.smallSpacing * M.TitleBar_TopMargin ∧
        0 ≤ d.settings.smallSpacing * M.TitleBar_TopMargin + d.captionHeight M
          - (b.iconOrigin.y + b.m_iconSize.height) ∧
        (d.settings.smallSpacing * M.TitleBar_TopMargin + d.captionHeight M
            - (b.iconOrigin.y + b.m_iconSize.height)
          = b.iconOrigin.y - d.settings.smallSpacing * M.TitleBar_TopMargin ∨
         d.settings.smallSpacing * M.TitleBar_TopMargin + d.captionHeight M
            - (b.iconOrigin.y + b.m_iconSize.height)
          = b.iconOrigin.y - d.settings.smallSpacing * M.TitleBar_TopMargin + 1)) := by
  refine ⟨(Decoration.updateButtonsGeometry_each E M d).1,
    (Decoration.updateButtonsGeometry_each E M d).2,
    fun b hb => ⟨(Decoration.updateButtonsGeometry_mem E M d b hb).1,
      (Decoration.updateButtonsGeometry_mem E M d b hb).2.1⟩, ?_⟩
  intro c hc hborders hh
  have hcap : d.captionHeight M = max d.settings.fontMetrics.height (d.buttonHeight E) := by
    have ht : d.borders.top = 0 + max d.settings.fontMetrics.height (d.buttonHeight E)
        + (d.settings.smallSpacing * M.TitleBar_BottomMargin + 1)
        + d.settings.smallSpacing * M.TitleBar_TopMargin := by
      rw [← hborders]
      simp only [Decoration.recalculateBorders, hc, hh, Bool.false_eq_true, if_false]
    unfold Decoration.captionHeight Decoration.borderTop
    rw [if_neg (by simp [hh]), ht, mul_add]
    omega
  refine ⟨hcap, ?_⟩
  intro b hb hv
  obtain ⟨h1, h2, h3⟩ := Decoration.updateButtonsGeometry_mem E M d b hb
  have hy : b.iconOrigin.y = d.settings.smallSpacing * M.TitleBar_TopMargin
      + Int.tdiv (d.captionHeight M - d.buttonHeight E) 2 := by
    unfold Button.iconOrigin Button.paintTranslation
    have e : (if b.m_flag = Button.Flag.FlagFirstInList then b.m_offset
        else { x := 0, y := b.m_offset.y }).y = b.m_offset.y := by
      split_ifs <;> rfl
    show b.geometry.y + _ = _
    rw [e, h2, h3 hv]
    split_ifs <;> omega
  have hn : 0 ≤ d.captionHeight M - d.buttonHeight E := by
    rw [hcap]
    omega
  have hdiv : Int.tdiv (d.captionHeight M - d.buttonHeight E) 2
      = (d.captionHeight M - d.buttonHeight E) / 2 :=
    Int.tdiv_eq_ediv hn (by decide)
  rw [hy, h1, hdiv]
  dsimp only
  omega

/-- C19 on the sample decoration (caption height 20 = button height, top margin
4, title bar shown, top border 29 as `recalculateBorders` sets it): as many
buttons after as before, each with an icon cell of 20 by 20 pixels. -/
theorem updateButtonsGeometry_icon_cell_witness :
    sampleDecoration.client = some sampleClient ∧
    (sampleDecoration.recalculateBorders sampleEnum sampleMetrics).borders.top
      = sampleDecoration.borders.top ∧
    sampleDecoration.hideTitleBar = false ∧
    sampleDecoration.captionHeight sampleMetrics = 20 ∧
    (sampleDecoration.updateButtonsGeometry sampleEnum sampleMetrics).m_rightButtons.buttons.length
      = sampleDecoration.m_rightButtons.buttons.length ∧
    ∀ b ∈ (sampleDecoration.updateButtonsGeometry sampleEnum sampleMetrics).m_leftButtons.buttons
        ++ (sampleDecoration.updateButtonsGeometry sampleEnum sampleMetrics).m_rightButtons.buttons,
      b.m_iconSize = { width := 20, height := 20 } :=
  have h := updateButtonsGeometry_icon_cell sampleEnum sampleMetrics sampleDecoration
  ⟨rfl, by decide, rfl, (h.2.2.2 sampleClient rfl (by decide) rfl).1.trans (by decide),
    h.2.1.length_eq.symm, fun b hb => (h.2.2.1 b hb).1.trans (by decide)⟩

/-- C20: with a client, `updateTitleBar` sets the title-bar rectangle. When
`isMaximized()` holds (the client is maximized and `drawBorderOnMaximizedWindows`
is off) it is (0, 0, client width, top border); otherwise, with L = largeSpacing *
TitleBar_SideMargin and T = smallSpacing * TitleBar_TopMargin, it is
(L, T, client width - 2 L, top border - T). In both cases y + height is the top
border. -/
theorem updateTitleBar_rect (M : Metrics) (d : Decoration) (c : DecoratedClient)
    (hc : d.client = some c) :
    ∃ d2, d.updateTitleBar M = some d2 ∧
      d.isMaximized = (c.isMaximized && !d.m_internalSettings.drawBorderOnMaximizedWindows) ∧
      (d.isMaximized = true →
        d2.titleBar.left = 0 ∧ d2.titleBar.top = 0 ∧ d2.titleBar.width = c.width ∧
        d2.titleBar.height = d.borderTop) ∧
      (d.isMaximized = false →
        d2.titleBar.left = d.settings.largeSpacing * M.TitleBar_SideMargin ∧
        d2.titleBar.top = d.settings.smallSpacing * M.TitleBar_TopMargin ∧
        d2.titleBar.width = c.width - 2 * (d.settings.largeSpacing * M.TitleBar_SideMargin) ∧
        d2.titleBar.height = d.borderTop - d.settings.smallSpacing * M.TitleBar_TopMargin) ∧
      d2.titleBar.top + d2.titleBar.height = d.borderTop ∧
      d2.borders = d.borders ∧ d2.client = d.client := by
  unfold Decoration.updateTitleBar
  rw [hc]
  refine ⟨_, rfl, ?_, ?_, ?_, ?_, rfl, rfl⟩
  · unfold Decoration.isMaximized
    rw [hc]
  · intro hm
    simp only [hm, if_true, QRect.ofXYWH, QRect.left, QRect.top, QRect.width, QRect.height]
    refine ⟨trivial, trivial, ?_, ?_⟩ <;> omega
  · intro hm
    simp only [hm, Bool.false_eq_true, if_false, QRect.ofXYWH, QRect.left, QRect.top,
      QRect.width, QRect.height]
    refine ⟨trivial, trivial, ?_, ?_⟩
    · rw [mul_assoc]
      omega
    · omega
  · by_cases hm : d.isMaximized = true
    · simp only [hm, if_true, QRect.ofXYWH, QRect.top, QRect.height]
      omega
    · simp only [hm, Bool.false_eq_true, if_false, QRect.ofXYWH, QRect.top, QRect.height]
      omega

/-- C20 on the sample decoration (not maximized, client 392 wide, top border 29,
L = 16, T = 4): the title bar is (16, 4, 360, 25). -/
theorem updateTitleBar_rect_witness :
    ∃ d2, sampleDecoration.updateTitleBar sampleMetrics = some d2 ∧
      d2.titleBar = QRect.ofXYWH 16 4 360 25 ∧
      d2.titleBar.top + d2.titleBar.height = 29 :=
  match updateTitleBar_rect sampleMetrics sampleDecoration sampleClient rfl with
  | ⟨d2, h1, _, _, _, h5, _⟩ =>
    ⟨d2, h1, by
      have h : sampleDecoration.updateTitleBar sampleMetrics
          = some { sampleDecoration with titleBar := QRect.ofXYWH 16 4 360 25 } := rfl
      rw [h] at h1
      cases h1
      rfl, h5.trans (by decide)⟩

/-! ## C21, C22: the caption rectangle by alignment -/

/-- Sharing a column means exactly that some pixel column lies in both. -/
theorem QRect.sharesColumn_iff (r : QRect) (g : QRectF) :
    r.sharesColumn g ↔ ∃ px, (r.x1 ≤ px ∧ px ≤ r.x2) ∧ (g.x ≤ px ∧ px < g.x + g.width) := by
  unfold QRect.sharesColumn
  constructor
  · intro h
    exact ⟨max r.x1 g.x, by omega⟩
  · rintro ⟨px, h⟩
    omega

/-- The caption box of the full-width branch: the bounding rectangle of the
caption, as wide as the font metrics make it, centred on the whole width. -/
theorem Decoration.captionBoundingRect_columns (M : Metrics) (d : Decoration) (caption : String) :
    (d.captionBoundingRect M caption).width
      = (d.settings.fontMetrics.boundingRect caption).width ∧
    (d.captionBoundingRect M caption).left
      = Int.tdiv (d.size.width - (d.settings.fontMetrics.boundingRect caption).width) 2 ∧
    (d.captionBoundingRect M caption).right
      = (d.captionBoundingRect M caption).left
        + (d.settings.fontMetrics.boundingRect caption).width - 1 := by
  unfold Decoration.captionBoundingRect QRect.moveLeft QRect.setHeight QRect.setTop QRect.width
    QRect.left QRect.right
  dsimp only
  refine ⟨?_, ?_, ?_⟩ <;> omega

/-- C21: with the title bar shown, `captionRect` returns the rectangle between the
button groups (leftOffset, yOffset, W - leftOffset - rightOffset, captionHeight)
with the flag of the alignment for Left, Right and Center. For every other
alignment value (CenterFullWidth and unrecognised values) the bounding box of the
caption, of width w, is centred on the whole width W (left = (W - w) / 2, right =
left + w - 1), and the result is the rectangle between the groups aligned left
if the box starts left of leftOffset, else the same rectangle aligned right if
the box ends right of W - rightOffset, else the full-width rectangle
(0, yOffset, W, captionHeight) with `AlignCenter`. -/
theorem captionRect_by_alignment (E : InternalSettings.Enum) (M : Metrics) (d : Decoration)
    (c : DecoratedClient) (hc : d.client = some c) (hh : d.hideTitleBar = false)
    (hLR : E.AlignLeft ≠ E.AlignRight) (hLC : E.AlignLeft ≠ E.AlignCenter)
    (hRC : E.AlignRight ≠ E.AlignCenter) :
    (d.m_internalSettings.titleAlignment = E.AlignLeft →
      d.captionRect E M = some (d.captionMaxRect M, Qt.AlignVCenter ||| Qt.AlignLeft)) ∧
    (d.m_internalSettings.titleAlignment = E.AlignRight →
      d.captionRect E M = some (d.captionMaxRect M, Qt.AlignVCenter ||| Qt.AlignRight)) ∧
    (d.m_internalSettings.titleAlignment = E.AlignCenter →
      d.captionRect E M = some (d.captionMaxRect M, Qt.AlignCenter)) ∧
    (d.m_internalSettings.titleAlignment ≠ E.AlignLeft →
      d.m_internalSettings.titleAlignment ≠ E.AlignRight →
      d.m_internalSettings.titleAlignment ≠ E.AlignCenter →
      (d.captionBoundingRect M c.caption).left
        = Int.tdiv (d.size.width - (d.settings.fontMetrics.boundingRect c.caption).width) 2 ∧
      (d.captionBoundingRect M c.caption).right
        = (d.captionBoundingRect M c.caption).left
          + (d.settings.fontMetrics.boundingRect c.caption).width - 1 ∧
      d.captionRect E M =
        some (if (d.captionBoundingRect M c.caption).left < d.captionLeftOffset M then
            (d.captionMaxRect M, Qt.AlignVCenter ||| Qt.AlignLeft)
          else if (d.captionBoundingRect M c.caption).right
              > d.size.width - d.captionRightOffset M then
            (d.captionMaxRect M, Qt.AlignVCenter ||| Qt.AlignRight)
          else (d.captionFullRect M, Qt.AlignCenter))) ∧
    d.captionMaxRect M
      = QRect.ofXYWH (d.captionLeftOffset M) (d.settings.smallSpacing * M.TitleBar_TopMargin)
          (d.size.width - d.captionLeftOffset M - d.captionRightOffset M) (d.captionHeight M) ∧
    d.captionFullRect M
      = QRect.ofXYWH 0 (d.settings.smallSpacing * M.TitleBar_TopMargin) d.size.width
          (d.captionHeight M) := by
  refine ⟨?_, ?_, ?_, ?_, rfl, rfl⟩
  · intro hL
    unfold Decoration.captionRect
    simp only [hh, Bool.false_eq_true, if_false, hL, if_true]
  · intro hR
    unfold Decoration.captionRect
    simp only [hh, Bool.false_eq_true, if_false, hR, if_neg (Ne.symm hLR), if_true]
  · intro hC
    unfold Decoration.captionRect
    simp only [hh, Bool.false_eq_true, if_false, hC, if_neg (Ne.symm hLC), if_neg (Ne.symm hRC),
      if_true]
  · intro hL hR hC
    obtain ⟨_, k2, k3⟩ := Decoration.captionBoundingRect_columns M d c.caption
    refine ⟨k2, k3, ?_⟩
    unfold Decoration.captionRect
    simp only [hh, Bool.false_eq_true, if_false, hL, hR, hC, hc]
    split_ifs <;> rfl

/-- C21 on the sample decoration (CenterFullWidth, caption "Arc" 30 pixels wide,
W = 400): the box is centred at 185..214 and the result is the full-width
rectangle; with the alignment Right it is the rectangle between the groups. -/
theorem captionRect_by_alignment_witness :
    (sampleDecoration.captionBoundingRect sampleMetrics "Arc").left = 185 ∧
    sampleDecoration.captionRect sampleEnum sampleMetrics
      = some (QRect.ofXYWH 0 4 400 20, Qt.AlignCenter) ∧
    Decoration.captionRect sampleEnum sampleMetrics
      { sampleDecoration with
        m_internalSettings := { sampleInternalSettings with titleAlignment := 2 } }
      = some (QRect.ofXYWH 32 4 288 20, Qt.AlignVCenter ||| Qt.AlignRight) :=
  have h := captionRect_by_alignment sampleEnum sampleMetrics sampleDecoration sampleClient rfl
    rfl (by decide) (by decide) (by decide)
  have h2 := captionRect_by_alignment sampleEnum sampleMetrics
    { sampleDecoration with
      m_internalSettings := { sampleInternalSettings with titleAlignment := 2 } }
    sampleClient rfl rfl (by decide) (by decide) (by decide)
  ⟨(h.2.2.2.1 (by decide) (by decide) (by decide)).1.trans (by decide),
   (h.2.2.2.1 (by decide) (by decide) (by decide)).2.2.trans (by decide),
   (h2.2.1 rfl).trans (by decide)⟩

/-- After `setDirection` the animation has the direction asked for. -/
theorem QVariantAnimation.setDirection_direction (a : QVariantAnimation)
    (dir : QAbstractAnimation.Direction) : (a.setDirection dir).direction = dir := by
  unfold QVariantAnimation.setDirection
  by_cases h : a.direction = dir
  · rw [if_pos h]
    exact h
  · rw [if_neg h]

/-- The direction is untouched by `setCurrentTime`. -/
theorem QVariantAnimation.setCurrentTime_direction (a : QVariantAnimation) (msecs : Int) :
    (a.setCurrentTime msecs).direction = a.direction := by
  unfold QVariantAnimation.setCurrentTime QVariantAnimation.stop
    QVariantAnimation.recalculateCurrentInterval
  dsimp only
  split_ifs <;> rfl

/-- The direction is untouched by `start`. -/
theorem QVariantAnimation.start_direction (a : QVariantAnimation) :
    a.start.direction = a.direction := by
  unfold QVariantAnimation.start
  dsimp only
  split_ifs <;> first | rfl | (rw [QVariantAnimation.setCurrentTime_direction])

/-- A running animation is left alone by `start`. -/
theorem QVariantAnimation.start_running (a : QVariantAnimation)
    (h : a.state = QAbstractAnimation.State.Running) : a.start = a := by
  unfold QVariantAnimation.start
  rw [if_pos h]

/-- The decoration after `setAnimation` with an animation whose current value is
the old one: only the animation is replaced. -/
theorem Decoration.setAnimation_same_value (d : Decoration) (a : QVariantAnimation)
    (h : a.currentValue = d.m_animation.currentValue) :
    d.setAnimation a = { d with m_animation := a } := by
  unfold Decoration.setAnimation QVariantAnimation.valueChanged
  rw [if_neg (not_not.mpr h)]

/-- The button after `setAnimation` with an animation whose current value is the
old one: only the animation is replaced. -/
theorem Button.hover_setAnimation_same_value (b : Button) (a : QVariantAnimation)
    (h : a.currentValue = b.m_animation.currentValue) :
    b.setAnimation a = { b with m_animation := a } := by
  unfold Button.setAnimation QVariantAnimation.valueChanged
  rw [if_neg (not_not.mpr h)]

/-- With animations enabled, `updateAnimationState` of the decoration: the
direction afterwards, the effect on a running animation and on one that is not
running. -/
theorem Decoration.updateAnimationState_direction (d : Decoration)
    (hen : d.m_internalSettings.animationsEnabled = true) (active : Bool)
    (hact : active = (match d.client with
      | some c => c.isActive
      | none => false)) :
    d.updateAnimationState.m_animation.direction
      = (if active then QAbstractAnimation.Direction.Forward
         else QAbstractAnimation.Direction.Backward) ∧
    (d.m_animation.state = QAbstractAnimation.State.Running →
      d.updateAnimationState
        = { d with m_animation :=
              { d.m_animation with
                direction := (if active then QAbstractAnimation.Direction.Forward
                  else QAbstractAnimation.Direction.Backward) } }) ∧
    (d.m_animation.state ≠ QAbstractAnimation.State.Running →
      d.updateAnimationState.m_animation
        = (d.m_animation.setDirection
            (if active then QAbstractAnimation.Direction.Forward
             else QAbstractAnimation.Direction.Backward)).start) := by
  have hu := Decoration.updateAnimationState_enabled d hen active hact
  simp only [QVariantAnimation.setDirection_state] at hu
  refine ⟨?_, ?_, ?_⟩
  · rw [hu, (Decoration.setAnimation_fields d _).1]
    by_cases hrun : d.m_animation.state = QAbstractAnimation.State.Running
    · rw [if_neg (not_not.mpr hrun), QVariantAnimation.setDirection_direction]
    · rw [if_pos hrun, QVariantAnimation.start_direction,
        QVariantAnimation.setDirection_direction]
  · intro hrun
    rw [hu, if_neg (not_not.mpr hrun), QVariantAnimation.setDirection_running _ hrun]
    exact Decoration.setAnimation_same_value d _ rfl
  · intro hrun
    rw [hu, if_pos hrun, (Decoration.setAnimation_fields d _).1]

/-- C23, as stated, fails: the sample decoration without client has a stopped
animation of direction Forward; `updateAnimationState` turns it Backward and
starts it, and the title colour is then the active colour #f1cfdae7, not the
inactive one. A button of that decoration starts its hover animation when it is
entered. -/
theorem updateAnimationState_without_client_starts :
    sampleOrphan.client = none ∧
    sampleOrphan.m_animation.direction = QAbstractAnimation.Direction.Forward ∧
    sampleOrphan.m_animation.state = QAbstractAnimation.State.Stopped ∧
    sampleOrphan.updateAnimationState.m_animation.direction
      = QAbstractAnimation.Direction.Backward ∧
    sampleOrphan.updateAnimationState.m_animation.state = QAbstractAnimation.State.Running ∧
    sampleOrphan.updateAnimationState.fontColor sampleEnum KColorUtils.mix
      = QColor.fromArgb 0xf1 0xcf 0xda 0xe7 ∧
    sampleOrphan.updateAnimationState.inactiveColor sampleEnum
      = QColor.fromArgb 0x7f 0xcf 0xda 0xe7 ∧
    ((sampleButton DecorationButtonType.Close).updateAnimationState (some sampleOrphan)
      true).m_animation.state = QAbstractAnimation.State.Running := by
  have h1 : QEasingCurve.valueForProgress 1 = 1 := by
    rw [QEasingCurve.valueForProgress_of_mem (by norm_num) (le_refl _),
      QEasingCurve.easeInOutQuad_one]
  have h0 : QEasingCurve.valueForProgress 0 = 0 := by
    rw [QEasingCurve.valueForProgress_of_mem (le_refl _) (by norm_num),
      QEasingCurve.easeInOutQuad_zero]
  have hu : sampleOrphan.updateAnimationState
      = { sampleOrphan with
          m_animation :=
            { state := QAbstractAnimation.State.Running
              direction := QAbstractAnimation.Direction.Backward
              duration := 200, currentTime := 200, totalCurrentTime := 200
              currentValue := some 1 } } := by
    simp [Decoration.updateAnimationState, sampleOrphan, sampleDecoration,
      sampleInternalSettings, sampleAnimation, QVariantAnimation.setDirection,
      QVariantAnimation.start, QVariantAnimation.setCurrentTime,
      QVariantAnimation.recalculateCurrentInterval, QVariantAnimation.stop,
      Decoration.setAnimation, QVariantAnimation.valueChanged, Decoration.setOpacity, h1]
  refine ⟨rfl, rfl, rfl, ?_, ?_, ?_, ?_, ?_⟩
  · rw [hu]
  · rw [hu]
  · rw [hu]
    simp [Decoration.fontColor, Decoration.activeColor, Decoration.inactiveColor, sampleOrphan,
      sampleDecoration, sampleInternalSettings, sampleEnum, KColorUtils.mix,
      DARK_TITLE_FONT_COLOR]
  · rw [hu]
    rfl
  · simp [Button.updateAnimationState, sampleOrphan, sampleDecoration,
      sampleInternalSettings, sampleButton, sampleAnimation, QVariantAnimation.setDirection,
      QVariantAnimation.start, QVariantAnimation.setCurrentTime,
      QVariantAnimation.recalculateCurrentInterval, QVariantAnimation.stop,
      Button.setAnimation, QVariantAnimation.valueChanged, Button.setOpacity, h0]

/-- C23, amended: when the client is absent, `Button::foregroundColor` and
`Button::backgroundColor` are the invalid colour, and `fontColor` is the inactive
colour as long as the focus animation is not running (the mix at the stored
progress while it runs). `Decoration::updateAnimationState` does not skip the
direction change: with animations enabled it sets the direction Backward, as for
an inactive window, keeps a running animation running and starts one that is not
running; with animations disabled it changes nothing.
`Button::updateAnimationState` does not consult the client: its result is the one
for a present client, and it changes nothing only when the decoration is absent
or animations are disabled. -/
theorem absent_client_colours_and_animation (E : InternalSettings.Enum)
    (mix : QColor → QColor → ℚ → QColor) (d : Decoration) (b : Button) (hc : d.client = none) :
    b.foregroundColor E mix (some d) = QColor.invalid ∧
    b.backgroundColor mix (some d) = QColor.invalid ∧
    (d.m_animation.state ≠ QAbstractAnimation.State.Running →
      d.fontColor E mix = d.inactiveColor E) ∧
    (d.m_animation.state = QAbstractAnimation.State.Running →
      d.fontColor E mix = mix (d.inactiveColor E) (d.activeColor E) d.m_opacity) ∧
    (d.m_internalSettings.animationsEnabled = true →
      d.updateAnimationState.m_animation.direction = QAbstractAnimation.Direction.Backward ∧
      (d.m_animation.state = QAbstractAnimation.State.Running →
        d.updateAnimationState
          = { d with m_animation :=
                { d.m_animation with direction := QAbstractAnimation.Direction.Backward } }) ∧
      (d.m_animation.state ≠ QAbstractAnimation.State.Running →
        d.updateAnimationState.m_animation
          = (d.m_animation.setDirection QAbstractAnimation.Direction.Backward).start)) ∧
    (d.m_internalSettings.animationsEnabled = false → d.updateAnimationState = d) ∧
    (∀ (c : DecoratedClient) (hovered : Bool),
      b.updateAnimationState (some d) hovered
        = b.updateAnimationState (some { d with client := some c }) hovered) ∧
    (∀ hovered : Bool, b.updateAnimationState none hovered = b) ∧
    (d.m_internalSettings.animationsEnabled = false →
      ∀ hovered : Bool, b.updateAnimationState (some d) hovered = b) := by
  refine ⟨?_, ?_, ?_, ?_, ?_, ?_, ?_, ?_, ?_⟩
  · simp only [Button.foregroundColor, hc]
  · simp only [Button.backgroundColor, hc]
  · intro hrun
    unfold Decoration.fontColor
    simp only [hrun, if_false, hc]
  · intro hrun
    unfold Decoration.fontColor
    simp only [hrun, if_true]
  · intro hen
    have h := Decoration.updateAnimationState_direction d hen false (by rw [hc])
    simp only [Bool.false_eq_true, if_false] at h
    exact h
  · intro hen
    unfold Decoration.updateAnimationState
    simp only [hen, Bool.false_eq_true, if_false]
  · intro c hovered
    rfl
  · intro hovered
    rfl
  · intro hen hovered
    unfold Button.updateAnimationState
    simp only [hen, Bool.not_false, if_true]

/-- C23, amended, on the sample decoration without client: the colours of its
Close button are invalid and its title colour, the animation being stopped, is
the inactive colour #7fcfdae7. -/
theorem absent_client_colours_and_animation_witness :
    (sampleButton DecorationButtonType.Close).foregroundColor sampleEnum KColorUtils.mix
      (some sampleOrphan) = QColor.invalid ∧
    sampleOrphan.fontColor sampleEnum KColorUtils.mix = QColor.fromArgb 0x7f 0xcf 0xda 0xe7 :=
  have h := absent_client_colours_and_animation sampleEnum KColorUtils.mix sampleOrphan
    (sampleButton DecorationButtonType.Close) rfl
  ⟨h.1, (h.2.2.1 (by decide)).trans (by decide)⟩

/-- C27: with animations enabled, `updateAnimationState` of the decoration (of the
button) leaves the animation with the direction Forward when the window is active
(the button hovered) and Backward otherwise; an animation that is running is
only given the new direction, its time, value and the stored progress stay, and
one that is not running is started after the direction is set. With animations
disabled (for the button also without decoration) nothing is changed: direction,
running state and stored progress stay, and the title colour of a decoration
whose animation is not running is the active or inactive colour of the focus
state. -/
theorem updateAnimationState_rule (E : InternalSettings.Enum)
    (mix : QColor → QColor → ℚ → QColor) (d : Decoration) (b : Button) (hovered : Bool) :
    (d.m_internalSettings.animationsEnabled = true →
      (d.updateAnimationState.m_animation.direction = QAbstractAnimation.Direction.Forward ↔
        ∃ c, d.client = some c ∧ c.isActive = true) ∧
      (d.updateAnimationState.m_animation.direction = QAbstractAnimation.Direction.Backward ↔
        ¬ ∃ c, d.client = some c ∧ c.isActive = true) ∧
      (d.m_animation.state = QAbstractAnimation.State.Running →
        d.updateAnimationState
          = { d with m_animation :=
                { d.m_animation with direction := d.updateAnimationState.m_animation.direction } }) ∧
      (d.m_animation.state ≠ QAbstractAnimation.State.Running →
        d.updateAnimationState.m_animation
          = (d.m_animation.setDirection d.updateAnimationState.m_animation.direction).start) ∧
      (b.updateAnimationState (some d) hovered).m_animation.direction
        = (if hovered then QAbstractAnimation.Direction.Forward
           else QAbstractAnimation.Direction.Backward) ∧
      (b.m_animation.state = QAbstractAnimation.State.Running →
        b.updateAnimationState (some d) hovered
          = { b with m_animation :=
                { b.m_animation with
                  direction := (if hovered then QAbstractAnimation.Direction.Forward
                    else QAbstractAnimation.Direction.Backward) } }) ∧
      (b.m_animation.state ≠ QAbstractAnimation.State.Running →
        (b.updateAnimationState (some d) hovered).m_animation
          = (b.m_animation.setDirection
              (if hovered then QAbstractAnimation.Direction.Forward
               else QAbstractAnimation.Direction.Backward)).start)) ∧
    (d.m_internalSettings.animationsEnabled = false →
      d.updateAnimationState = d ∧
      b.updateAnimationState (some d) hovered = b ∧
      (d.m_animation.state ≠ QAbstractAnimation.State.Running →
        d.updateAnimationState.fontColor E mix
          = if (∃ c, d.client = some c ∧ c.isActive = true) then d.activeColor E
            else d.inactiveColor E)) ∧
    b.updateAnimationState none hovered = b := by
  refine ⟨?_, ?_, rfl⟩
  · intro hen
    obtain ⟨k1, k2, k3⟩ := Decoration.updateAnimationState_direction d hen _ rfl
    have hb := Button.hover_updateAnimationState_enabled d b hovered hen
    simp only [QVariantAnimation.setDirection_state] at hb
    refine ⟨?_, ?_, ?_, ?_, ?_, ?_, ?_⟩
    · rw [k1]
      cases hc : d.client with
      | none => simp
      | some c => cases ha : c.isActive <;> simp [ha]
    · rw [k1]
      cases hc : d.client with
      | none => simp
      | some c => cases ha : c.isActive <;> simp [ha]
    · intro hrun
      rw [k1]
      exact k2 hrun
    · intro hrun
      rw [k1]
      exact k3 hrun
    · rw [hb, Button.setAnimation_animation]
      split_ifs <;>
        first
        | rw [QVariantAnimation.start_direction, QVariantAnimation.setDirection_direction]
        | rw [QVariantAnimation.setDirection_direction]
    · intro hrun
      rw [hb, if_neg (not_not.mpr hrun), QVariantAnimation.setDirection_running _ hrun]
      exact Button.hover_setAnimation_same_value b _ rfl
    · intro hrun
      rw [hb, if_pos hrun, Button.setAnimation_animation]
  · intro hen
    have hd : d.updateAnimationState = d := by
      unfold Decoration.updateAnimationState
      simp only [hen, Bool.false_eq_true, if_false]
    refine ⟨hd, ?_, ?_⟩
    · unfold Button.updateAnimationState
      simp only [hen, Bool.not_false, if_true]
    · intro hrun
      rw [hd]
      unfold Decoration.fontColor
      simp only [hrun, if_false]
      cases hc : d.client with
      | none => simp
      | some c => cases ha : c.isActive <;> simp [ha]

/-- C27 on the fading sample decoration (running forward, window no longer
active): the animation is turned backward where it is, at 100 of 200 ms. -/
theorem updateAnimationState_rule_witness :
    sampleFading.updateAnimationState
      = { sampleFading with
          m_animation :=
            { sampleFading.m_animation with
              direction := QAbstractAnimation.Direction.Backward } } :=
  have h := (updateAnimationState_rule sampleEnum KColorUtils.mix sampleFading
    (sampleButton DecorationButtonType.Close) true).1 rfl
  have hd : sampleFading.updateAnimationState.m_animation.direction
      = QAbstractAnimation.Direction.Backward :=
    h.2.1.mpr (by simp [sampleFading, sampleDecoration, sampleClient])
  (h.2.2.1 rfl).trans (by rw [hd])

/-! ## C16: a change of direction while the animation runs -/

/-- The counter is untouched by `createShadow`. -/
theorem Decoration.createShadow_decoCount (E : InternalSettings.Enum) (M : Metrics)
    (R : BoxShadowRenderer) (g : Globals) (d : Decoration) :
    (Decoration.createShadow E M R g d).1.g_sDecoCount = g.g_sDecoCount := by
  unfold Decoration.createShadow
  dsimp only
  split_ifs <;> rfl

/-- The last event of a sequence is applied last. -/
theorem Globals.run_append (E : InternalSettings.Enum) (M : Metrics) (R : BoxShadowRenderer)
    (es : List GlobalEvent) (e : GlobalEvent) :
    ∀ g : Globals, Globals.run E M R g (es ++ [e])
      = Globals.step E M R (Globals.run E M R g es) e := by
  induction es with
  | nil => intro g; rfl
  | cons e2 es ih =>
    intro g
    exact ih (Globals.step E M R g e2)

/-- From file-scope variables whose counter is the number `n` of live decorations
and whose shadow is null when `n` is 0, a possible sequence of events leads to
variables of which the same holds. -/
theorem Globals.run_invariant (E : InternalSettings.Enum) (M : Metrics) (R : BoxShadowRenderer)
    (es : List GlobalEvent) :
    ∀ (n : Nat) (g : Globals), g.g_sDecoCount = (n : Int) → (n = 0 → g.g_sShadow = none) →
      GlobalEvent.possible n es = true →
      (Globals.run E M R g es).g_sDecoCount = (GlobalEvent.liveAfter n es : Int) ∧
      (GlobalEvent.liveAfter n es = 0 → (Globals.run E M R g es).g_sShadow = none) := by
  induction es with
  | nil =>
    intro n g hcount hshadow _
    exact ⟨hcount, hshadow⟩
  | cons e es ih =>
    intro n g hcount hshadow hp
    cases e with
    | construct =>
      have hp2 : GlobalEvent.possible (n + 1) es = true := hp
      exact ih (n + 1) (Decoration.construct g)
        (by unfold Decoration.construct; simp only [hcount]; push_cast; rfl)
        (fun h => absurd h (Nat.succ_ne_zero n)) hp2
    | createShadow d =>
      have hp2 : (decide (0 < n) && GlobalEvent.possible n es) = true := hp
      rw [Bool.and_eq_true, decide_eq_true_eq] at hp2
      exact ih n (Decoration.createShadow E M R g d).1
        (by rw [Decoration.createShadow_decoCount, hcount])
        (fun h => absurd h (by omega)) hp2.2
    | destruct =>
      have hp2 : (decide (0 < n) && GlobalEvent.possible (n - 1) es) = true := hp
      rw [Bool.and_eq_true, decide_eq_true_eq] at hp2
      have hc2 : (Decoration.destruct g).g_sDecoCount = ((n - 1 : Nat) : Int) := by
        unfold Decoration.destruct
        dsimp only
        split_ifs <;> simp only [hcount] <;> omega
      refine ih (n - 1) (Decoration.destruct g) hc2 ?_ hp2.2
      intro h0
      unfold Decoration.destruct
      dsimp only
      rw [if_pos (by rw [hcount]; omega)]

/-- C24: over every possible sequence of constructions, `createShadow` calls and
destructions from the initial file-scope variables, `g_sDecoCount` is the number
of live decorations and `g_sShadow` is null while there is none. When a
decoration is destroyed next, the counter drops by one; `g_sShadow` is null
afterwards if it was the last one, and is what it was if others stay alive. -/
theorem decoCount_and_shared_shadow (E : InternalSettings.Enum) (M : Metrics)
    (R : BoxShadowRenderer) (events : List GlobalEvent)
    (hp : GlobalEvent.possible 0 events = true) :
    (Globals.run E M R (Globals.initial E) events).g_sDecoCount
      = (GlobalEvent.liveAfter 0 events : Int) ∧
    (GlobalEvent.liveAfter 0 events = 0 →
      (Globals.run E M R (Globals.initial E) events).g_sShadow = none) ∧
    (Globals.run E M R (Globals.initial E) (events ++ [GlobalEvent.destruct])).g_sDecoCount
      = (GlobalEvent.liveAfter 0 events : Int) - 1 ∧
    (GlobalEvent.liveAfter 0 events = 1 →
      (Globals.run E M R (Globals.initial E) (events ++ [GlobalEvent.destruct])).g_sShadow
        = none) ∧
    (1 < GlobalEvent.liveAfter 0 events →
      (Globals.run E M R (Globals.initial E) (events ++ [GlobalEvent.destruct])).g_sShadow
        = (Globals.run E M R (Globals.initial E) events).g_sShadow) := by
  obtain ⟨h1, h2⟩ := Globals.run_invariant E M R events 0 (Globals.initial E) rfl
    (fun _ => rfl) hp
  rw [Globals.run_append]
  refine ⟨h1, h2, ?_, ?_, ?_⟩
  · show (Decoration.destruct _).g_sDecoCount = _
    unfold Decoration.destruct
    dsimp only
    split_ifs <;> simp only [h1]
  · intro hl
    show (Decoration.destruct _).g_sShadow = _
    unfold Decoration.destruct
    dsimp only
    rw [if_pos (by rw [h1, hl]; rfl)]
  · intro hl
    show (Decoration.destruct _).g_sShadow = _
    unfold Decoration.destruct
    dsimp only
    rw [if_neg (by rw [h1]; omega)]

/-- C24 on two decorations: both are constructed and create their shadow, then
one is destroyed (the shared shadow stays), then the other (the shared shadow is
freed). -/
theorem decoCount_and_shared_shadow_witness :
    (Globals.run sampleEnum sampleMetrics sampleRenderer (Globals.initial sampleEnum)
      [GlobalEvent.construct, GlobalEvent.createShadow sampleDecoration, GlobalEvent.construct,
        GlobalEvent.createShadow sampleMaximized]).g_sDecoCount = 2 ∧
    (Globals.run sampleEnum sampleMetrics sampleRenderer (Globals.initial sampleEnum)
      ([GlobalEvent.construct, GlobalEvent.createShadow sampleDecoration, GlobalEvent.construct,
        GlobalEvent.createShadow sampleMaximized] ++ [GlobalEvent.destruct])).g_sShadow
      = (Globals.run sampleEnum sampleMetrics sampleRenderer (Globals.initial sampleEnum)
          [GlobalEvent.construct, GlobalEvent.createShadow sampleDecoration,
            GlobalEvent.construct, GlobalEvent.createShadow sampleMaximized]).g_sShadow ∧
    (Globals.run sampleEnum sampleMetrics sampleRenderer (Globals.initial sampleEnum)
      ([GlobalEvent.construct, GlobalEvent.createShadow sampleDecoration, GlobalEvent.construct,
        GlobalEvent.createShadow sampleMaximized, GlobalEvent.destruct]
        ++ [GlobalEvent.destruct])).g_sShadow = none :=
  have h := decoCount_and_shared_shadow sampleEnum sampleMetrics sampleRenderer
    [GlobalEvent.construct, GlobalEvent.createShadow sampleDecoration, GlobalEvent.construct,
      GlobalEvent.createShadow sampleMaximized] rfl
  have h2 := decoCount_and_shared_shadow sampleEnum sampleMetrics sampleRenderer
    [GlobalEvent.construct, GlobalEvent.createShadow sampleDecoration, GlobalEvent.construct,
      GlobalEvent.createShadow sampleMaximized, GlobalEvent.destruct] rfl
  ⟨h.1, h.2.2.2.2 (by decide), h2.2.2.2.1 (by decide)⟩

/-! ## C25, C26: the colours by theme and the border size -/

/-- C25: for every value of the theme selector `arcTheme`, `titleBarColor`,
`outlineColor` and `highlightColor` are #2f343f, #B9000000 and #363b48 when the
selector is `ThemeDark`, and #e7e8eb, #4a000000 and #eff0f2 for every other value;
`Button::reconfigure` of a button of that decoration sets the eleven dark button
colours for the same selector value and the eleven light ones for every other. -/
theorem theme_colours_total (E : InternalSettings.Enum) (d : Decoration) (b : Button) :
    (d.m_internalSettings.arcTheme = E.ThemeDark →
      d.titleBarColor E = QColor.fromRgb 0x2f 0x34 0x3f ∧
      d.outlineColor E = QColor.fromArgb 0xB9 0x00 0x00 0x00 ∧
      d.highlightColor E = QColor.fromRgb 0x36 0x3b 0x48 ∧
      (b.reconfigure E (some d)).m_iconBg = DARK_ICON_BG ∧
      (b.reconfigure E (some d)).m_iconUnfocusedBg = DARK_ICON_UNFOCUSED_BG ∧
      (b.reconfigure E (some d)).m_iconHoverBg = DARK_ICON_HOVER_BG ∧
      (b.reconfigure E (some d)).m_iconActiveBg = DARK_ICON_ACTIVE_BG ∧
      (b.reconfigure E (some d)).m_buttonHoverBg = DARK_BUTTON_HOVER_BG ∧
      (b.reconfigure E (some d)).m_buttonActiveBg = DARK_BUTTON_ACTIVE_BG ∧
      (b.reconfigure E (some d)).m_buttonHoverBorder = DARK_BUTTON_HOVER_BORDER ∧
      (b.reconfigure E (some d)).m_buttonSelectedBg = DARK_BUTTON_SELECTED_BG ∧
      (b.reconfigure E (some d)).m_buttonCloseBg = DARK_BUTTON_CLOSE_BG ∧
      (b.reconfigure E (some d)).m_buttonCloseHoverBg = DARK_BUTTON_CLOSE_HOVER_BG ∧
      (b.reconfigure E (some d)).m_buttonCloseActiveBg = DARK_BUTTON_CLOSE_ACTIVE_BG) ∧
    (d.m_internalSettings.arcTheme ≠ E.ThemeDark →
      d.titleBarColor E = QColor.fromRgb 0xe7 0xe8 0xeb ∧
      d.outlineColor E = QColor.fromArgb 0x4a 0x00 0x00 0x00 ∧
      d.highlightColor E = QColor.fromRgb 0xef 0xf0 0xf2 ∧
      (b.reconfigure E (some d)).m_iconBg = LIGHT_ICON_BG ∧
      (b.reconfigure E (some d)).m_iconUnfocusedBg = LIGHT_ICON_UNFOCUSED_BG ∧
      (b.reconfigure E (some d)).m_iconHoverBg = LIGHT_ICON_HOVER_BG ∧
      (b.reconfigure E (some d)).m_iconActiveBg = LIGHT_ICON_ACTIVE_BG ∧
      (b.reconfigure E (some d)).m_buttonHoverBg = LIGHT_BUTTON_HOVER_BG ∧
      (b.reconfigure E (some d)).m_buttonActiveBg = LIGHT_BUTTON_ACTIVE_BG ∧
      (b.reconfigure E (some d)).m_buttonHoverBorder = LIGHT_BUTTON_HOVER_BORDER ∧
      (b.reconfigure E (some d)).m_buttonSelectedBg = LIGHT_BUTTON_SELECTED_BG ∧
      (b.reconfigure E (some d)).m_buttonCloseBg = LIGHT_BUTTON_CLOSE_BG ∧
      (b.reconfigure E (some d)).m_buttonCloseHoverBg = LIGHT_BUTTON_CLOSE_HOVER_BG ∧
      (b.reconfigure E (some d)).m_buttonCloseActiveBg = LIGHT_BUTTON_CLOSE_ACTIVE_BG) := by
  constructor
  · intro h
    unfold Decoration.titleBarColor Decoration.outlineColor Decoration.highlightColor
      Button.reconfigure
    simp only [h, if_true]
    and_intros <;> first | rfl | trivial
  · intro h
    unfold Decoration.titleBarColor Decoration.outlineColor Decoration.highlightColor
      Button.reconfigure
    simp only [h, if_false]
    and_intros <;> first | rfl | trivial

/-- C25 on the sample decoration (dark) and on the same decoration with the theme
selector 7, which is no enumerator: light. -/
theorem theme_colours_total_witness :
    sampleDecoration.titleBarColor sampleEnum = QColor.fromRgb 0x2f 0x34 0x3f ∧
    Decoration.titleBarColor sampleEnum
      { sampleDecoration with m_internalSettings := { sampleInternalSettings with arcTheme := 7 } }
      = QColor.fromRgb 0xe7 0xe8 0xeb ∧
    (Button.reconfigure sampleEnum
      (some { sampleDecoration with
        m_internalSettings := { sampleInternalSettings with arcTheme := 7 } })
      (sampleButton DecorationButtonType.Close)).m_buttonCloseBg = LIGHT_BUTTON_CLOSE_BG :=
  have h1 := (theme_colours_total sampleEnum sampleDecoration
    (sampleButton DecorationButtonType.Close)).1 rfl
  have h2 := (theme_colours_total sampleEnum
    { sampleDecoration with m_internalSettings := { sampleInternalSettings with arcTheme := 7 } }
    (sampleButton DecorationButtonType.Close)).2 (by decide)
  ⟨h1.1, h2.1, h2.2.2.2.2.2.2.2.2.2.2.2.1⟩

/-- C26: `borderSize` is defined for every setting. With the `BorderSize` bit in
the mask of the window-specific settings it reads their border size: the nine
enumerators (pairwise distinct) give 0, 0, 1 and 2, 3, 4, 5, 6, 10 times
smallSpacing, and every other value gives 1, the result of Tiny. Without the bit
it reads the global border size, with the same results for the values of the
same names. -/
theorem borderSize_table (E : InternalSettings.Enum) (M : Metrics) (d : Decoration)
    (hdist : E.BorderLabelsDistinct) :
    (d.m_internalSettings.mask &&& M.BorderSize ≠ 0 →
      (d.m_internalSettings.borderSize = E.BorderNone → d.borderSize E M = 0) ∧
      (d.m_internalSettings.borderSize = E.BorderNoSides → d.borderSize E M = 0) ∧
      (d.m_internalSettings.borderSize = E.BorderTiny → d.borderSize E M = 1) ∧
      (d.m_internalSettings.borderSize = E.BorderNormal →
        d.borderSize E M = 2 * d.settings.smallSpacing) ∧
      (d.m_internalSettings.borderSize = E.BorderLarge →
        d.borderSize E M = 3 * d.settings.smallSpacing) ∧
      (d.m_internalSettings.borderSize = E.BorderVeryLarge →
        d.borderSize E M = 4 * d.settings.smallSpacing) ∧
      (d.m_internalSettings.borderSize = E.BorderHuge →
        d.borderSize E M = 5 * d.settings.smallSpacing) ∧
      (d.m_internalSettings.borderSize = E.BorderVeryHuge →
        d.borderSize E M = 6 * d.settings.smallSpacing) ∧
      (d.m_internalSettings.borderSize = E.BorderOversized →
        d.borderSize E M = 10 * d.settings.smallSpacing) ∧
      ((∀ k, d.m_internalSettings.borderSize ≠ E.border k) → d.borderSize E M = 1)) ∧
    (d.m_internalSettings.mask &&& M.BorderSize = 0 →
      d.borderSize E M =
        match d.settings.borderSize with
        | KDecoration2.BorderSize.None => 0
        | KDecoration2.BorderSize.NoSides => 0
        | KDecoration2.BorderSize.Tiny => 1
        | KDecoration2.BorderSize.Normal => 2 * d.settings.smallSpacing
        | KDecoration2.BorderSize.Large => 3 * d.settings.smallSpacing
        | KDecoration2.BorderSize.VeryLarge => 4 * d.settings.smallSpacing
        | KDecoration2.BorderSize.Huge => 5 * d.settings.smallSpacing
        | KDecoration2.BorderSize.VeryHuge => 6 * d.settings.smallSpacing
        | KDecoration2.BorderSize.Oversized => 10 * d.settings.smallSpacing) ∧
    (∀ (d2 : Decoration) (k : KDecoration2.BorderSize),
      d.m_internalSettings.mask &&& M.BorderSize ≠ 0 →
      d.m_internalSettings.borderSize = E.border k →
      d2.m_internalSettings.mask &&& M.BorderSize = 0 →
      d2.settings.borderSize = k →
      d2.settings.smallSpacing = d.settings.smallSpacing →
      d.borderSize E M = d2.borderSize E M) := by
  unfold InternalSettings.Enum.BorderLabelsDistinct at hdist
  simp only [List.nodup_cons, List.mem_cons, List.mem_singleton, not_or, List.not_mem_nil,
    not_false_eq_true, List.nodup_nil, and_true] at hdist
  obtain ⟨⟨n1, n2, n3, n4, n5, n6, n7, n8⟩, ⟨s2, s3, s4, s5, s6, s7, s8⟩,
    ⟨t3, t4, t5, t6, t7, t8⟩, ⟨m4, m5, m6, m7, m8⟩, ⟨l5, l6, l7, l8⟩, ⟨v6, v7, v8⟩,
    ⟨u7, u8⟩, w8⟩ := hdist
  have internal : d.m_internalSettings.mask &&& M.BorderSize ≠ 0 →
      (d.m_internalSettings.borderSize = E.BorderNone → d.borderSize E M = 0) ∧
      (d.m_internalSettings.borderSize = E.BorderNoSides → d.borderSize E M = 0) ∧
      (d.m_internalSettings.borderSize = E.BorderTiny → d.borderSize E M = 1) ∧
      (d.m_internalSettings.borderSize = E.BorderNormal →
        d.borderSize E M = 2 * d.settings.smallSpacing) ∧
      (d.m_internalSettings.borderSize = E.BorderLarge →
        d.borderSize E M = 3 * d.settings.smallSpacing) ∧
      (d.m_internalSettings.borderSize = E.BorderVeryLarge →
        d.borderSize E M = 4 * d.settings.smallSpacing) ∧
      (d.m_internalSettings.borderSize = E.BorderHuge →
        d.borderSize E M = 5 * d.settings.smallSpacing) ∧
      (d.m_internalSettings.borderSize = E.BorderVeryHuge →
        d.borderSize E M = 6 * d.settings.smallSpacing) ∧
      (d.m_internalSettings.borderSize = E.BorderOversized →
        d.borderSize E M = 10 * d.settings.smallSpacing) ∧
      ((∀ k, d.m_internalSettings.borderSize ≠ E.border k) → d.borderSize E M = 1) := by
    intro hmask
    unfold Decoration.borderSize
    simp only [hmask, ne_eq, not_false_eq_true, if_true]
    refine ⟨?_, ?_, ?_, ?_, ?_, ?_, ?_, ?_, ?_, ?_⟩
    · intro hb
      simp only [hb, if_true]
    · intro hb
      simp only [hb, Ne.symm n1, if_false, if_true]
    · intro hb
      simp only [hb, Ne.symm n2, Ne.symm s2, if_false, if_true]
    · intro hb
      simp only [hb, Ne.symm n3, Ne.symm s3, Ne.symm t3, if_false, if_true]
      ring
    · intro hb
      simp only [hb, Ne.symm n4, Ne.symm s4, Ne.symm t4, Ne.symm m4, if_false, if_true]
      ring
    · intro hb
      simp only [hb, Ne.symm n5, Ne.symm s5, Ne.symm t5, Ne.symm m5, Ne.symm l5, if_false,
        if_true]
      ring
    · intro hb
      simp only [hb, Ne.symm n6, Ne.symm s6, Ne.symm t6, Ne.symm m6, Ne.symm l6, Ne.symm v6,
        if_false, if_true]
      ring
    · intro hb
      simp only [hb, Ne.symm n7, Ne.symm s7, Ne.symm t7, Ne.symm m7, Ne.symm l7, Ne.symm v7,
        Ne.symm u7, if_false, if_true]
      ring
    · intro hb
      simp only [hb, Ne.symm n8, Ne.symm s8, Ne.symm t8, Ne.symm m8, Ne.symm l8, Ne.symm v8,
        Ne.symm u8, Ne.symm w8, if_false, if_true]
      ring
    · intro hb
      have h1 := hb KDecoration2.BorderSize.None
      have h2 := hb KDecoration2.BorderSize.NoSides
      have h3 := hb KDecoration2.BorderSize.Tiny
      have h4 := hb KDecoration2.BorderSize.Normal
      have h5 := hb KDecoration2.BorderSize.Large
      have h6 := hb KDecoration2.BorderSize.VeryLarge
      have h7 := hb KDecoration2.BorderSize.Huge
      have h8 := hb KDecoration2.BorderSize.VeryHuge
      have h9 := hb KDecoration2.BorderSize.Oversized
      unfold InternalSettings.Enum.border at h1 h2 h3 h4 h5 h6 h7 h8 h9
      simp only [h1, h2, h3, h4, h5, h6, h7, h8, h9, if_false]
  have global : ∀ d2 : Decoration, d2.m_internalSettings.mask &&& M.BorderSize = 0 →
      d2.borderSize E M =
        match d2.settings.borderSize with
        | KDecoration2.BorderSize.None => 0
        | KDecoration2.BorderSize.NoSides => 0
        | KDecoration2.BorderSize.Tiny => 1
        | KDecoration2.BorderSize.Normal => 2 * d2.settings.smallSpacing
        | KDecoration2.BorderSize.Large => 3 * d2.settings.smallSpacing
        | KDecoration2.BorderSize.VeryLarge => 4 * d2.settings.smallSpacing
        | KDecoration2.BorderSize.Huge => 5 * d2.settings.smallSpacing
        | KDecoration2.BorderSize.VeryHuge => 6 * d2.settings.smallSpacing
        | KDecoration2.BorderSize.Oversized => 10 * d2.settings.smallSpacing := by
    intro d2 hmask
    unfold Decoration.borderSize
    simp only [hmask, ne_eq, not_true_eq_false, if_false]
    cases d2.settings.borderSize <;> simp only <;> ring
  refine ⟨internal, global d, ?_⟩
  intro d2 k hm hb hm2 hk hs
  obtain ⟨i1, i2, i3, i4, i5, i6, i7, i8, i9, _⟩ := internal hm
  rw [global d2 hm2, hk, hs]
  cases k
  · exact i1 hb
  · exact i2 hb
  · exact i3 hb
  · exact i4 hb
  · exact i5 hb
  · exact i6 hb
  · exact i7 hb
  · exact i8 hb
  · exact i9 hb

/-- C26 on the sample decoration: the global setting Normal gives 2 * 2 = 4; with
the `BorderSize` bit set in the mask the window-specific value 8 (Oversized)
gives 20, and the value 99, no enumerator, gives 1. -/
theorem borderSize_table_witness :
    sampleDecoration.borderSize sampleEnum sampleMetrics = 4 ∧
    Decoration.borderSize sampleEnum sampleMetrics
      { sampleDecoration with
        m_internalSettings := { sampleInternalSettings with mask := 16, borderSize := 8 } } = 20 ∧
    Decoration.borderSize sampleEnum sampleMetrics
      { sampleDecoration with
        m_internalSettings := { sampleInternalSettings with mask := 16, borderSize := 99 } } = 1 :=
  have hd : sampleEnum.BorderLabelsDistinct := by
    unfold InternalSettings.Enum.BorderLabelsDistinct
    decide
  have h1 := (borderSize_table sampleEnum sampleMetrics sampleDecoration hd).2.1 (by decide)
  have h2 := (borderSize_table sampleEnum sampleMetrics
    { sampleDecoration with
      m_internalSettings := { sampleInternalSettings with mask := 16, borderSize := 8 } } hd).1
    (by decide)
  have h3 := (borderSize_table sampleEnum sampleMetrics
    { sampleDecoration with
      m_internalSettings := { sampleInternalSettings with mask := 16, borderSize := 99 } } hd).1
    (by decide)
  ⟨h1.trans (by decide), (h2.2.2.2.2.2.2.2.2.1 rfl).trans (by decide),
    h3.2.2.2.2.2.2.2.2.2 (by intro k; cases k <;> decide)⟩

/-! ## C28: the padding of the shadow and the hole in its texture -/

/-- C28: for every renderer (hence every texture size and box size) and every
shadow parameters, the shadow built by `createShadow` has the padding
(box.left - outer.left - Shadow_Overlap - off.x, box.top - outer.top -
Shadow_Overlap - off.y, outer.right - box.right - Shadow_Overlap + off.x,
outer.bottom - box.bottom - Shadow_Overlap + off.y), where outer is the rectangle
of the texture and box the rectangle of the box size centred in it. The hole cut
out of the texture, outer shrunk by the padding, is box grown by Shadow_Overlap on
every side and moved by minus the offset; it is boxSize + 2 * Shadow_Overlap wide
and high, as is the texture less the padding, whatever the offset. On a cache
miss with a shadow size that has a shadow, this is the shadow `createShadow`
installs. -/
theorem createShadow_padding_and_hole (M : Metrics) (R : BoxShadowRenderer)
    (params : CompositeShadowParams) (strength : Int) (color : QColor)
    (s : DecorationShadow) (hs : s = synthesizeShadow M R params strength color)
    (boxSize : QSize)
    (hbs : boxSize = (R.calculateMinimumBoxSize params.shadow1.radius).expandedTo
      (R.calculateMinimumBoxSize params.shadow2.radius))
    (outer : QRect) (ho : outer = s.shadow.rect)
    (box : QRect)
    (hb : box = (QRect.ofPointSize { x := 0, y := 0 } boxSize).moveCenter outer.center) :
    s.padding =
      { left := box.left - outer.left - M.Shadow_Overlap - params.offset.x
        top := box.top - outer.top - M.Shadow_Overlap - params.offset.y
        right := outer.right - box.right - M.Shadow_Overlap + params.offset.x
        bottom := outer.bottom - box.bottom - M.Shadow_Overlap + params.offset.y } ∧
    outer.marginsRemoved s.padding =
      { x1 := box.x1 - M.Shadow_Overlap - params.offset.x
        y1 := box.y1 - M.Shadow_Overlap - params.offset.y
        x2 := box.x2 + M.Shadow_Overlap - params.offset.x
        y2 := box.y2 + M.Shadow_Overlap - params.offset.y } ∧
    (∃ before outline, s.shadow.painted = before ++
      [{ mode := CompositionMode.DestinationOut, pen := none, brush := some Qt.black
         rect := outer.marginsRemoved s.padding
         radius := (M.Frame_FrameRadius : ℚ) + 1 / 2 }, outline] ∧
      outline.rect = outer.marginsRemoved s.padding) ∧
    box.width = boxSize.width ∧ box.height = boxSize.height ∧
    (outer.marginsRemoved s.padding).width = boxSize.width + 2 * M.Shadow_Overlap ∧
    (outer.marginsRemoved s.padding).height = boxSize.height + 2 * M.Shadow_Overlap ∧
    outer.width - s.padding.left - s.padding.right = boxSize.width + 2 * M.Shadow_Overlap ∧
    outer.height - s.padding.top - s.padding.bottom = boxSize.height + 2 * M.Shadow_Overlap ∧
    (∀ (E : InternalSettings.Enum) (g : Globals) (d : Decoration),
      (g.g_sShadow.isNone
        || g.g_shadowSizeEnum != d.m_internalSettings.shadowSize
        || g.g_shadowStrength != d.m_internalSettings.shadowStrength
        || g.g_shadowColor != d.m_internalSettings.shadowColor) = true →
      ¬ (lookupShadowParams E d.m_internalSettings.shadowSize).isNone = true →
      (d.createShadow E M R g).2.shadow = some (synthesizeShadow M R
        (lookupShadowParams E d.m_internalSettings.shadowSize)
        d.m_internalSettings.shadowStrength d.m_internalSettings.shadowColor)) := by
  have hpad : s.padding =
      { left := box.left - outer.left - M.Shadow_Overlap - params.offset.x
        top := box.top - outer.top - M.Shadow_Overlap - params.offset.y
        right := outer.right - box.right - M.Shadow_Overlap + params.offset.x
        bottom := outer.bottom - box.bottom - M.Shadow_Overlap + params.offset.y } := by
    subst hb ho hbs hs
    rfl
  have hinner : outer.marginsRemoved s.padding =
      { x1 := box.x1 - M.Shadow_Overlap - params.offset.x
        y1 := box.y1 - M.Shadow_Overlap - params.offset.y
        x2 := box.x2 + M.Shadow_Overlap - params.offset.x
        y2 := box.y2 + M.Shadow_Overlap - params.offset.y } := by
    rw [hpad]
    unfold QRect.marginsRemoved QRect.left QRect.right QRect.top QRect.bottom
    simp only [QRect.mk.injEq]
    refine ⟨?_, ?_, ?_, ?_⟩ <;> omega
  have hbw : box.width = boxSize.width ∧ box.height = boxSize.height := by
    rw [hb]
    unfold QRect.moveCenter QRect.ofPointSize QRect.ofXYWH QRect.width QRect.height
    dsimp only
    constructor <;> omega
  refine ⟨hpad, hinner, ?_, hbw.1, hbw.2, ?_, ?_, ?_, ?_, ?_⟩
  · subst hb ho hbs hs
    exact ⟨_, _, rfl, rfl⟩
  · rw [hinner]
    have := hbw.1
    unfold QRect.width at this ⊢
    dsimp only
    omega
  · rw [hinner]
    have := hbw.2
    unfold QRect.height at this ⊢
    dsimp only
    omega
  · rw [hpad]
    have := hbw.1
    unfold QRect.width QRect.left QRect.right at *
    dsimp only
    omega
  · rw [hpad]
    have := hbw.2
    unfold QRect.height QRect.top QRect.bottom at *
    dsimp only
    omega
  · intro E g d h hn
    rw [Decoration.createShadow_miss_some E M R g d h hn]

/-- C28 on the sample renderer and the shadow parameters Large (box 97 x 97,
texture 193 x 193, Shadow_Overlap 3, offset (0, 12)): padding (45, 33, 45, 57),
hole 103 x 103. -/
theorem createShadow_padding_and_hole_witness :
    (synthesizeShadow sampleMetrics sampleRenderer (s_shadowParams 3) 255 Qt.black).padding
      = { left := 45, top := 33, right := 45, bottom := 57 } ∧
    ((synthesizeShadow sampleMetrics sampleRenderer (s_shadowParams 3) 255
        Qt.black).shadow.rect.marginsRemoved
      (synthesizeShadow sampleMetrics sampleRenderer (s_shadowParams 3) 255 Qt.black).padding).width
      = 103 :=
  have h := createShadow_padding_and_hole sampleMetrics sampleRenderer (s_shadowParams 3) 255
    Qt.black _ rfl _ rfl _ rfl _ rfl
  ⟨h.1.trans (by decide), h.2.2.2.2.2.1.trans (by decide)⟩

/-! ## C29, C30: the caption height and the glyph of the Close button -/

/-- What `recalculateBorders` leaves alone: client, settings and the
window-specific settings, hence the title-bar test and the button height. -/
theorem Decoration.recalculateBorders_keeps (E : InternalSettings.Enum) (M : Metrics)
    (d : Decoration) :
    (d.recalculateBorders E M).client = d.client ∧
    (d.recalculateBorders E M).settings = d.settings ∧
    (d.recalculateBorders E M).m_internalSettings = d.m_internalSettings ∧
    (d.recalculateBorders E M).hideTitleBar = d.hideTitleBar ∧
    (d.recalculateBorders E M).buttonHeight E = d.buttonHeight E := by
  have h : (d.recalculateBorders E M).client = d.client ∧
      (d.recalculateBorders E M).settings = d.settings ∧
      (d.recalculateBorders E M).m_internalSettings = d.m_internalSettings := by
    unfold Decoration.recalculateBorders
    split
    · exact ⟨rfl, rfl, rfl⟩
    · exact ⟨rfl, rfl, rfl⟩
  obtain ⟨h1, h2, h3⟩ := h
  refine ⟨h1, h2, h3, ?_, ?_⟩
  · unfold Decoration.hideTitleBar
    rw [h1, h3]
  · unfold Decoration.buttonHeight
    rw [h2, h3]

/-- C29: for a present client, after `recalculateBorders` the caption height is
max(font height, buttonHeight()) when the title bar is shown, for every font
height, button size and spacing; it is then at least buttonHeight(), and the
vertical offset (captionHeight - buttonHeight) / 2 of the buttons is not negative.
When the title bar is hidden the caption height is the top border. -/
theorem captionHeight_undoes_margins (E : InternalSettings.Enum) (M : Metrics) (d : Decoration)
    (c : DecoratedClient) (hc : d.client = some c) :
    (d.hideTitleBar = false →
      (d.recalculateBorders E M).captionHeight M
        = max d.settings.fontMetrics.height (d.buttonHeight E) ∧
      (d.recalculateBorders E M).buttonHeight E ≤ (d.recalculateBorders E M).captionHeight M ∧
      0 ≤ Int.tdiv ((d.recalculateBorders E M).captionHeight M
        - (d.recalculateBorders E M).buttonHeight E) 2 ∧
      ∀ b ∈ ((d.recalculateBorders E M).updateButtonsGeometry E M).m_leftButtons.buttons
          ++ ((d.recalculateBorders E M).updateButtonsGeometry E M).m_rightButtons.buttons,
        (if (d.recalculateBorders E M).isTopEdge then
            d.settings.smallSpacing * M.TitleBar_TopMargin else 0) ≤ b.m_offset.y) ∧
    (d.hideTitleBar = true →
      (d.recalculateBorders E M).captionHeight M = (d.recalculateBorders E M).borderTop) ∧
    (d.hideTitleBar = true → d.captionHeight M = d.borderTop) := by
  obtain ⟨k1, k2, k3, k4, k5⟩ := Decoration.recalculateBorders_keeps E M d
  refine ⟨?_, ?_, ?_⟩
  · intro hh
    have ht : (d.recalculateBorders E M).borders.top
        = 0 + max d.settings.fontMetrics.height (d.buttonHeight E)
          + (d.settings.smallSpacing * M.TitleBar_BottomMargin + 1)
          + d.settings.smallSpacing * M.TitleBar_TopMargin := by
      simp only [Decoration.recalculateBorders, hc, hh, Bool.false_eq_true, if_false]
    have hcap : (d.recalculateBorders E M).captionHeight M
        = max d.settings.fontMetrics.height (d.buttonHeight E) := by
      unfold Decoration.captionHeight Decoration.borderTop
      rw [k4, if_neg (by simp [hh]), ht, k2, mul_add]
      omega
    have hle : (d.recalculateBorders E M).buttonHeight E
        ≤ (d.recalculateBorders E M).captionHeight M := by
      rw [hcap, k5]
      exact le_max_right _ _
    have hdiv : 0 ≤ Int.tdiv ((d.recalculateBorders E M).captionHeight M
        - (d.recalculateBorders E M).buttonHeight E) 2 := by
      rw [Int.tdiv_eq_ediv (by omega) (by decide)]
      omega
    refine ⟨hcap, hle, hdiv, ?_⟩
    intro b hb
    rw [(Decoration.updateButtonsGeometry_mem E M _ b hb).2.1, k2]
    omega
  · intro hh
    unfold Decoration.captionHeight
    rw [k4, if_pos hh]
  · intro hh
    unfold Decoration.captionHeight
    rw [if_pos hh]

/-- C29 on the sample decoration (font height 17, button height 20, margins 4 and
4): top border 29, caption height 29 - 8 - 1 = 20 = max(17, 20). -/
theorem captionHeight_undoes_margins_witness :
    (sampleDecoration.recalculateBorders sampleEnum sampleMetrics).borderTop = 29 ∧
    (sampleDecoration.recalculateBorders sampleEnum sampleMetrics).captionHeight sampleMetrics
      = 20 :=
  ⟨by decide,
   ((captionHeight_undoes_margins sampleEnum sampleMetrics sampleDecoration sampleClient
      rfl).1 rfl).1.trans (by decide)⟩

/-- C30: for a Close button of a decoration with a present client,
`foregroundColor` is the `titleBarColor()` of the decoration in every interaction
state: pressed or not, checked or not, hovered or not, animating or not, window
active or not. -/
theorem foregroundColor_close (E : InternalSettings.Enum) (mix : QColor → QColor → ℚ → QColor)
    (d : Decoration) (c : DecoratedClient) (b : Button) (hc : d.client = some c)
    (hk : b.type = DecorationButtonType.Close) :
    b.foregroundColor E mix (some d) = d.titleBarColor E ∧
    ∀ (pressed checked hovered : Bool) (a : QVariantAnimation) (opacity : ℚ) (active : Bool),
      Button.foregroundColor E mix
        (some { d with client := some { c with isActive := active } })
        { b with isPressed := pressed, isChecked := checked, isHovered := hovered
                 m_animation := a, m_opacity := opacity }
      = d.titleBarColor E := by
  have key : ∀ (d2 : Decoration) (c2 : DecoratedClient) (b2 : Button), d2.client = some c2 →
      b2.type = DecorationButtonType.Close →
      b2.foregroundColor E mix (some d2) = d2.titleBarColor E := by
    intro d2 c2 b2 h2 hk2
    unfold Button.foregroundColor
    simp only [h2, hk2, bne_self_eq_false, Bool.and_false, Bool.false_eq_true, if_false, if_true]
  refine ⟨key d c b hc hk, ?_⟩
  intro pressed checked hovered a opacity active
  exact key _ _ _ rfl hk

/-- C30 on a pressed, hovered, animating Close button of the sample decoration:
the glyph has the title-bar colour #2f343f. -/
theorem foregroundColor_close_witness :
    Button.foregroundColor sampleEnum KColorUtils.mix (some sampleDecoration)
      { sampleButton DecorationButtonType.Close with
        isPressed := true, isHovered := true
        m_animation := { sampleAnimation with state := QAbstractAnimation.State.Running } }
      = QColor.fromRgb 0x2f 0x34 0x3f :=
  (foregroundColor_close sampleEnum KColorUtils.mix sampleDecoration sampleClient
    { sampleButton DecorationButtonType.Close with
      isPressed := true, isHovered := true
      m_animation := { sampleAnimation with state := QAbstractAnimation.State.Running } }
    rfl rfl).1.trans rfl

end Arc
